import Mathlib

/-!
# PortScanner: a shallow embedding of the scan engine, the service detector
and the argument and configuration handling

The definitions below follow `src/include/Common.h`, `src/src/ServiceDetector.cpp`,
`src/src/ScanResults.cpp`, `src/src/AsyncScanner.cpp`, `src/src/ArgumentsManager.cpp`,
`src/src/ConfigManager.cpp`, `src/src/PortScanner.cpp` and `src/src/main.cpp`.

Conventions of the embedding

* `std::string` is a Lean `String`; one `Char` stands for one byte.
* `std::size_t` values are natural numbers; the only subtractions of the
  source are taken modulo `2 ^ 64` (`size_sub`).
* `float` confidences are stored in hundredths (`0.9f` is `90`): the source
  only assigns decimal constants and compares them with `>`.
* `std::chrono` instants and durations are integers counting milliseconds.
* Everything the operating system or the network decides (whether `socket`
  succeeds, what `epoll_wait` returns, the value of `SO_ERROR`, the bytes a
  peer sends, whether `cancel()` has been called) is read from an explicit
  environment `Env`.
* A loop that the source may run without bound takes a number of iterations
  `fuel`; a function built on such a loop returns a `Run`: the value returned,
  a raised exception, or `unfinished` when the iterations are used up.
* The worker threads of `PortScanner::scan_ports` are given by the results each
  adds in order; the scan returns any interleaving of them (`Interleaving`).
* A raised C++ exception is the value `none`.  The service detector never
  raises (`detect_service_total`), the progress callback is taken not to raise
  and has no effect on the state, so the `try` block of `scan_async` always
  runs to its end.
-/

namespace PortScanner

/-! ## Common.h -/

abbrev Port := Nat

inductive IPVersion where
  | IPv4
  | IPv6
  | AUTO
  deriving DecidableEq, Repr

inductive ScanType where
  | TCP_CONNECT
  | TCP_SYN
  | UDP
  | TCP_ACK
  | TCP_FIN
  deriving DecidableEq, Repr

inductive PortStatus where
  | OPEN
  | CLOSED
  | FILTERED
  | UNKNOWN
  | OPEN_FILTERED
  deriving DecidableEq, Repr

/-- Service information; `confidence` is in hundredths (`0.0f` is `0`). -/
structure ServiceInfo where
  name : String := ""
  version : String := ""
  product : String := ""
  extra_info : String := ""
  confidence : Nat := 0
  deriving DecidableEq, Repr

structure ScanResult where
  port : Port
  status : PortStatus
  response_time : Int
  service : ServiceInfo := {}
  banner : String := ""
  ip_version : IPVersion := IPVersion.IPv4
  deriving DecidableEq, Repr

/-- The scan configuration of `Common.h`; `timeout` counts milliseconds. -/
structure ScanConfig where
  target : String := "127.0.0.1"
  ports : List Port := []
  scan_type : ScanType := ScanType.TCP_CONNECT
  ip_version : IPVersion := IPVersion.AUTO
  timeout : Int := 3000
  thread_count : Nat := 100
  verbose : Bool := false
  service_detection : Bool := true
  banner_grabbing : Bool := true
  config_file : String := ""
  output_format : String := "txt"
  output_file : String := ""
  deriving DecidableEq, Repr

structure ServicePattern where
  pattern : String
  service_name : String
  version_regex : String
  confidence : Nat
  deriving DecidableEq, Repr

/-! ## std::string operations used by the service detector -/

/-- Search loop of `std::string::find`: the first index, counted from `i`,
at which `pat` starts in the remaining characters. -/
def findAux (pat : List Char) : List Char → Nat → Option Nat
  | [], i => if pat.isEmpty then some i else none
  | c :: cs, i => if pat.isPrefixOf (c :: cs) then some i else findAux pat cs (i + 1)

/-- The call `s.find(pat, pos)`; `none` is `std::string::npos`. -/
def find (s pat : String) (pos : Nat) : Option Nat :=
  if s.length < pos then none else findAux pat.data (s.data.drop pos) pos

/-- The call `s.find(c, pos)` for a single character. -/
def find_char (s : String) (c : Char) (pos : Nat) : Option Nat :=
  if s.length < pos then none else findAux [c] (s.data.drop pos) pos

/-- The call `s.substr(pos, len)`; `none` when it raises `std::out_of_range`,
that is when `pos > s.size()`. -/
def substr (s : String) (pos len : Nat) : Option String :=
  if s.length < pos then none else some ⟨(s.data.drop pos).take len⟩

/-- Subtraction of two `std::size_t` values. -/
def size_sub (a b : Nat) : Nat := (a + 2 ^ 64 - b % 2 ^ 64) % 2 ^ 64

/-- The idiom `end = s.find(a, pos); if (end == npos) end = s.find(b, pos); ...`. -/
def or_find (first : Option Nat) (next : Option Nat) : Option Nat :=
  match first with
  | some e => some e
  | none => next

/-! ## ServiceDetector.cpp -/

/-- The built-in table `SERVICE_PATTERNS`. -/
def SERVICE_PATTERNS : List (Port × List ServicePattern) :=
  [ (22, [⟨"SSH-", "ssh", "SSH-([0-9\\.]+)", 90⟩]),
    (21, [⟨"220", "ftp", "220.*?([A-Za-z0-9\\.]+)", 80⟩]),
    (80, [⟨"HTTP/", "http", "Server:\\s*([^\\r\\n]+)", 90⟩]),
    (443, [⟨"HTTP/", "https", "Server:\\s*([^\\r\\n]+)", 90⟩]),
    (25, [⟨"220", "smtp", "220\\s+([^\\s]+)", 80⟩]),
    (53, [⟨"", "dns", "", 70⟩]),
    (110, [⟨"+OK", "pop3", "\\+OK\\s+([^\\r\\n]+)", 80⟩]),
    (143, [⟨"* OK", "imap", "\\*\\s+OK\\s+([^\\r\\n]+)", 80⟩]),
    (3306, [⟨"", "mysql", "([0-9\\.]+)", 70⟩]),
    (5432, [⟨"", "postgresql", "", 70⟩]),
    (6379, [⟨"", "redis", "", 70⟩]),
    (27017, [⟨"", "mongodb", "", 70⟩]) ]

/-- The member `patterns_` of a `ServiceDetector`: an `unordered_map` from a
port to its ordered list of patterns, kept as an association list. -/
abbrev PatternTable := List (Port × List ServicePattern)

/-- The call `patterns_.find(port)`. -/
def PatternTable.find (patterns_ : PatternTable) (port : Port) : Option (List ServicePattern) :=
  patterns_.lookup port

/-- Embeds `ServiceDetector::add_pattern`: `patterns_[port].push_back(pattern)`. -/
def add_pattern : PatternTable → Port → ServicePattern → PatternTable
  | [], port, pattern => [(port, [pattern])]
  | (k, ps) :: rest, port, pattern =>
    if k = port then (k, ps ++ [pattern]) :: rest
    else (k, ps) :: add_pattern rest port pattern

/-- Embeds `NetworkUtils::get_service_name`: `getservbyport` is the lookup `services`
in the services database of the host. -/
def get_service_name (services : Port → Option String) (port : Port) : String :=
  match services port with
  | some s_name => s_name
  | none => "unknown"

/-- The version extraction inside the loop of `match_patterns`, taken when the
matched pattern has a non-empty `version_regex` and the literal `SSH-`. -/
def extract_ssh_version (banner : String) (info : ServiceInfo) : Option ServiceInfo :=
  match find banner "SSH-" 0 with
  | some pos =>
    match or_find (or_find (find_char banner ' ' pos) (find_char banner '\r' pos))
        (find_char banner '\n' pos) with
    | some end_ =>
      match substr banner (pos + 4) (size_sub (size_sub end_ pos) 4) with
      | some v => some { info with version := v }
      | none => none
    | none => some info
  | none => some info

/-- The `for` loop of `match_patterns` over the patterns of one port: stops at
the first pattern whose literal occurs in the banner. -/
def match_loop (banner : String) (info : ServiceInfo) : List ServicePattern → Option ServiceInfo
  | [] => some info
  | pattern :: rest =>
    if (find banner pattern.pattern 0).isSome then
      let info := { info with name := pattern.service_name, confidence := pattern.confidence }
      if pattern.version_regex ≠ "" ∧ pattern.pattern = "SSH-" then
        extract_ssh_version banner info
      else some info
    else match_loop banner info rest

/-- Embeds `ServiceDetector::match_patterns`. -/
def match_patterns (patterns_ : PatternTable) (services : Port → Option String)
    (port : Port) (banner : String) : Option ServiceInfo :=
  let looped : Option ServiceInfo :=
    match patterns_.find port with
    | some ps => match_loop banner {} ps
    | none => some {}
  match looped with
  | some info =>
    if info.name = "" then
      some { info with name := get_service_name services port, confidence := 50 }
    else some info
  | none => none

/-- Embeds `ServiceDetector::analyze_http_response`. -/
def analyze_http_response (response : String) : Option ServiceInfo :=
  let info : ServiceInfo := { name := "http", confidence := 80 }
  let served : Option ServiceInfo :=
    match find response "Server:" 0 with
    | some server_pos =>
      let start := server_pos + 8
      match or_find (find_char response '\r' start) (find_char response '\n' start) with
      | some end_ =>
        match substr response start (size_sub end_ start) with
        | some p => some { info with product := p, confidence := 90 }
        | none => none
      | none => some info
    | none => some info
  match served with
  | some info =>
    if (find response "HTTP/1.1" 0).isSome ∨ (find response "HTTP/2" 0).isSome then
      some { info with version := "1.1" }
    else some info
  | none => none

/-- Embeds `ServiceDetector::analyze_ssh_banner`. -/
def analyze_ssh_banner (banner : String) : Option ServiceInfo :=
  let info : ServiceInfo := { name := "ssh", confidence := 90 }
  match find banner "SSH-" 0 with
  | some ssh_pos =>
    let version_start := ssh_pos + 4
    match find_char banner '-' version_start with
    | some version_end =>
      match substr banner version_start (size_sub version_end version_start) with
      | some v =>
        let info := { info with version := v }
        let product_start := version_end + 1
        match or_find (or_find (find_char banner ' ' product_start)
            (find_char banner '\r' product_start)) (find_char banner '\n' product_start) with
        | some product_end =>
          match substr banner product_start (size_sub product_end product_start) with
          | some p => some { info with product := p, confidence := 95 }
          | none => none
        | none => some { info with confidence := 95 }
      | none => none
    | none => some info
  | none => some info

/-- Embeds `ServiceDetector::analyze_ftp_banner`. -/
def analyze_ftp_banner (banner : String) : Option ServiceInfo :=
  let info : ServiceInfo := { name := "ftp", confidence := 80 }
  if find banner "220" 0 = some 0 then
    let start := 4
    match or_find (find_char banner '\r' start) (find_char banner '\n' start) with
    | some end_ =>
      match substr banner start (size_sub end_ start) with
      | some p => some { info with product := p, confidence := 85 }
      | none => none
    | none => some info
  else some info

/-- The replacement rule of `detect_service`:
`if (x_info.confidence > info.confidence) info = x_info;`. -/
def prefer (analyzed : Option ServiceInfo) (info : ServiceInfo) : Option ServiceInfo :=
  match analyzed with
  | some x_info => if x_info.confidence > info.confidence then some x_info else some info
  | none => none

/-- Embeds `ServiceDetector::detect_service`.  `grabbed` is what `grab_banner(target,
port)` returns from the network; it is only used when `banner` is empty. -/
def detect_service (patterns_ : PatternTable) (services : Port → Option String)
    (grabbed : String) (port : Port) (banner : String) : Option ServiceInfo :=
  let service_banner := if banner = "" then grabbed else banner
  match match_patterns patterns_ services port service_banner with
  | some info =>
    if port = 80 ∨ port = 8080 ∨ port = 443 then
      prefer (analyze_http_response service_banner) info
    else if port = 22 then
      prefer (analyze_ssh_banner service_banner) info
    else if port = 21 then
      prefer (analyze_ftp_banner service_banner) info
    else some info
  | none => none

/-! ## ScanResults.cpp -/

/-- The member `results_` of a `ScanResults`. -/
abbrev ScanResults := List ScanResult

/-- Embeds `ScanResults::add_result(const ScanResult&)`: `results_.push_back(result)`. -/
def ScanResults.add_result (results_ : ScanResults) (result : ScanResult) : ScanResults :=
  results_ ++ [result]

/-! ## AsyncScanner.cpp: the environment -/

/-- One entry of the array filled by `epoll_wait`, together with what the
system answers while `handle_connection_event` treats it. -/
structure Readiness where
  /-- The descriptor `event.data.fd`. -/
  fd : Int
  /-- Whether `event.events & EPOLLOUT` is set. -/
  epollout : Bool := false
  /-- Whether `event.events & EPOLLERR` is set. -/
  epollerr : Bool := false
  /-- Whether `event.events & EPOLLHUP` is set. -/
  epollhup : Bool := false
  /-- The value `getsockopt(SO_ERROR)` stores in `error`; `none` when the call fails. -/
  so_error : Option Int := some 0
  /-- The content of the field `result.status`, never initialised, when no branch assigns it. -/
  indeterminate : PortStatus := PortStatus.UNKNOWN
  /-- What `grab_banner(target, port)` reads inside `detect_service`. -/
  detect_banner : String := ""
  /-- What `grab_banner(target, port, Duration{2000})` reads. -/
  banner : String := ""
  deriving DecidableEq, Repr

/-- One return of `epoll_wait`. -/
structure WaitOutcome where
  /-- Milliseconds spent inside the call. -/
  elapsed : Nat := 0
  /-- The reported events; `none` when the call returns a negative count. -/
  events : Option (List Readiness) := some []
  deriving DecidableEq, Repr

/-- What the operating system, the network and the caller of `cancel()` decide
during one scan.  Every stream is indexed by the number of earlier calls. -/
structure Env where
  /-- Whether the k-th call of `socket` succeeds. -/
  socket_ok : Nat → Bool
  /-- Whether the k-th `epoll_ctl(EPOLL_CTL_ADD)` returns 0. -/
  epoll_add_ok : Nat → Bool
  /-- What the k-th `epoll_wait` returns. -/
  wait : Nat → WaitOutcome
  /-- Whether `cancel()` has been called between the previous read of the flag and the k-th. -/
  cancel : Nat → Bool
  /-- The `getservbyport` database. -/
  services : Port → Option String

/-! ## AsyncScanner.cpp: the state -/

/-- Embeds `AsyncScanner::Connection`. -/
structure Connection where
  sockfd : Int
  port : Port
  start_time : Int
  connected : Bool := false
  deriving DecidableEq, Repr

/-- The members of an `AsyncScanner`, the `results` of the running
`scan_async`, and the part of the process the scanner acts on. -/
structure ScanState where
  cancelled_ : Bool := false
  completed_ports_ : Nat := 0
  open_ports_ : Nat := 0
  connections_ : List Connection := []
  /-- The `unordered_map` from a descriptor to an index of `connections_`:
  the first entry of a key is its value. -/
  fd_to_connection_ : List (Int × Nat) := []
  /-- The local `results` of `scan_async`. -/
  results : ScanResults := []
  /-- The set of descriptors currently open. -/
  open_fds : Finset Int := ∅
  /-- The reading of `std::chrono::steady_clock`; it advances inside `epoll_wait` only. -/
  now : Int := 0
  /-- Log: the port each call of `create_socket_for_target` was made for. -/
  socket_calls : List Port := []
  /-- The number of `epoll_ctl(EPOLL_CTL_ADD)` calls made so far. -/
  epoll_adds : Nat := 0
  /-- The number of `epoll_wait` calls made so far. -/
  waits : Nat := 0
  /-- The number of `cancelled_.load()` calls made so far. -/
  flag_reads : Nat := 0
  /-- Log: port and timeout (ms) of each call of `ServiceDetector::grab_banner`. -/
  banner_grabs : List (Port × Int) := []
  /-- Instrumentation: the largest size `connections_` has had, updated by the
  only statement that grows the table (`connections_.push_back`). -/
  peak_connections : Nat := 0

/-- The descriptor `socket` hands out: the lowest number that is not open. -/
def lowest_free (open_fds : Finset Int) : Nat :=
  ((List.range (open_fds.card + 1)).find? (fun (n : Nat) => decide (Int.ofNat n ∉ open_fds))).getD
    open_fds.card

/-- Embeds `close(fd)`. -/
def close (s : ScanState) (fd : Int) : ScanState :=
  { s with open_fds := s.open_fds.erase fd }

/-- Embeds `cancelled_.load()`: the flag once set stays set (`cancel()` only stores `true`). -/
def load_cancelled (env : Env) (s : ScanState) : ScanState :=
  { s with cancelled_ := s.cancelled_ || env.cancel s.flag_reads,
           flag_reads := s.flag_reads + 1 }

/-- Embeds `AsyncScanner::create_socket_for_target`, called for `port`: the result of
`socket(...)`, negative on failure. -/
def create_socket_for_target (env : Env) (s : ScanState) (port : Port) : Int × ScanState :=
  if env.socket_ok s.socket_calls.length then
    let sockfd : Int := Int.ofNat (lowest_free s.open_fds)
    (sockfd, { s with socket_calls := s.socket_calls ++ [port],
                      open_fds := insert sockfd s.open_fds })
  else
    (-1, { s with socket_calls := s.socket_calls ++ [port] })

/-- Embeds `AsyncScanner::is_ipv6_address`. -/
def is_ipv6_address (ip : String) : Bool := (find_char ip ':' 0).isSome

/-- The family tag written into every result. -/
def result_ip_version (cfg : ScanConfig) : IPVersion :=
  if is_ipv6_address cfg.target then IPVersion.IPv6 else IPVersion.IPv4

/-! ## AsyncScanner.cpp: the operations -/

/-- The body of the `for` loop of `AsyncScanner::create_connections` after the
cancellation test, for one port.  An exception of `create_sockaddr` is caught
after the record has been stored and changes nothing else; the outcome of the
non-blocking `connect` arrives through `epoll_wait`. -/
def connect_port (env : Env) (s : ScanState) (port : Port) : ScanState :=
  let (sockfd, s) := create_socket_for_target env s port
  if sockfd < 0 then s
  else
    let conn : Connection := { sockfd := sockfd, port := port, start_time := s.now }
    let added := env.epoll_add_ok s.epoll_adds
    let s := { s with epoll_adds := s.epoll_adds + 1 }
    if added then
      let conn_idx := s.connections_.length
      { s with connections_ := s.connections_ ++ [conn],
               fd_to_connection_ := (sockfd, conn_idx) :: s.fd_to_connection_,
               peak_connections := max s.peak_connections (s.connections_.length + 1) }
    else close s sockfd

/-- The `for` loop of `AsyncScanner::create_connections`. -/
def create_connections_loop (env : Env) : ScanState → List Port → ScanState
  | s, [] => s
  | s, port :: rest =>
    let s := load_cancelled env s
    if s.cancelled_ then s
    else create_connections_loop env (connect_port env s port) rest

/-- Embeds `AsyncScanner::create_connections`: the returned flag is `!connections_.empty()`. -/
def create_connections (env : Env) (s : ScanState) (ports : List Port) : Bool × ScanState :=
  let s := create_connections_loop env s ports
  (!s.connections_.isEmpty, s)

/-- What `handle_connection_event` computes before it stores anything. -/
structure Classified where
  result : ScanResult
  conn : Connection
  open_ports_ : Nat
  banner_grabs : List (Port × Int)

/-- The classification of `AsyncScanner::handle_connection_event`.  A fresh
`ServiceDetector` holds the built-in table. -/
def classify_event (cfg : ScanConfig) (env : Env) (s : ScanState) (conn : Connection)
    (event : Readiness) : Classified :=
  let result : ScanResult :=
    { port := conn.port, status := event.indeterminate,
      response_time := s.now - conn.start_time, ip_version := result_ip_version cfg }
  if event.epollout then
    if event.so_error = some 0 then
      let result := { result with status := PortStatus.OPEN }
      let conn := { conn with connected := true }
      if cfg.service_detection then
        let result := { result with service :=
          (detect_service SERVICE_PATTERNS env.services event.detect_banner conn.port "").getD {} }
        let banner_grabs := s.banner_grabs ++ [(conn.port, 5000)]
        if cfg.banner_grabbing then
          ⟨{ result with banner := event.banner }, conn, s.open_ports_ + 1,
            banner_grabs ++ [(conn.port, 2000)]⟩
        else ⟨result, conn, s.open_ports_ + 1, banner_grabs⟩
      else ⟨result, conn, s.open_ports_ + 1, s.banner_grabs⟩
    else ⟨{ result with status := PortStatus.CLOSED }, conn, s.open_ports_, s.banner_grabs⟩
  else if event.epollerr || event.epollhup then
    ⟨{ result with status := PortStatus.CLOSED }, conn, s.open_ports_, s.banner_grabs⟩
  else ⟨result, conn, s.open_ports_, s.banner_grabs⟩

/-- Embeds `AsyncScanner::handle_connection_event`. -/
def handle_connection_event (cfg : ScanConfig) (env : Env) (s : ScanState)
    (event : Readiness) : ScanState :=
  let sockfd := event.fd
  match s.fd_to_connection_.lookup sockfd with
  | none => s
  | some idx =>
    match s.connections_[idx]? with
    | none => s
    | some conn =>
      let c := classify_event cfg env s conn event
      { s with results := s.results.add_result c.result,
               completed_ports_ := s.completed_ports_ + 1,
               open_ports_ := c.open_ports_,
               banner_grabs := c.banner_grabs,
               open_fds := s.open_fds.erase sockfd,
               connections_ := s.connections_.set idx { c.conn with sockfd := -1 } }

/-- The branch `event_count == 0` of `process_events`: one `FILTERED` result
for every record whose `connected` flag is not set. -/
def mark_filtered (cfg : ScanConfig) (now : Int) : ScanResults → List Connection → ScanResults
  | results, [] => results
  | results, conn :: rest =>
    if !conn.connected then
      mark_filtered cfg now
        (results.add_result
          { port := conn.port, status := PortStatus.FILTERED,
            response_time := now - conn.start_time, ip_version := result_ip_version cfg })
        rest
    else mark_filtered cfg now results rest

/-- The constant `max_events` of `process_events`. -/
def max_events : Nat := 1000

/-- The `while` loop of `AsyncScanner::process_events`; `fuel` bounds the
number of iterations (every iteration that continues handles an event). -/
def process_loop (cfg : ScanConfig) (env : Env) : Nat → ScanState → Nat → ScanState
  | 0, s, _ => s
  | fuel + 1, s, processed =>
    if processed < s.connections_.length then
      let s := load_cancelled env s
      if s.cancelled_ then s
      else
        let w := env.wait s.waits
        let s := { s with waits := s.waits + 1, now := s.now + w.elapsed }
        match w.events with
        | none => s
        | some reported =>
          let events := reported.take max_events
          if events.length = 0 then
            { s with results := mark_filtered cfg s.now s.results s.connections_ }
          else
            process_loop cfg env fuel
              (events.foldl (handle_connection_event cfg env) s) (processed + events.length)
    else s

/-- Embeds `AsyncScanner::process_events`. -/
def process_events (cfg : ScanConfig) (env : Env) (s : ScanState) : ScanState :=
  process_loop cfg env s.connections_.length s 0

/-- The clean-up at the end of a batch in `scan_async`: closes every record
whose `sockfd` is not negative. -/
def close_all : ScanState → List Connection → ScanState
  | s, [] => s
  | s, conn :: rest => close_all (if conn.sockfd ≥ 0 then close s conn.sockfd else s) rest

/-- The clean-up at the end of a batch, with the two `clear()` calls. -/
def cleanup (s : ScanState) : ScanState :=
  { close_all s s.connections_ with connections_ := [], fd_to_connection_ := [] }

/-- The body of the batch loop of `scan_async` for the ports `batch_ports`. -/
def run_batch (cfg : ScanConfig) (env : Env) (s : ScanState) (batch_ports : List Port) :
    ScanState :=
  let created := create_connections env s batch_ports
  cleanup (if created.1 then process_events cfg env created.2 else created.2)

/-- The batch loop of `scan_async`, from index `i`.  The flag tells whether the
loop has ended within `fuel` batches. -/
def scan_loop (cfg : ScanConfig) (env : Env) (batch_size : Nat) :
    Nat → ScanState → Nat → ScanState × Bool
  | 0, s, _ => (s, false)
  | fuel + 1, s, i =>
    if i < cfg.ports.length then
      let s := load_cancelled env s
      if s.cancelled_ then (s, true)
      else
        let end_ := min (i + batch_size) cfg.ports.length
        let batch_ports := (cfg.ports.take end_).drop i
        scan_loop cfg env batch_size fuel (run_batch cfg env s batch_ports) (i + batch_size)
    else (s, true)

/-- The state in which the body of `scan_async` starts. -/
def scan_start (s : ScanState) : ScanState :=
  { s with results := [], cancelled_ := false, completed_ports_ := 0, open_ports_ := 0 }

/-- The body of `AsyncScanner::scan_async`, as a state transformer. -/
def scan_run (cfg : ScanConfig) (env : Env) (s : ScanState) : ScanState × Bool :=
  scan_loop cfg env (min cfg.thread_count cfg.ports.length) (cfg.ports.length + 1) (scan_start s) 0

/-- Embeds `AsyncScanner::scan_async`: the returned results; `none` when the batch loop
does not end. -/
def scan_async (cfg : ScanConfig) (env : Env) (s : ScanState) : Option ScanResults :=
  let r := scan_run cfg env s
  if r.2 then some r.1.results else none

/-- A scanner right after construction, in a process whose open descriptors
are `fds`, at time `t0`. -/
def fresh_scanner (fds : Finset Int) (t0 : Int) : ScanState :=
  { open_fds := fds, now := t0 }

/-! ## Predicates used in the statements -/

/-- The descriptor bookkeeping of one batch, relative to the set `base` of
descriptors that were open when the batch started. -/
def BatchFds (base : Finset Int) (s : ScanState) : Prop :=
  base ⊆ s.open_fds ∧
  (∀ x ∈ s.open_fds, x ∈ base ∨
    ∃ (j : Nat) (c : Connection), s.connections_[j]? = some c ∧ c.sockfd = x ∧ 0 ≤ x) ∧
  (∀ c ∈ s.connections_, 0 ≤ c.sockfd → c.sockfd ∉ base) ∧
  (∀ p ∈ s.fd_to_connection_, p.1 ∉ base ∧ p.2 < s.connections_.length ∧
    ∀ c : Connection, s.connections_[p.2]? = some c → c.sockfd = p.1 ∨ c.sockfd < 0)

/-- The table of a detector after `add_pattern(8080, p)`, where the pattern `p`
has the literal `HTTP/`, an empty `service_name` and confidence 0.9. -/
def unnamed_http_table : PatternTable :=
  add_pattern SERVICE_PATTERNS 8080 ⟨"HTTP/", "", "", 90⟩

/-! ## Concrete scans used to evaluate the engine -/

/-- Two ports scanned in one batch, with a deadline of one second. -/
def two_ports : ScanConfig :=
  { ports := [80, 81], timeout := 1000, thread_count := 100,
    service_detection := false, banner_grabbing := false }

/-- The process before the scan: standard input, output and error are open. -/
def std_fds : Finset Int := {0, 1, 2}

/-- Port 80 refuses the connection after 3 ms (its socket is descriptor 3);
port 81 never answers, so the second wait runs into its timeout. -/
def refused_then_silent : Env where
  socket_ok := fun _ => true
  epoll_add_ok := fun _ => true
  wait := fun k =>
    match k with
    | 0 => { elapsed := 3,
             events := some [{ fd := 3, epollout := true, epollerr := true, epollhup := true,
                               so_error := some 111 }] }
    | _ => { elapsed := 1000, events := some [] }
  cancel := fun _ => false
  services := fun _ => none

/-- The first call of `socket` fails; the second succeeds (descriptor 3) and
its connection to port 81 is accepted after 5 ms. -/
def first_socket_fails : Env where
  socket_ok := fun k => decide (k ≠ 0)
  epoll_add_ok := fun _ => true
  wait := fun _ => { elapsed := 5, events := some [{ fd := 3, epollout := true }] }
  cancel := fun _ => false
  services := fun _ => none

/-- Port 80 accepts after 900 ms (descriptor 3); port 81 never answers and the
second wait returns after exactly the 1000 ms it was called with. -/
def late_answer_then_silent : Env where
  socket_ok := fun _ => true
  epoll_add_ok := fun _ => true
  wait := fun k =>
    match k with
    | 0 => { elapsed := 900, events := some [{ fd := 3, epollout := true }] }
    | _ => { elapsed := 1000, events := some [] }
  cancel := fun _ => false
  services := fun _ => none

/-- A scanner holding one pending connection to port 80 on descriptor 3. -/
def one_pending : ScanState :=
  { connections_ := [{ sockfd := 3, port := 80, start_time := 0 }],
    fd_to_connection_ := [(3, 0)], open_fds := {0, 1, 2, 3}, now := 7, peak_connections := 1 }

/-- The event `epoll_wait` reports for a refused connection. -/
def refused_event : Readiness :=
  { fd := 3, epollout := true, epollerr := true, epollhup := true, so_error := some 111 }

/-- A scanner whose flag has been set after one result was emitted. -/
def cancelled_after_one : ScanState :=
  { cancelled_ := true,
    connections_ := [{ sockfd := 4, port := 80, start_time := 0 }],
    fd_to_connection_ := [(4, 0)], open_fds := {0, 1, 2, 4}, now := 9, peak_connections := 2,
    results := [{ port := 22, status := PortStatus.OPEN, response_time := 4 }] }

/-! ## String and stream operations used by the argument and configuration managers -/

/-- The three ways a call can end: it returns a value, it raises an exception,
or its loop has not ended within the given number of iterations. -/
inductive Run (α : Type) where
  | returns (a : α)
  | throws
  | unfinished
  deriving DecidableEq, Repr

/-- The constant `std::string::npos`, the largest `std::size_t`. -/
def npos : Nat := 2 ^ 64 - 1

/-- The `std::size_t` value of a search result. -/
def pos_of (found : Option Nat) : Nat :=
  match found with
  | some i => i
  | none => npos

/-- Addition of two `std::size_t` values. -/
def size_add (a b : Nat) : Nat := (a + b) % 2 ^ 64

/-- Embeds `::isspace` in the C locale. -/
def isspace (c : Char) : Bool :=
  c = ' ' || c = '\t' || c = '\n' || c = '\x0b' || c = '\x0c' || c = '\r'

/-- Embeds `std::isdigit`. -/
def isdigit (c : Char) : Bool := 48 ≤ c.toNat && c.toNat ≤ 57

/-- Embeds `::tolower` in the C locale. -/
def tolower (c : Char) : Char :=
  if 65 ≤ c.toNat ∧ c.toNat ≤ 90 then Char.ofNat (c.toNat + 32) else c

/-- The idiom `s.erase(std::remove_if(s.begin(), s.end(), ::isspace), s.end())`. -/
def remove_spaces (s : String) : String := ⟨s.data.filter (fun c => !isspace c)⟩

/-- The same idiom with the predicate `!std::isdigit(c)`: keeps the digits. -/
def keep_digits (s : String) : String := ⟨s.data.filter isdigit⟩

/-- The idiom `std::transform(s.begin(), s.end(), s.begin(), ::tolower)`. -/
def to_lower (s : String) : String := ⟨s.data.map tolower⟩

/-- Repeated `std::getline(stream, token, delim)` until it fails: `cur` is the
part of the current token read so far, `pending` tells whether the current
call has extracted a character. -/
def getline_loop (delim : Char) : List Char → List Char → Bool → List String
  | [], cur, pending => if pending then [⟨cur⟩] else []
  | c :: cs, cur, _ =>
    if c = delim then ⟨cur⟩ :: getline_loop delim cs [] false
    else getline_loop delim cs (cur ++ [c]) true

/-- The tokens read by `while (std::getline(stream, token, delim))`. -/
def getlines (delim : Char) (text : String) : List String :=
  getline_loop delim text.data [] false

/-- The value of a run of decimal digits. -/
def digits_value (ds : List Char) : Nat :=
  ds.foldl (fun a c => 10 * a + (c.toNat - 48)) 0

/-- The sign and the digits `strtol` reads: leading white space is skipped, one
sign is accepted, the digits end at the first other character. -/
def scan_number (s : String) : Bool × List Char :=
  match s.data.dropWhile isspace with
  | '-' :: rest => (true, rest.takeWhile isdigit)
  | '+' :: rest => (false, rest.takeWhile isdigit)
  | rest => (false, rest.takeWhile isdigit)

/-- Embeds `std::stoi`: `none` when it raises `std::invalid_argument` (no digit)
or `std::out_of_range` (the value is not an `int`). -/
def stoi (s : String) : Option Int :=
  let scanned := scan_number s
  if scanned.2 = [] then none
  else
    let v : Int := if scanned.1 then -(digits_value scanned.2 : Int) else digits_value scanned.2
    if v < -(2 ^ 31) ∨ 2 ^ 31 - 1 < v then none else some v

/-- Embeds `std::stoul`: `none` when it raises; a minus sign negates modulo `2 ^ 64`. -/
def stoul (s : String) : Option Nat :=
  let scanned := scan_number s
  if scanned.2 = [] then none
  else if 2 ^ 64 - 1 < digits_value scanned.2 then none
  else if scanned.1 then some ((2 ^ 64 - digits_value scanned.2) % 2 ^ 64)
  else some (digits_value scanned.2)

/-- The conversion of an `int` to `Port`, a 16-bit unsigned integer. -/
def to_port (v : Int) : Port := (v % 65536).toNat

/-- The text `operator<<` writes for an unsigned integer. -/
def print_nat (n : Nat) : String := ⟨Nat.toDigits 10 n⟩

/-- The text `operator<<` writes for a signed integer. -/
def print_int (v : Int) : String :=
  if v < 0 then "-" ++ print_nat v.natAbs else print_nat v.toNat

/-! ## ArgumentsManager.cpp -/

/-- The loop `for (Port p = start; p <= end; ++p) ports.push_back(p);` of
`parse_port_range`: `p` is a 16-bit unsigned integer, so `++p` wraps; `none`
when the loop has not ended after `fuel` iterations. -/
def port_range_loop : Nat → Port → Port → List Port → Option (List Port)
  | 0, _, _, _ => none
  | fuel + 1, p, end_, ports =>
    if p ≤ end_ then port_range_loop fuel ((p + 1) % 65536) end_ (ports ++ [p])
    else some ports

/-- The body of the `while` loop of `parse_port_range` for one token. -/
def parse_port_token (fuel : Nat) (ports : List Port) (raw : String) : Run (List Port) :=
  let token := remove_spaces raw
  match find_char token '-' 0 with
  | some dash_pos =>
    match substr token 0 dash_pos with
    | none => Run.throws
    | some first =>
      match stoi first with
      | none => Run.throws
      | some start_value =>
        match substr token (dash_pos + 1) npos with
        | none => Run.throws
        | some second =>
          match stoi second with
          | none => Run.throws
          | some end_value =>
            let start := to_port start_value
            let end_ := to_port end_value
            let swapped := decide (start > end_)
            match port_range_loop fuel (if swapped then end_ else start)
                (if swapped then start else end_) ports with
            | some ports => Run.returns ports
            | none => Run.unfinished
  | none =>
    match stoi token with
    | none => Run.throws
    | some value => Run.returns (ports ++ [to_port value])

/-- The `while` loop of `parse_port_range` over the tokens. -/
def parse_port_tokens (fuel : Nat) : List Port → List String → Run (List Port)
  | ports, [] => Run.returns ports
  | ports, token :: rest =>
    match parse_port_token fuel ports token with
    | Run.returns ports => parse_port_tokens fuel ports rest
    | Run.throws => Run.throws
    | Run.unfinished => Run.unfinished

/-- Embeds `std::unique` followed by `erase`: drops every element equal to its predecessor. -/
def unique : List Port → List Port
  | [] => []
  | [a] => [a]
  | a :: b :: rest => if a = b then unique (b :: rest) else a :: unique (b :: rest)

/-- Embeds `ArgumentsManager::parse_port_range`; every range loop may run `fuel` iterations. -/
def parse_port_range (fuel : Nat) (port_str : String) : Run (List Port) :=
  match parse_port_tokens fuel [] (getlines ',' port_str) with
  | Run.returns ports => Run.returns (unique (ports.insertionSort (· ≤ ·)))
  | Run.throws => Run.throws
  | Run.unfinished => Run.unfinished

/-- The constant `MIN_PORT`. -/
def MIN_PORT : Port := 1

/-- The constant `MAX_PORT`. -/
def MAX_PORT : Port := 65535

/-- What `validate_config` asks the system: `inet_pton` on a literal and the resolver. -/
structure Resolver where
  /-- Embeds `NetworkUtils::is_valid_ipv4`. -/
  is_valid_ipv4 : String → Bool
  /-- Embeds `NetworkUtils::resolve_hostname`; `none` when it raises. -/
  resolve_hostname : String → Option String

/-- Embeds `ArgumentsManager::validate_config`: the validated `config_`, or
`none` when an `ArgumentError` is raised. -/
def validate_config (net : Resolver) (config_ : ScanConfig) : Option ScanConfig :=
  let resolved : Option ScanConfig :=
    if !net.is_valid_ipv4 config_.target && config_.ip_version ≠ IPVersion.IPv6 then
      match net.resolve_hostname config_.target with
      | some ip => some { config_ with target := ip }
      | none => none
    else some config_
  match resolved with
  | none => none
  | some config_ =>
    if config_.timeout ≤ 0 ∨ config_.timeout > 60000 then none
    else if config_.thread_count = 0 ∨ config_.thread_count > 2000 then none
    else if config_.ports.isEmpty then none
    else if config_.ports.any (fun port => port < MIN_PORT || port > MAX_PORT) then none
    else if config_.output_format ≠ "txt" ∧ config_.output_format ≠ "json" ∧
        config_.output_format ≠ "xml" then none
    else some config_

/-! ## ConfigManager.cpp -/

/-- The constant `DEFAULT_TIMEOUT` of `Common.h`, in milliseconds. -/
def DEFAULT_TIMEOUT : Int := 3000

/-- The constant `DEFAULT_THREAD_COUNT` of `Common.h`. -/
def DEFAULT_THREAD_COUNT : Nat := 100

/-- Embeds `ConfigManager::create_default_config`. -/
def create_default_config : ScanConfig :=
  { target := "127.0.0.1",
    ports := [21, 22, 23, 25, 53, 80, 110, 111, 135, 139, 143, 443, 993, 995, 1723, 3306, 3389,
      5432, 5900, 8080],
    scan_type := ScanType.TCP_CONNECT,
    ip_version := IPVersion.AUTO,
    timeout := DEFAULT_TIMEOUT,
    thread_count := DEFAULT_THREAD_COUNT,
    verbose := false,
    service_detection := true,
    banner_grabbing := true,
    output_format := "txt" }

/-- Embeds `ConfigManager::merge_configs`. -/
def merge_configs (file_config cli_config : ScanConfig) : ScanConfig :=
  let merged := file_config
  let merged :=
    if cli_config.target ≠ "" ∧ cli_config.target ≠ "127.0.0.1" then
      { merged with target := cli_config.target }
    else merged
  let merged :=
    if ¬ cli_config.ports.isEmpty then { merged with ports := cli_config.ports } else merged
  let merged :=
    if cli_config.scan_type ≠ ScanType.TCP_CONNECT then
      { merged with scan_type := cli_config.scan_type }
    else merged
  let merged :=
    if cli_config.timeout ≠ DEFAULT_TIMEOUT then { merged with timeout := cli_config.timeout } else merged
  let merged :=
    if cli_config.thread_count ≠ DEFAULT_THREAD_COUNT then
      { merged with thread_count := cli_config.thread_count }
    else merged
  let merged := { merged with verbose := cli_config.verbose || file_config.verbose }
  let merged :=
    if cli_config.output_file ≠ "" then { merged with output_file := cli_config.output_file }
    else merged
  if cli_config.output_format ≠ "txt" then
    { merged with output_format := cli_config.output_format }
  else merged

/-- The `while` loop of `ConfigManager::parse_port_string` over the tokens;
`none` when `std::stoi` raises. -/
def parse_port_string_loop : List Port → List String → Option (List Port)
  | ports, [] => some ports
  | ports, raw :: rest =>
    let token := remove_spaces raw
    if token ≠ "" then
      match stoi token with
      | some value => parse_port_string_loop (ports ++ [to_port value]) rest
      | none => none
    else parse_port_string_loop ports rest

/-- Embeds `ConfigManager::parse_port_string`. -/
def parse_port_string (port_str : String) : Option (List Port) :=
  parse_port_string_loop [] (getlines ',' port_str)

/-- Embeds `ConfigManager::string_to_scan_type`. -/
def string_to_scan_type (type_str : String) : ScanType :=
  let lower_type := to_lower type_str
  if lower_type = "tcp" ∨ lower_type = "connect" then ScanType.TCP_CONNECT
  else if lower_type = "syn" then ScanType.TCP_SYN
  else if lower_type = "udp" then ScanType.UDP
  else if lower_type = "ack" then ScanType.TCP_ACK
  else if lower_type = "fin" then ScanType.TCP_FIN
  else ScanType.TCP_CONNECT

/-- Embeds `ConfigManager::scan_type_to_string`. -/
def scan_type_to_string (type : ScanType) : String :=
  match type with
  | ScanType.TCP_CONNECT => "tcp"
  | ScanType.TCP_SYN => "syn"
  | ScanType.UDP => "udp"
  | ScanType.TCP_ACK => "ack"
  | ScanType.TCP_FIN => "fin"

/-- Embeds `ConfigManager::string_to_ip_version`. -/
def string_to_ip_version (version_str : String) : IPVersion :=
  let lower_version := to_lower version_str
  if lower_version = "ipv4" ∨ lower_version = "4" then IPVersion.IPv4
  else if lower_version = "ipv6" ∨ lower_version = "6" then IPVersion.IPv6
  else IPVersion.AUTO

/-- Embeds `ConfigManager::ip_version_to_string`. -/
def ip_version_to_string (version : IPVersion) : String :=
  match version with
  | IPVersion.IPv4 => "ipv4"
  | IPVersion.IPv6 => "ipv6"
  | IPVersion.AUTO => "auto"

/-- The extraction used for the keys `target` and `scan_type` in
`load_json_config`: the text between the first double quote after the first
colon and the next double quote.  The outer `none` is a raised exception, the
inner `none` the case where the test `start != npos && end != npos` fails. -/
def quoted_value (line : String) : Option (Option String) :=
  let start := size_add (pos_of (find_char line '"' (pos_of (find_char line ':' 0)))) 1
  let end_ := pos_of (find_char line '"' start)
  if start ≠ npos ∧ end_ ≠ npos then
    match substr line start (size_sub end_ start) with
    | some value => some (some value)
    | none => none
  else some none

/-- The extraction used for the key `ports`: the text between the first `[` and the first `]`. -/
def bracketed_value (line : String) : Option (Option String) :=
  let start := size_add (pos_of (find_char line '[' 0)) 1
  let end_ := pos_of (find_char line ']' 0)
  if start ≠ npos ∧ end_ ≠ npos then
    match substr line start (size_sub end_ start) with
    | some value => some (some value)
    | none => none
  else some none

/-- The extraction used for the keys `timeout` and `threads`: the digits found
between the first colon and the next comma, or the end of the line. -/
def number_value (line : String) : Option String :=
  let start := size_add (pos_of (find_char line ':' 0)) 1
  let end_ :=
    match find_char line ',' start with
    | some e => e
    | none => line.length
  match substr line start (size_sub end_ start) with
  | some text => some (keep_digits text)
  | none => none

/-- The body of the `while` loop of `ConfigManager::load_json_config` for one
line of the file; `none` when an exception is raised (`std::stoi`,
`std::stoul`, `substr`). -/
def load_json_line (config : ScanConfig) (raw : String) : Option ScanConfig :=
  let line := remove_spaces raw
  if (find line "\"target\":" 0).isSome then
    match quoted_value line with
    | none => none
    | some none => some config
    | some (some value) => some { config with target := value }
  else if (find line "\"ports\":" 0).isSome then
    match bracketed_value line with
    | none => none
    | some none => some config
    | some (some ports_str) =>
      match parse_port_string ports_str with
      | some ports => some { config with ports := ports }
      | none => none
  else if (find line "\"scan_type\":" 0).isSome then
    match quoted_value line with
    | none => none
    | some none => some config
    | some (some value) => some { config with scan_type := string_to_scan_type value }
  else if (find line "\"timeout\":" 0).isSome then
    match number_value line with
    | none => none
    | some timeout_str =>
      if timeout_str ≠ "" then
        match stoi timeout_str with
        | some value => some { config with timeout := value }
        | none => none
      else some config
  else if (find line "\"threads\":" 0).isSome then
    match number_value line with
    | none => none
    | some threads_str =>
      if threads_str ≠ "" then
        match stoul threads_str with
        | some value => some { config with thread_count := value }
        | none => none
      else some config
  else some config

/-- The `while` loop of `load_json_config` over the lines of the file. -/
def load_json_lines : ScanConfig → List String → Option ScanConfig
  | config, [] => some config
  | config, line :: rest =>
    match load_json_line config line with
    | some config => load_json_lines config rest
    | none => none

/-- Embeds `ConfigManager::load_json_config` on a file that could be opened and
holds `content`; `none` when an exception is raised. -/
def load_json_config (content : String) : Option ScanConfig :=
  load_json_lines create_default_config (getlines '\n' content)

/-- The loop of `save_json_config` that writes the ports, separated by `", "`. -/
def write_ports : List Port → String
  | [] => ""
  | [p] => print_nat p
  | p :: q :: rest => print_nat p ++ ", " ++ write_ports (q :: rest)

/-- The text `operator<<` writes for `flag ? "true" : "false"`. -/
def print_bool (flag : Bool) : String := if flag then "true" else "false"

/-- Embeds `ConfigManager::save_json_config` on a file that could be opened:
the text written to the file. -/
def save_json_config (config : ScanConfig) : String :=
  "\x7b\n" ++
  "  \"target\": \"" ++ config.target ++ "\",\n" ++
  "  \"ports\": [" ++ write_ports config.ports ++ "],\n" ++
  "  \"scan_type\": \"" ++ scan_type_to_string config.scan_type ++ "\",\n" ++
  "  \"ip_version\": \"" ++ ip_version_to_string config.ip_version ++ "\",\n" ++
  "  \"timeout\": " ++ print_int config.timeout ++ ",\n" ++
  "  \"threads\": " ++ print_nat config.thread_count ++ ",\n" ++
  "  \"verbose\": " ++ print_bool config.verbose ++ ",\n" ++
  "  \"service_detection\": " ++ print_bool config.service_detection ++ ",\n" ++
  "  \"banner_grabbing\": " ++ print_bool config.banner_grabbing ++ ",\n" ++
  "  \"output_format\": \"" ++ config.output_format ++ "\"\n" ++
  "\x7d\n"

/-! ## ServiceDetector.cpp: banner grabbing -/

/-- One call the banner grabber makes on a socket; a socket is named by the
number of sockets the grabber had created before it. -/
inductive SockOp where
  | socket (id : Nat)
  | connect (id : Nat) (port : Port)
  | send (id : Nat) (bytes : String)
  | recv (id : Nat) (capacity : Nat)
  | close (id : Nat)
  deriving DecidableEq, Repr

/-- What the system and the peer decide for one socket of the banner grabber. -/
structure Dial where
  /-- Whether `NetworkUtils::create_tcp_socket` returns (it raises otherwise). -/
  socket_ok : Bool := true
  /-- Whether `connect` returns 0. -/
  connect_ok : Bool := true
  /-- The bytes the peer has ready for `recv`; none when `recv` returns 0 or -1. -/
  received : String := ""
  deriving DecidableEq, Repr

/-- The network as seen by the banner grabber. -/
structure GrabEnv where
  /-- Whether `NetworkUtils::create_sockaddr` accepts the target (`inet_pton` succeeds);
  it raises otherwise. -/
  addr_ok : String → Bool
  /-- What happens to the k-th socket the grabber creates. -/
  dial : Nat → Dial

/-- The trace of the banner grabber. -/
structure Wire where
  /-- The number of `create_tcp_socket` calls made so far. -/
  dials : Nat := 0
  /-- The socket calls made so far, oldest first. -/
  ops : List SockOp := []
  /-- Port and timeout (ms) of each call of `grab_banner` made so far. -/
  grabs : List (Port × Int) := []
  deriving DecidableEq, Repr

/-- The bytes passed to `send`, oldest first. -/
def sent_bytes : List SockOp → List String
  | [] => []
  | SockOp.send _ bytes :: rest => bytes :: sent_bytes rest
  | _ :: rest => sent_bytes rest

/-- The string `std::string(buffer, received)` after `recv` into a buffer that
leaves room for `capacity` bytes; empty when nothing was received. -/
def recv_into (capacity : Nat) (d : Dial) : String := ⟨d.received.data.take capacity⟩

/-- Embeds `ServiceDetector::grab_tcp_banner`. -/
def grab_tcp_banner (net : GrabEnv) (w : Wire) (target : String) (port : Port)
    (_timeout : Int) : String × Wire :=
  let id := w.dials
  let d := net.dial id
  let w := { w with dials := w.dials + 1 }
  if !d.socket_ok then ("", w)
  else
    let w := { w with ops := w.ops ++ [SockOp.socket id] }
    if !net.addr_ok target then ("", w)
    else
      let w := { w with ops := w.ops ++ [SockOp.connect id port] }
      if d.connect_ok then
        let w := { w with ops := w.ops ++ [SockOp.recv id 1023, SockOp.close id] }
        if (recv_into 1023 d).length > 0 then (recv_into 1023 d, w)
        else ("", { w with ops := w.ops ++ [SockOp.close id] })
      else ("", { w with ops := w.ops ++ [SockOp.close id] })

/-- The request `grab_http_banner` sends. -/
def http_request (target : String) : String :=
  "GET / HTTP/1.1\r\nHost: " ++ target ++ "\r\nConnection: close\r\n\r\n"

/-- Embeds `ServiceDetector::grab_http_banner`. -/
def grab_http_banner (net : GrabEnv) (w : Wire) (target : String) (port : Port)
    (timeout : Int) : String × Wire :=
  let id := w.dials
  let d := net.dial id
  let w := { w with dials := w.dials + 1 }
  if !d.socket_ok then grab_tcp_banner net w target port timeout
  else
    let w := { w with ops := w.ops ++ [SockOp.socket id] }
    if !net.addr_ok target then grab_tcp_banner net w target port timeout
    else
      let w := { w with ops := w.ops ++ [SockOp.connect id port] }
      if d.connect_ok then
        let w := { w with ops := w.ops ++
          [SockOp.send id (http_request target), SockOp.recv id 4095, SockOp.close id] }
        if (recv_into 4095 d).length > 0 then (recv_into 4095 d, w)
        else grab_tcp_banner net { w with ops := w.ops ++ [SockOp.close id] } target port timeout
      else grab_tcp_banner net { w with ops := w.ops ++ [SockOp.close id] } target port timeout

/-- Embeds `ServiceDetector::grab_ssl_banner`. -/
def grab_ssl_banner (net : GrabEnv) (w : Wire) (target : String) (port : Port)
    (timeout : Int) : String × Wire :=
  grab_tcp_banner net w target port timeout

/-- Embeds `ServiceDetector::grab_banner`. -/
def grab_banner (net : GrabEnv) (w : Wire) (target : String) (port : Port)
    (timeout : Int) : String × Wire :=
  let w := { w with grabs := w.grabs ++ [(port, timeout)] }
  if port = 80 ∨ port = 8080 then grab_http_banner net w target port timeout
  else if port = 443 then grab_ssl_banner net w target port timeout
  else grab_tcp_banner net w target port timeout

/-- Embeds `ServiceDetector::detect_service` together with the banner grab it
makes when it is given an empty banner (default timeout 5000 ms). -/
def detect_service_on (net : GrabEnv) (patterns_ : PatternTable)
    (services : Port → Option String) (w : Wire) (target : String) (port : Port)
    (banner : String) : Option ServiceInfo × Wire :=
  if banner = "" then
    let grabbed := grab_banner net w target port 5000
    (detect_service patterns_ services grabbed.1 port banner, grabbed.2)
  else (detect_service patterns_ services "" port banner, w)

/-! ## PortScanner.cpp: the connect scan -/

/-- What the system decides for the socket of one `tcp_connect_scan`. -/
structure Probe where
  /-- Whether `NetworkUtils::create_tcp_socket` returns (it raises otherwise). -/
  socket_ok : Bool := true
  /-- The value the blocking `connect` returns. -/
  connect_result : Int := 0
  /-- Milliseconds between `start_time` and `end_time`. -/
  elapsed : Nat := 0
  deriving DecidableEq, Repr

/-- Embeds `PortScanner::tcp_connect_scan` (the member `service_detector_` is
set by the constructor and holds the built-in table); `none` when an
exception is raised. -/
def tcp_connect_scan (cfg : ScanConfig) (net : GrabEnv) (services : Port → Option String)
    (probe : Probe) (w : Wire) (port : Port) : Option (ScanResult × Wire) :=
  if !probe.socket_ok then none
  else if !net.addr_ok cfg.target then none
  else
    let scan_result : ScanResult :=
      { port := port,
        status := if probe.connect_result = 0 then PortStatus.OPEN else PortStatus.CLOSED,
        response_time := probe.elapsed,
        ip_version := result_ip_version cfg }
    if scan_result.status = PortStatus.OPEN ∧ cfg.service_detection = true then
      let detected := detect_service_on net SERVICE_PATTERNS services w cfg.target port ""
      match detected.1 with
      | none => none
      | some service =>
        let scan_result := { scan_result with service := service }
        if cfg.banner_grabbing then
          let grabbed := grab_banner net detected.2 cfg.target port 2000
          some ({ scan_result with banner := grabbed.1 }, grabbed.2)
        else some (scan_result, detected.2)
    else some (scan_result, w)

/-! ## Well-formed port specifications -/

/-- A token of a port specification: a number `n` or a range `a-b`. -/
inductive PortToken where
  | single (n : Nat)
  | range (a b : Nat)
  deriving DecidableEq, Repr

/-- The text of a token, numbers in decimal. -/
def PortToken.text : PortToken → String
  | PortToken.single n => print_nat n
  | PortToken.range a b => print_nat a ++ "-" ++ print_nat b

/-- The text of a port specification: its tokens separated by commas. -/
def port_spec_text : List PortToken → String
  | [] => ""
  | [t] => t.text
  | t :: u :: rest => t.text ++ "," ++ port_spec_text (u :: rest)

/-- All numbers of the token are in `[1, 65535]`. -/
def PortToken.in_range : PortToken → Prop
  | PortToken.single n => 1 ≤ n ∧ n ≤ 65535
  | PortToken.range a b => 1 ≤ a ∧ a ≤ 65535 ∧ 1 ≤ b ∧ b ≤ 65535

/-- The ports a token names: `n` itself, or every port from `min(a,b)` to `max(a,b)`. -/
def PortToken.names : PortToken → Nat → Prop
  | PortToken.single n, p => p = n
  | PortToken.range a b, p => min a b ≤ p ∧ p ≤ max a b

/-! ## Concrete inputs of the argument and configuration theorems -/

/-- A resolver for runs whose target is an IPv4 literal: `inet_pton` accepts it
and the hostname resolver is never needed. -/
def literal_resolver : Resolver :=
  { is_valid_ipv4 := fun _ => true, resolve_hostname := fun name => some name }

/-- The command-line config after `-p <port_str>` parsed to `ports`: the
defaults of `parse_arguments` with the port list replaced. -/
def cli_with_ports (ports : List Port) : ScanConfig :=
  { create_default_config with ports := ports }

/-! ## ConfigManager::load_from_file and the configuration steps of main.cpp -/

/-- Search loop of `s.find_last_of(c)`: the last index at which `c` stands. -/
def find_last_loop (c : Char) : List Char → Nat → Option Nat → Option Nat
  | [], _, last => last
  | d :: ds, i, last => find_last_loop c ds (i + 1) (if d = c then some i else last)

/-- The call `s.find_last_of(c)`; `none` is `std::string::npos`. -/
def find_last_of (s : String) (c : Char) : Option Nat :=
  find_last_loop c s.data 0 none

/-- The lambda `extract_tag_value` of `load_xml_config`; `none` when `substr` raises. -/
def extract_tag_value (content tag : String) : Option String :=
  let start_tag := "<" ++ tag ++ ">"
  let end_tag := "</" ++ tag ++ ">"
  match find content start_tag 0 with
  | none => some ""
  | some start =>
    let start := size_add start start_tag.length
    match find content end_tag start with
    | none => some ""
    | some end_ => substr content start (size_sub end_ start)

/-- Embeds `ConfigManager::load_xml_config` on a file that could be opened and
holds `content`; `none` when an exception is raised. -/
def load_xml_config (content : String) : Option ScanConfig :=
  let config := create_default_config
  match extract_tag_value content "target" with
  | none => none
  | some target =>
    let config := if target ≠ "" then { config with target := target } else config
    match extract_tag_value content "scan_type" with
    | none => none
    | some scan_type =>
      let config :=
        if scan_type ≠ "" then { config with scan_type := string_to_scan_type scan_type }
        else config
      match extract_tag_value content "timeout" with
      | none => none
      | some timeout =>
        let timeout_value : Option ScanConfig :=
          if timeout ≠ "" then
            match stoi timeout with
            | some value => some { config with timeout := value }
            | none => none
          else some config
        match timeout_value with
        | none => none
        | some config =>
          match extract_tag_value content "threads" with
          | none => none
          | some threads =>
            if threads ≠ "" then
              match stoul threads with
              | some value => some { config with thread_count := value }
              | none => none
            else some config

/-- Embeds `ConfigManager::load_from_file`; `read_file` is the file system (the
content of a file that can be opened); `none` when an exception is raised. -/
def load_from_file (read_file : String → Option String) (filename : String) :
    Option ScanConfig :=
  match substr filename (size_add (pos_of (find_last_of filename '.')) 1) npos with
  | none => none
  | some raw_extension =>
    let extension := to_lower raw_extension
    if extension = "json" then
      match read_file filename with
      | some content => load_json_config content
      | none => none
    else if extension = "xml" then
      match read_file filename with
      | some content => load_xml_config content
      | none => none
    else none

/-- The configuration steps of `main`: `cli_config` is what `parse_arguments`
built; the `ArgumentsManager` constructor validates it (`none`: the program
ends with the `ArgumentError`); when a config file is named and can be loaded,
the result is `merge_configs(file_config, config)`, and a load failure only
prints a warning.  The value is the config given to the scanner. -/
def main_config (net : Resolver) (read_file : String → Option String)
    (cli_config : ScanConfig) : Option ScanConfig :=
  match validate_config net cli_config with
  | none => none
  | some config =>
    if config.config_file ≠ "" then
      match load_from_file read_file config.config_file with
      | some file_config => some (merge_configs file_config config)
      | none => some config
    else some config

/-- A config file that asks for a deadline of 100000 ms and 5000 threads. -/
def oversized_file : String := "\x7b\n  \"timeout\": 100000,\n  \"threads\": 5000\n\x7d\n"

/-- The command line `-c scan.json`: the defaults with the config file named. -/
def cli_with_file : ScanConfig := { create_default_config with config_file := "scan.json" }

/-! ## Concrete inputs of the service-detection theorems -/

/-- The config of a run with `-B` (`--no-banner-grab`) and service detection left on. -/
def detection_without_banner : ScanConfig :=
  { ports := [80], timeout := 1000, thread_count := 100,
    service_detection := true, banner_grabbing := false }

/-- The event `epoll_wait` reports for an accepted connection on descriptor 3. -/
def accepted_event : Readiness := { fd := 3, epollout := true, so_error := some 0 }

/-- A network in which every grabber socket connects and the peer answers as a web server. -/
def web_server : GrabEnv :=
  { addr_ok := fun _ => true,
    dial := fun _ => { received := "HTTP/1.1 200 OK\r\nServer: nginx\r\n\r\n" } }

/-- An SSH identification line ended by CR LF and followed by text that holds a space. -/
def ssh_banner_with_later_space : String :=
  "SSH-2.0-OpenSSH_8.9p1\r\nInvalid SSH identification string.\r\n"

/-- A config file that names a target, two ports, the scan type and both numbers. -/
def sample_json : String :=
  "\x7b\n  \"target\": \"10.0.0.7\",\n  \"ports\": [443, 22],\n  \"scan_type\": \"syn\",\n" ++
  "  \"timeout\": 1500,\n  \"threads\": 8\n\x7d\n"

/-- The config `load_json_config` reads from `sample_json`. -/
def sample_config : ScanConfig :=
  { create_default_config with
    target := "10.0.0.7", ports := [443, 22], scan_type := ScanType.TCP_SYN,
    timeout := 1500, thread_count := 8 }

/-! ## What every config read by load_json_config satisfies -/

/-- The facts that hold of every config `load_json_config` returns: the target
holds no double quote and no white space, the ports are 16-bit values, the
timeout is a non-negative `int`, the thread count a `size_t`, and the fields
the reader never assigns keep the values of `create_default_config`. -/
def Loaded (c : ScanConfig) : Prop :=
  '"' ∉ c.target.data ∧ (∀ ch ∈ c.target.data, isspace ch = false) ∧
  (∀ p ∈ c.ports, p ≤ 65535) ∧ 0 ≤ c.timeout ∧ c.timeout < 2 ^ 31 ∧
  c.thread_count < 2 ^ 64 ∧ c.ip_version = IPVersion.AUTO ∧ c.verbose = false ∧
  c.service_detection = true ∧ c.banner_grabbing = true ∧ c.config_file = "" ∧
  c.output_format = "txt" ∧ c.output_file = ""

/-! ## ScanResults.cpp: the counts and the filter -/

/-- Embeds `ScanResults::add_result(Port, PortStatus, Duration, const std::string&)`:
`results_.emplace_back(ScanResult{port, status, response_time, service_info, ""})`,
where only the name of `service_info` is set. -/
def ScanResults.add_result_fields (results_ : ScanResults) (port : Port) (status : PortStatus)
    (response_time : Int) (service : String) : ScanResults :=
  results_ ++ [{ port := port, status := status, response_time := response_time,
                 service := { name := service }, banner := "" }]

/-- Embeds `get_results()`: a reference to `results_`. -/
def ScanResults.get_results (results_ : ScanResults) : List ScanResult := results_

/-- Embeds `total_count()`: `results_.size()`. -/
def ScanResults.total_count (results_ : ScanResults) : Nat := results_.length

/-- The loop of `std::count_if`: `n` is the running count. -/
def count_if (pred : ScanResult → Bool) : List ScanResult → Nat → Nat
  | [], n => n
  | r :: rest, n => count_if pred rest (if pred r then n + 1 else n)

/-- The loop of `std::copy_if` into `std::back_inserter(out)`. -/
def copy_if (pred : ScanResult → Bool) : List ScanResult → List ScanResult → List ScanResult
  | [], out => out
  | r :: rest, out => copy_if pred rest (if pred r then out ++ [r] else out)

/-- Embeds `ScanResults::open_count`. -/
def ScanResults.open_count (results_ : ScanResults) : Nat :=
  count_if (fun r => r.status = PortStatus.OPEN) results_ 0

/-- Embeds `ScanResults::closed_count`. -/
def ScanResults.closed_count (results_ : ScanResults) : Nat :=
  count_if (fun r => r.status = PortStatus.CLOSED) results_ 0

/-- Embeds `ScanResults::filtered_count`. -/
def ScanResults.filtered_count (results_ : ScanResults) : Nat :=
  count_if (fun r => r.status = PortStatus.FILTERED) results_ 0

/-- Embeds `ScanResults::get_open_ports`. -/
def ScanResults.get_open_ports (results_ : ScanResults) : List ScanResult :=
  copy_if (fun r => r.status = PortStatus.OPEN) results_ []

/-- One call of `add_result`, by either overload. -/
inductive AddCall where
  | result (r : ScanResult)
  | fields (port : Port) (status : PortStatus) (response_time : Int) (service : String)
  deriving DecidableEq, Repr

/-- The result a call of `add_result` stores. -/
def AddCall.added : AddCall → ScanResult
  | AddCall.result r => r
  | AddCall.fields port status response_time service =>
    { port := port, status := status, response_time := response_time,
      service := { name := service }, banner := "" }

/-- One call of `add_result` on a `ScanResults`. -/
def ScanResults.call (results_ : ScanResults) : AddCall → ScanResults
  | AddCall.result r => results_.add_result r
  | AddCall.fields port status response_time service =>
    results_.add_result_fields port status response_time service

/-- A sequence of `add_result` calls on an empty `ScanResults`. -/
def add_calls (calls : List AddCall) : ScanResults :=
  calls.foldl ScanResults.call []

/-! ## ArgumentsManager.cpp: the command line -/

/-- One return of `getopt_long` in `parse_arguments`: a recognised option with
its argument, or `invalid` for `'?'` (unknown option, missing argument). -/
inductive CliOption where
  | help
  | version
  | verbose
  | target (optarg : String)
  | ports (optarg : String)
  | timeout (optarg : String)
  | threads (optarg : String)
  | scan_type (optarg : String)
  | ipv6
  | config (optarg : String)
  | output (optarg : String)
  | format (optarg : String)
  | no_service_detection
  | no_banner_grab
  | performance
  | invalid
  deriving DecidableEq, Repr

/-- The `while` loop of `ArgumentsManager::parse_arguments` over the options
`getopt_long` returns; the flag is `should_exit_`. -/
def parse_options (fuel : Nat) : ScanConfig → List CliOption → Run (ScanConfig × Bool)
  | config_, [] => Run.returns (config_, false)
  | config_, opt :: rest =>
    match opt with
    | CliOption.help => Run.returns (config_, true)
    | CliOption.version => Run.returns (config_, true)
    | CliOption.verbose => parse_options fuel { config_ with verbose := true } rest
    | CliOption.target optarg => parse_options fuel { config_ with target := optarg } rest
    | CliOption.ports optarg =>
      match parse_port_range fuel optarg with
      | Run.returns ports => parse_options fuel { config_ with ports := ports } rest
      | Run.throws => Run.throws
      | Run.unfinished => Run.unfinished
    | CliOption.timeout optarg =>
      match stoi optarg with
      | some value => parse_options fuel { config_ with timeout := value } rest
      | none => Run.throws
    | CliOption.threads optarg =>
      match stoul optarg with
      | some value => parse_options fuel { config_ with thread_count := value } rest
      | none => Run.throws
    | CliOption.scan_type optarg =>
      parse_options fuel { config_ with scan_type := string_to_scan_type optarg } rest
    | CliOption.ipv6 => parse_options fuel { config_ with ip_version := IPVersion.IPv6 } rest
    | CliOption.config optarg => parse_options fuel { config_ with config_file := optarg } rest
    | CliOption.output optarg => parse_options fuel { config_ with output_file := optarg } rest
    | CliOption.format optarg => parse_options fuel { config_ with output_format := optarg } rest
    | CliOption.no_service_detection =>
      parse_options fuel { config_ with service_detection := false } rest
    | CliOption.no_banner_grab => parse_options fuel { config_ with banner_grabbing := false } rest
    | CliOption.performance => parse_options fuel config_ rest
    | CliOption.invalid => Run.throws

/-- Embeds `ArgumentsManager::parse_arguments`: `options` are the options in
the order `getopt_long` returns them, `positional` the arguments left at
`optind`.  The value is `config_` with the flag `should_exit_`. -/
def parse_arguments (fuel : Nat) (options : List CliOption) (positional : List String) :
    Run (ScanConfig × Bool) :=
  match parse_options fuel create_default_config options with
  | Run.returns (config_, true) => Run.returns (config_, true)
  | Run.returns (config_, false) =>
    match positional with
    | first :: _ =>
      if config_.target = "127.0.0.1" then Run.returns ({ config_ with target := first }, false)
      else Run.returns (config_, false)
    | [] => Run.returns (config_, false)
  | Run.throws => Run.throws
  | Run.unfinished => Run.unfinished

/-- Whether `-p` is among the options. -/
def gives_ports : List CliOption → Bool
  | [] => false
  | CliOption.ports _ :: _ => true
  | _ :: rest => gives_ports rest

/-- A config file that names two ports. -/
def ports_file : String := "\x7b\n  \"ports\": [8000, 8001]\n\x7d\n"

/-- A config file that sets nothing. -/
def empty_file : String := "\x7b\n\x7d\n"

/-! ## The batches of scan_async -/

/-- The vectors `batch_ports` the batch loop of `scan_async` builds from index
`i` on, as long as the flag is not set: the slices `[i, min(i + batch_size, n))`. -/
def batch_slices (ports : List Port) (batch_size : Nat) : Nat → Nat → List (List Port)
  | 0, _ => []
  | fuel + 1, i =>
    if i < ports.length then
      (ports.take (min (i + batch_size) ports.length)).drop i ::
        batch_slices ports batch_size fuel (i + batch_size)
    else []

/-- The partition asked for: consecutive batches of size `min(concurrency, remaining)`
taken from the front of the remaining ports, until none remains. -/
def consecutive_batches (concurrency : Nat) : Nat → List Port → List (List Port)
  | 0, _ => []
  | fuel + 1, remaining =>
    if remaining = [] then []
    else
      remaining.take (min concurrency remaining.length) ::
        consecutive_batches concurrency fuel (remaining.drop (min concurrency remaining.length))

/-- An environment in which `cancel()` is never called. -/
def never_cancelled (env : Env) : Prop := ∀ k, env.cancel k = false

/-! ## PortScanner.cpp: the other scan types -/

/-- What the system decides for the socket of one `udp_scan`. -/
structure UdpProbe where
  /-- Whether `NetworkUtils::create_udp_socket` returns (it raises otherwise). -/
  socket_ok : Bool := true
  /-- The value `sendto` returns. -/
  sent : Int := 4
  /-- The value `poll` returns. -/
  poll_result : Int := 0
  /-- Milliseconds between `start_time` and `end_time`. -/
  elapsed : Nat := 0
  deriving DecidableEq, Repr

/-- The network as seen by one call of `scan_single_port`. -/
structure PortNet where
  /-- The network of the banner grabber. -/
  grab : GrabEnv
  /-- The `getservbyport` database. -/
  services : Port → Option String
  /-- The socket of the connect scan. -/
  probe : Probe := {}
  /-- The socket of a second connect scan made by the same call, if there is one. -/
  retry : Probe := {}
  /-- Whether `NetworkUtils::create_raw_socket` returns (it raises otherwise). -/
  raw_socket_ok : Bool := false
  /-- The socket of the UDP scan. -/
  udp : UdpProbe := {}

/-- Embeds `PortScanner::tcp_syn_scan`: the raw socket, if it can be created,
is closed at once; the `catch` block runs the connect scan again when
`create_raw_socket` or the connect scan inside the `try` block raises (the
connect scan can only raise from its socket or its address, before any
banner is grabbed, so the second run starts from the same trace `w`). -/
def tcp_syn_scan (cfg : ScanConfig) (net : PortNet) (w : Wire) (port : Port) :
    Option (ScanResult × Wire) :=
  if net.raw_socket_ok then
    match tcp_connect_scan cfg net.grab net.services net.probe w port with
    | some result => some result
    | none => tcp_connect_scan cfg net.grab net.services net.retry w port
  else tcp_connect_scan cfg net.grab net.services net.probe w port

/-- Embeds `PortScanner::udp_scan`; `none` when an exception is raised. -/
def udp_scan (cfg : ScanConfig) (net : PortNet) (w : Wire) (port : Port) :
    Option (ScanResult × Wire) :=
  if !net.udp.socket_ok then none
  else if !net.grab.addr_ok cfg.target then none
  else
    let status : PortStatus :=
      if net.udp.sent > 0 then
        if net.udp.poll_result > 0 then PortStatus.OPEN
        else if net.udp.poll_result = 0 then PortStatus.FILTERED
        else PortStatus.CLOSED
      else PortStatus.UNKNOWN
    let scan_result : ScanResult :=
      { port := port, status := status, response_time := net.udp.elapsed,
        ip_version := result_ip_version cfg }
    if status = PortStatus.OPEN ∧ cfg.service_detection = true then
      let detected := detect_service_on net.grab SERVICE_PATTERNS net.services w cfg.target port ""
      match detected.1 with
      | none => none
      | some service => some ({ scan_result with service := service }, detected.2)
    else some (scan_result, w)

/-- Embeds `PortScanner::tcp_ack_scan`. -/
def tcp_ack_scan (cfg : ScanConfig) (net : PortNet) (w : Wire) (port : Port) :
    Option (ScanResult × Wire) :=
  tcp_connect_scan cfg net.grab net.services net.probe w port

/-- Embeds `PortScanner::tcp_fin_scan`. -/
def tcp_fin_scan (cfg : ScanConfig) (net : PortNet) (w : Wire) (port : Port) :
    Option (ScanResult × Wire) :=
  tcp_connect_scan cfg net.grab net.services net.probe w port

/-- Embeds `PortScanner::scan_single_port`; every value of `ScanType` has its `case`. -/
def scan_single_port (cfg : ScanConfig) (net : PortNet) (w : Wire) (port : Port)
    (scan_type : ScanType) : Option (ScanResult × Wire) :=
  match scan_type with
  | ScanType.TCP_CONNECT => tcp_connect_scan cfg net.grab net.services net.probe w port
  | ScanType.TCP_SYN => tcp_syn_scan cfg net w port
  | ScanType.UDP => udp_scan cfg net w port
  | ScanType.TCP_ACK => tcp_ack_scan cfg net w port
  | ScanType.TCP_FIN => tcp_fin_scan cfg net w port

/-- The scan the specification describes: every scan type is the connect scan. -/
def scan_single_port_spec (cfg : ScanConfig) (net : PortNet) (w : Wire) (port : Port)
    (_scan_type : ScanType) : Option (ScanResult × Wire) :=
  tcp_connect_scan cfg net.grab net.services net.probe w port

/-- A host whose address is accepted, on which no TCP port answers the banner
grabber; the connect is refused and no datagram comes back within the timeout. -/
def quiet_host : PortNet :=
  { grab := { addr_ok := fun _ => true, dial := fun _ => { connect_ok := false } },
    services := fun _ => none,
    probe := { connect_result := -1, elapsed := 1 },
    udp := { sent := 4, poll_result := 0, elapsed := 3000 } }

/-- A host on which the first socket of the connect scan cannot be created and the second can. -/
def socket_shortage : PortNet :=
  { grab := { addr_ok := fun _ => true, dial := fun _ => { connect_ok := false } },
    services := fun _ => none,
    probe := { socket_ok := false },
    retry := { connect_result := -1 },
    raw_socket_ok := true }

/-- The config of a scan of port 53 of `192.0.2.1` without service detection. -/
def plain_scan : ScanConfig :=
  { target := "192.0.2.1", ports := [53], timeout := 3000, thread_count := 1,
    service_detection := false, banner_grabbing := false }

/-! ## PortScanner.cpp: the threaded scan -/

/-- The result stored by `results.add_result(config_.ports[idx], PortStatus::UNKNOWN)`. -/
def unknown_result (port : Port) : ScanResult :=
  { port := port, status := PortStatus.UNKNOWN, response_time := 0,
    service := { name := "" }, banner := "" }

/-- What happens around the scan of the port at one index of `config_.ports`. -/
structure IndexEnv where
  /-- The network during `scan_single_port`. -/
  net : PortNet
  /-- Whether `progress_cb` is set and raises when called for this port. -/
  progress_raises : Bool := false

/-- The body of the loop `for (idx = start_idx; idx < end_idx; ++idx)` of a
worker thread: the results it adds for index `idx`.  An exception raised after
`results.add_result(result)` reaches the same `catch` block. -/
def scan_index (cfg : ScanConfig) (env : Nat → IndexEnv) (idx : Nat) : List ScanResult :=
  let port := cfg.ports.getD idx 0
  match scan_single_port cfg (env idx).net {} port cfg.scan_type with
  | some scanned =>
    if (env idx).progress_raises then [scanned.1, unknown_result port] else [scanned.1]
  | none => [unknown_result port]

/-- The results one worker thread adds, in order, for the indices `[start_idx, end_idx)`. -/
def worker (cfg : ScanConfig) (env : Nat → IndexEnv) (start_idx end_idx : Nat) :
    List ScanResult :=
  ((List.range' start_idx (end_idx - start_idx)).map (scan_index cfg env)).flatten

/-- The loop `for (i = 0; i < thread_count; ++i)` of `scan_ports` from `i` on:
the index ranges `(start_idx, end_idx)` of the threads it starts. -/
def thread_ranges (n thread_count ports_per_thread : Nat) : Nat → Nat → List (Nat × Nat)
  | 0, _ => []
  | fuel + 1, i =>
    if i < thread_count then
      let start_idx := i * ports_per_thread
      let end_idx := min (start_idx + ports_per_thread) n
      if start_idx ≥ n then []
      else (start_idx, end_idx) :: thread_ranges n thread_count ports_per_thread fuel (i + 1)
    else []

/-- The threads of the threaded path of `PortScanner::scan_ports`, each with the
results it adds in order; `none` when `thread_count` is zero, where the
division that computes `ports_per_thread` is undefined. -/
def scan_ports_threads (cfg : ScanConfig) (env : Nat → IndexEnv) :
    Option (List (List ScanResult)) :=
  let thread_count := min cfg.thread_count cfg.ports.length
  if thread_count = 0 then none
  else
    let ports_per_thread := (cfg.ports.length + thread_count - 1) / thread_count
    some ((thread_ranges cfg.ports.length thread_count ports_per_thread thread_count 0).map
      (fun range => worker cfg env range.1 range.2))

/-- The orders in which the results of concurrent threads can reach the sink:
`Interleaving threads out` holds when `out` is obtained by repeatedly taking
the next result of some thread (every `add_result` runs under the mutex). -/
inductive Interleaving : List (List ScanResult) → List ScanResult → Prop where
  | done (threads : List (List ScanResult)) (h : ∀ t ∈ threads, t = []) : Interleaving threads []
  | step (threads : List (List ScanResult)) (i : Nat) (r : ScanResult) (rest out : List ScanResult)
      (h : threads[i]? = some (r :: rest)) (more : Interleaving (threads.set i rest) out) :
      Interleaving threads (r :: out)

/-- The values the threaded path of `scan_ports` can return. -/
def ScanPortsReturns (cfg : ScanConfig) (env : Nat → IndexEnv) (results : ScanResults) : Prop :=
  ∃ threads, scan_ports_threads cfg env = some threads ∧ Interleaving threads results

/-- The result recorded for the port at index `idx`: the result of the scan,
or `UNKNOWN` when the scan raises. -/
def result_at (cfg : ScanConfig) (env : Nat → IndexEnv) (idx : Nat) : ScanResult :=
  match scan_single_port cfg (env idx).net {} (cfg.ports.getD idx 0) cfg.scan_type with
  | some scanned => scanned.1
  | none => unknown_result (cfg.ports.getD idx 0)

/-- Three ports scanned by two threads. -/
def three_ports : ScanConfig :=
  { target := "192.0.2.1", ports := [22, 80, 443], timeout := 3000, thread_count := 2,
    service_detection := false, banner_grabbing := false }

/-- Every port of the host refuses the connection. -/
def all_refused : Nat → IndexEnv := fun _ => { net := quiet_host }

/-! ## ServiceDetector.cpp: the substr calls of the pattern matcher and the analyzers -/

/-- One call `s.substr(pos, last - pos)`: the start index and the index from
which the length is computed. -/
structure SubstrCall where
  pos : Nat
  last : Nat
  deriving DecidableEq, Repr

/-- The call `banner.substr(pos + 4, end - pos - 4)` of the version extraction
in `match_patterns`, when it is reached. -/
def extract_ssh_version_calls (banner : String) : List SubstrCall :=
  match find banner "SSH-" 0 with
  | some pos =>
    match or_find (or_find (find_char banner ' ' pos) (find_char banner '\r' pos))
        (find_char banner '\n' pos) with
    | some end_ => [⟨pos + 4, end_⟩]
    | none => []
  | none => []

/-- The `substr` calls of the loop of `match_patterns` over the patterns of one port. -/
def match_loop_calls (banner : String) : List ServicePattern → List SubstrCall
  | [] => []
  | pattern :: rest =>
    if (find banner pattern.pattern 0).isSome then
      if pattern.version_regex ≠ "" ∧ pattern.pattern = "SSH-" then
        extract_ssh_version_calls banner
      else []
    else match_loop_calls banner rest

/-- The `substr` calls of `ServiceDetector::match_patterns`. -/
def match_patterns_calls (patterns_ : PatternTable) (port : Port) (banner : String) :
    List SubstrCall :=
  match patterns_.find port with
  | some ps => match_loop_calls banner ps
  | none => []

/-- The `substr` call of `ServiceDetector::analyze_http_response`, when it is reached. -/
def analyze_http_response_calls (response : String) : List SubstrCall :=
  match find response "Server:" 0 with
  | some server_pos =>
    let start := server_pos + 8
    match or_find (find_char response '\r' start) (find_char response '\n' start) with
    | some end_ => [⟨start, end_⟩]
    | none => []
  | none => []

/-- The `substr` calls of `ServiceDetector::analyze_ssh_banner`, in order: the
version, then the product if the first call has returned. -/
def analyze_ssh_banner_calls (banner : String) : List SubstrCall :=
  match find banner "SSH-" 0 with
  | some ssh_pos =>
    let version_start := ssh_pos + 4
    match find_char banner '-' version_start with
    | some version_end =>
      ⟨version_start, version_end⟩ ::
        (match substr banner version_start (size_sub version_end version_start) with
         | some _ =>
           let product_start := version_end + 1
           match or_find (or_find (find_char banner ' ' product_start)
               (find_char banner '\r' product_start)) (find_char banner '\n' product_start) with
           | some product_end => [⟨product_start, product_end⟩]
           | none => []
         | none => [])
    | none => []
  | none => []

/-- The `substr` call of `ServiceDetector::analyze_ftp_banner`, when it is reached. -/
def analyze_ftp_banner_calls (banner : String) : List SubstrCall :=
  if find banner "220" 0 = some 0 then
    let start := 4
    match or_find (find_char banner '\r' start) (find_char banner '\n' start) with
    | some end_ => [⟨start, end_⟩]
    | none => []
  else []

/-! ## ServiceDetector.cpp: the sockets of the banner grabber -/

/-- The number of `close` calls made on socket `id`. -/
def close_count (id : Nat) : List SockOp → Nat
  | [] => 0
  | SockOp.close k :: rest => (if k = id then 1 else 0) + close_count id rest
  | _ :: rest => close_count id rest

/-- A peer that accepts the connection and sends nothing before `recv` gives up. -/
def silent_server : GrabEnv :=
  { addr_ok := fun _ => true, dial := fun _ => { received := "" } }

/-- A target that `inet_pton(AF_INET, ...)` does not accept, such as an IPv6 literal. -/
def no_ipv4_address : GrabEnv :=
  { addr_ok := fun _ => false, dial := fun _ => {} }

/-- A peer that refuses the connection. -/
def refusing_server : GrabEnv :=
  { addr_ok := fun _ => true, dial := fun _ => { connect_ok := false } }

/-! ## Theorems -/

theorem classify_event_port (cfg : ScanConfig) (env : Env) (s : ScanState) (conn : Connection)
    (event : Readiness) : (classify_event cfg env s conn event).result.port = conn.port := by
  unfold classify_event
  simp only []
  split_ifs <;> rfl

theorem classify_event_status (cfg : ScanConfig) (env : Env) (s : ScanState) (conn : Connection)
    (event : Readiness) :
    (classify_event cfg env s conn event).result.status =
      if event.epollout = true then
        (if event.so_error = some 0 then PortStatus.OPEN else PortStatus.CLOSED)
      else if (event.epollerr || event.epollhup) = true then PortStatus.CLOSED
      else event.indeterminate := by
  unfold classify_event
  simp only []
  split_ifs <;> rfl

theorem handle_connection_event_results (cfg : ScanConfig) (env : Env) (s : ScanState)
    (event : Readiness) (idx : Nat) (conn : Connection)
    (hfd : s.fd_to_connection_.lookup event.fd = some idx)
    (hconn : s.connections_[idx]? = some conn) :
    (handle_connection_event cfg env s event).results =
      s.results ++ [(classify_event cfg env s conn event).result] := by
  unfold handle_connection_event
  simp only [hfd, hconn, ScanResults.add_result]

/-- Claim C2.  When `handle_connection_event` treats an event whose descriptor
the table maps to the record `conn`, and the event carries at least one of
the flags writable, error, hangup, it appends exactly one result; the result
carries the port of `conn`; its status is `OPEN` exactly when the event is
writable and `SO_ERROR` was read successfully with value 0, and `CLOSED` in
every other case. -/
theorem handle_connection_event_classifies (cfg : ScanConfig) (env : Env) (s : ScanState)
    (event : Readiness) (idx : Nat) (conn : Connection)
    (hfd : s.fd_to_connection_.lookup event.fd = some idx)
    (hconn : s.connections_[idx]? = some conn)
    (hflags : event.epollout = true ∨ event.epollerr = true ∨ event.epollhup = true) :
    ∃ r : ScanResult,
      (handle_connection_event cfg env s event).results = s.results ++ [r] ∧
      r.port = conn.port ∧
      (r.status = PortStatus.OPEN ↔ (event.epollout = true ∧ event.so_error = some 0)) ∧
      (¬ (event.epollout = true ∧ event.so_error = some 0) → r.status = PortStatus.CLOSED) := by
  refine ⟨(classify_event cfg env s conn event).result,
    handle_connection_event_results cfg env s event idx conn hfd hconn,
    classify_event_port cfg env s conn event, ?_, ?_⟩
  · rw [classify_event_status]
    rcases hflags with h | h | h
    · by_cases he : event.so_error = some 0 <;> simp [h, he]
    · by_cases ho : event.epollout = true <;> by_cases he : event.so_error = some 0 <;>
        simp [h, ho, he]
    · by_cases ho : event.epollout = true <;> by_cases he : event.so_error = some 0 <;>
        simp [h, ho, he]
  · intro hn
    rw [classify_event_status]
    rcases hflags with h | h | h
    · have he : ¬ event.so_error = some 0 := fun he => hn ⟨h, he⟩
      simp [h, he]
    · by_cases ho : event.epollout = true
      · have he : ¬ event.so_error = some 0 := fun he => hn ⟨ho, he⟩
        simp [ho, he]
      · simp [ho, h]
    · by_cases ho : event.epollout = true
      · have he : ¬ event.so_error = some 0 := fun he => hn ⟨ho, he⟩
        simp [ho, he]
      · simp [ho, h]

/-! ### Frame facts of the primitive operations -/

theorem load_cancelled_results (env : Env) (s : ScanState) :
    (load_cancelled env s).results = s.results := rfl

theorem load_cancelled_connections (env : Env) (s : ScanState) :
    (load_cancelled env s).connections_ = s.connections_ := rfl

theorem load_cancelled_peak (env : Env) (s : ScanState) :
    (load_cancelled env s).peak_connections = s.peak_connections := rfl

theorem load_cancelled_open_fds (env : Env) (s : ScanState) :
    (load_cancelled env s).open_fds = s.open_fds := rfl

theorem load_cancelled_map (env : Env) (s : ScanState) :
    (load_cancelled env s).fd_to_connection_ = s.fd_to_connection_ := rfl

theorem load_cancelled_now (env : Env) (s : ScanState) :
    (load_cancelled env s).now = s.now := rfl

theorem load_cancelled_of_pending (env : Env) (s : ScanState)
    (hc : s.cancelled_ = true ∨ env.cancel s.flag_reads = true) :
    (load_cancelled env s).cancelled_ = true := by
  unfold load_cancelled
  rcases hc with h | h <;> simp [h]

/-- A state that differs from `s` at most by one more read of the flag. -/
theorem create_connections_loop_of_pending (env : Env) (s : ScanState) (ports : List Port)
    (hc : s.cancelled_ = true ∨ env.cancel s.flag_reads = true) :
    create_connections_loop env s ports = s ∨
      create_connections_loop env s ports = load_cancelled env s := by
  cases ports with
  | nil => left; rfl
  | cons port rest =>
    right
    simp [create_connections_loop, load_cancelled_of_pending env s hc]

theorem process_loop_of_pending (cfg : ScanConfig) (env : Env) (fuel : Nat) (s : ScanState)
    (processed : Nat) (hc : s.cancelled_ = true ∨ env.cancel s.flag_reads = true) :
    process_loop cfg env fuel s processed = s ∨
      process_loop cfg env fuel s processed = load_cancelled env s := by
  cases fuel with
  | zero => left; rfl
  | succ fuel =>
    by_cases hp : processed < s.connections_.length
    · right
      simp [process_loop, hp, load_cancelled_of_pending env s hc]
    · left
      simp [process_loop, hp]

theorem close_all_results (l : List Connection) (s : ScanState) :
    (close_all s l).results = s.results ∧ (close_all s l).cancelled_ = s.cancelled_ ∧
      (close_all s l).flag_reads = s.flag_reads ∧
      (close_all s l).peak_connections = s.peak_connections := by
  induction l generalizing s with
  | nil => exact ⟨rfl, rfl, rfl, rfl⟩
  | cons conn rest ih =>
    simp only [close_all]
    obtain ⟨h1, h2, h3, h4⟩ := ih (if conn.sockfd ≥ 0 then close s conn.sockfd else s)
    rw [h1, h2, h3, h4]
    split_ifs <;> exact ⟨rfl, rfl, rfl, rfl⟩

theorem cleanup_frame (s : ScanState) :
    (cleanup s).results = s.results ∧ (cleanup s).cancelled_ = s.cancelled_ ∧
      (cleanup s).flag_reads = s.flag_reads ∧
      (cleanup s).peak_connections = s.peak_connections ∧ (cleanup s).connections_ = [] ∧
      (cleanup s).fd_to_connection_ = [] := by
  obtain ⟨h1, h2, h3, h4⟩ := close_all_results s.connections_ s
  exact ⟨h1, h2, h3, h4, rfl, rfl⟩

theorem pending_of_stutter (env : Env) (s t : ScanState)
    (hc : s.cancelled_ = true ∨ env.cancel s.flag_reads = true)
    (ht : t = s ∨ t = load_cancelled env s) :
    t.results = s.results ∧ (t.cancelled_ = true ∨ env.cancel t.flag_reads = true) := by
  rcases ht with h | h
  · subst h; exact ⟨rfl, hc⟩
  · subst h; exact ⟨rfl, Or.inl (load_cancelled_of_pending env s hc)⟩

theorem cleanup_of_pending (env : Env) (s : ScanState)
    (hc : s.cancelled_ = true ∨ env.cancel s.flag_reads = true) :
    (cleanup s).cancelled_ = true ∨ env.cancel (cleanup s).flag_reads = true := by
  obtain ⟨_, h2, h3, _⟩ := cleanup_frame s
  rw [h2, h3]; exact hc

theorem run_batch_of_pending (cfg : ScanConfig) (env : Env) (s : ScanState) (ports : List Port)
    (hc : s.cancelled_ = true ∨ env.cancel s.flag_reads = true) :
    (run_batch cfg env s ports).results = s.results ∧
      ((run_batch cfg env s ports).cancelled_ = true ∨
        env.cancel (run_batch cfg env s ports).flag_reads = true) := by
  obtain ⟨hr1, hc1⟩ := pending_of_stutter env s _ hc (create_connections_loop_of_pending env s ports hc)
  unfold run_batch create_connections
  simp only []
  split_ifs
  · obtain ⟨hr2, hc2⟩ := pending_of_stutter env _ _ hc1
      (process_loop_of_pending cfg env (create_connections_loop env s ports).connections_.length
        (create_connections_loop env s ports) 0 hc1)
    refine ⟨?_, cleanup_of_pending env _ hc2⟩
    rw [(cleanup_frame _).1]
    unfold process_events
    rw [hr2, hr1]
  · refine ⟨?_, cleanup_of_pending env _ hc1⟩
    rw [(cleanup_frame _).1, hr1]

theorem scan_loop_of_pending (cfg : ScanConfig) (env : Env) (batch_size fuel : Nat)
    (s : ScanState) (i : Nat) (hc : s.cancelled_ = true ∨ env.cancel s.flag_reads = true) :
    ∃ t, scan_loop cfg env batch_size (fuel + 1) s i = (t, true) ∧ t.results = s.results := by
  by_cases hi : i < cfg.ports.length
  · exact ⟨load_cancelled env s, by simp [scan_loop, hi, load_cancelled_of_pending env s hc], rfl⟩
  · exact ⟨s, by simp [scan_loop, hi], rfl⟩

/-- Claim C6.  Let the cancellation flag read `true` at the next check point
(it is already stored, or `cancel()` is called before the next read).  Then
the rest of the scan appends no result and the batch loop ends, whichever
check point comes next: the test before a new connect (the rest of the batch
is `run_batch ... rest`), the test before a multiplexer wait (the rest of
`process_events`, then the clean-up), or the test before a new batch.  The
returned results are exactly those already emitted. -/
theorem cancelled_scan_appends_nothing (cfg : ScanConfig) (env : Env) (s : ScanState)
    (hc : s.cancelled_ = true ∨ env.cancel s.flag_reads = true)
    (rest : List Port) (steps processed batch_size fuel i : Nat) :
    (∃ t, scan_loop cfg env batch_size (fuel + 1) (run_batch cfg env s rest) i = (t, true) ∧
        t.results = s.results) ∧
    (∃ t, scan_loop cfg env batch_size (fuel + 1)
          (cleanup (process_loop cfg env steps s processed)) i = (t, true) ∧
        t.results = s.results) ∧
    (∃ t, scan_loop cfg env batch_size (fuel + 1) s i = (t, true) ∧ t.results = s.results) := by
  refine ⟨?_, ?_, scan_loop_of_pending cfg env batch_size fuel s i hc⟩
  · obtain ⟨hr, hp⟩ := run_batch_of_pending cfg env s rest hc
    obtain ⟨t, ht, htr⟩ := scan_loop_of_pending cfg env batch_size fuel _ i hp
    exact ⟨t, ht, htr.trans hr⟩
  · obtain ⟨hr, hp⟩ := pending_of_stutter env s _ hc
      (process_loop_of_pending cfg env steps s processed hc)
    have hp2 := cleanup_of_pending env _ hp
    obtain ⟨t, ht, htr⟩ := scan_loop_of_pending cfg env batch_size fuel _ i hp2
    exact ⟨t, ht, by rw [htr, (cleanup_frame _).1, hr]⟩

theorem classify_event_conn (cfg : ScanConfig) (env : Env) (s : ScanState) (conn : Connection)
    (event : Readiness) :
    (classify_event cfg env s conn event).conn.start_time = conn.start_time ∧
      (classify_event cfg env s conn event).conn.port = conn.port ∧
      (classify_event cfg env s conn event).result.response_time = s.now - conn.start_time := by
  unfold classify_event
  simp only []
  split_ifs <;> exact ⟨rfl, rfl, rfl⟩

/-- The two ways `handle_connection_event` can end: the early `return`, or the
stores of the classified result. -/
theorem handle_connection_event_cases (cfg : ScanConfig) (env : Env) (s : ScanState)
    (event : Readiness) :
    handle_connection_event cfg env s event = s ∨
    ∃ idx conn, s.fd_to_connection_.lookup event.fd = some idx ∧
      s.connections_[idx]? = some conn ∧
      handle_connection_event cfg env s event =
        { s with results := s.results ++ [(classify_event cfg env s conn event).result],
                 completed_ports_ := s.completed_ports_ + 1,
                 open_ports_ := (classify_event cfg env s conn event).open_ports_,
                 banner_grabs := (classify_event cfg env s conn event).banner_grabs,
                 open_fds := s.open_fds.erase event.fd,
                 connections_ := s.connections_.set idx
                   { (classify_event cfg env s conn event).conn with sockfd := -1 } } := by
  cases hfd : s.fd_to_connection_.lookup event.fd with
  | none => left; simp [handle_connection_event, hfd]
  | some idx =>
    cases hconn : s.connections_[idx]? with
    | none => left; simp [handle_connection_event, hfd, hconn]
    | some conn =>
      right
      exact ⟨idx, conn, rfl, hconn, by simp [handle_connection_event, hfd, hconn, ScanResults.add_result]⟩

theorem handle_connection_event_frame (cfg : ScanConfig) (env : Env) (s : ScanState)
    (event : Readiness) :
    (handle_connection_event cfg env s event).connections_.length = s.connections_.length ∧
      (handle_connection_event cfg env s event).peak_connections = s.peak_connections ∧
      (handle_connection_event cfg env s event).now = s.now ∧
      (handle_connection_event cfg env s event).fd_to_connection_ = s.fd_to_connection_ := by
  rcases handle_connection_event_cases cfg env s event with h | ⟨idx, conn, _, _, h⟩
  · rw [h]; exact ⟨rfl, rfl, rfl, rfl⟩
  · rw [h]; exact ⟨by simp, rfl, rfl, rfl⟩

theorem foldl_handle_frame (cfg : ScanConfig) (env : Env) (events : List Readiness)
    (s : ScanState) :
    (events.foldl (handle_connection_event cfg env) s).connections_.length =
        s.connections_.length ∧
      (events.foldl (handle_connection_event cfg env) s).peak_connections = s.peak_connections ∧
      (events.foldl (handle_connection_event cfg env) s).now = s.now ∧
      (events.foldl (handle_connection_event cfg env) s).fd_to_connection_ =
        s.fd_to_connection_ := by
  induction events generalizing s with
  | nil => exact ⟨rfl, rfl, rfl, rfl⟩
  | cons e rest ih =>
    simp only [List.foldl_cons]
    obtain ⟨a1, a2, a3, a4⟩ := ih (handle_connection_event cfg env s e)
    obtain ⟨b1, b2, b3, b4⟩ := handle_connection_event_frame cfg env s e
    exact ⟨a1.trans b1, a2.trans b2, a3.trans b3, a4.trans b4⟩

theorem process_loop_table (cfg : ScanConfig) (env : Env) (fuel : Nat) (s : ScanState)
    (processed : Nat) :
    (process_loop cfg env fuel s processed).connections_.length = s.connections_.length ∧
      (process_loop cfg env fuel s processed).peak_connections = s.peak_connections := by
  induction fuel generalizing s processed with
  | zero => exact ⟨rfl, rfl⟩
  | succ fuel ih =>
    simp only [process_loop]
    split_ifs with h1 h2
    · exact ⟨rfl, rfl⟩
    · split
      · exact ⟨rfl, rfl⟩
      · split_ifs
        · exact ⟨rfl, rfl⟩
        · obtain ⟨a1, a2⟩ := ih (List.foldl (handle_connection_event cfg env)
            { load_cancelled env s with
              waits := (load_cancelled env s).waits + 1,
              now := (load_cancelled env s).now + (env.wait (load_cancelled env s).waits).elapsed }
            (List.take max_events ‹_›)) (processed + (List.take max_events ‹_›).length)
          obtain ⟨b1, b2, _, _⟩ := foldl_handle_frame cfg env (List.take max_events ‹_›)
            { load_cancelled env s with
              waits := (load_cancelled env s).waits + 1,
              now := (load_cancelled env s).now + (env.wait (load_cancelled env s).waits).elapsed }
          exact ⟨a1.trans b1, a2.trans b2⟩
    · exact ⟨rfl, rfl⟩

theorem connect_port_table (env : Env) (s : ScanState) (port : Port) :
    (connect_port env s port).connections_.length ≤ s.connections_.length + 1 ∧
      (connect_port env s port).peak_connections ≤
        max s.peak_connections (s.connections_.length + 1) ∧
      (s.connections_.length ≤ s.peak_connections →
        (connect_port env s port).connections_.length ≤
          (connect_port env s port).peak_connections) := by
  unfold connect_port create_socket_for_target close
  simp only []
  split_ifs <;> simp

theorem create_connections_loop_table (env : Env) (ports : List Port) (s : ScanState) :
    (create_connections_loop env s ports).connections_.length ≤
        s.connections_.length + ports.length ∧
      (create_connections_loop env s ports).peak_connections ≤
        max s.peak_connections (s.connections_.length + ports.length) ∧
      (s.connections_.length ≤ s.peak_connections →
        (create_connections_loop env s ports).connections_.length ≤
          (create_connections_loop env s ports).peak_connections) := by
  induction ports generalizing s with
  | nil => simp [create_connections_loop]
  | cons port rest ih =>
    simp only [create_connections_loop]
    split_ifs with hc
    · simp only [load_cancelled_connections, load_cancelled_peak, List.length_cons]
      refine ⟨by omega, by omega, fun h => h⟩
    · obtain ⟨a1, a2, a3⟩ := ih (connect_port env (load_cancelled env s) port)
      obtain ⟨b1, b2, b3⟩ := connect_port_table env (load_cancelled env s) port
      simp only [load_cancelled_connections, load_cancelled_peak] at b1 b2 b3
      simp only [List.length_cons]
      refine ⟨by omega, by omega, fun h => a3 (b3 h)⟩

theorem run_batch_table (cfg : ScanConfig) (env : Env) (s : ScanState) (ports : List Port)
    (hs : s.connections_ = []) :
    (run_batch cfg env s ports).connections_ = [] ∧
      (run_batch cfg env s ports).fd_to_connection_ = [] ∧
      (run_batch cfg env s ports).peak_connections ≤ max s.peak_connections ports.length := by
  obtain ⟨_, a2, _⟩ := create_connections_loop_table env ports s
  rw [hs] at a2
  simp only [List.length_nil, Nat.zero_add] at a2
  unfold run_batch create_connections
  simp only []
  refine ⟨(cleanup_frame _).2.2.2.2.1, (cleanup_frame _).2.2.2.2.2, ?_⟩
  rw [(cleanup_frame _).2.2.2.1]
  split_ifs
  · unfold process_events
    rw [(process_loop_table cfg env _ _ 0).2]
    exact a2
  · exact a2

theorem batch_ports_length (ports : List Port) (i batch_size : Nat) :
    ((ports.take (min (i + batch_size) ports.length)).drop i).length ≤ batch_size := by
  simp only [List.length_drop, List.length_take]
  omega

theorem scan_loop_table (cfg : ScanConfig) (env : Env) (batch_size bound fuel : Nat)
    (hb : batch_size ≤ bound) (s : ScanState) (i : Nat) (hs : s.connections_ = [])
    (hm : s.fd_to_connection_ = []) (hp : s.peak_connections ≤ bound) :
    (scan_loop cfg env batch_size fuel s i).1.connections_ = [] ∧
      (scan_loop cfg env batch_size fuel s i).1.fd_to_connection_ = [] ∧
      (scan_loop cfg env batch_size fuel s i).1.peak_connections ≤ bound := by
  induction fuel generalizing s i with
  | zero => exact ⟨hs, hm, hp⟩
  | succ fuel ih =>
    simp only [scan_loop]
    split_ifs with h1 h2
    · exact ⟨hs, hm, hp⟩
    · obtain ⟨b1, b2, b3⟩ := run_batch_table cfg env (load_cancelled env s)
        ((cfg.ports.take (min (i + batch_size) cfg.ports.length)).drop i) hs
      have hl := batch_ports_length cfg.ports i batch_size
      simp only [load_cancelled_peak] at b3
      exact ih _ _ b1 b2 (by omega)
    · exact ⟨hs, hm, hp⟩

/-- The fuel of `process_events` is enough: the loop of `process_events` ends
by its own test, more fuel does not change its result. -/
theorem process_loop_fuel (cfg : ScanConfig) (env : Env) (extra fuel : Nat) (s : ScanState)
    (processed : Nat) (h : s.connections_.length ≤ processed + fuel) :
    process_loop cfg env (fuel + extra) s processed = process_loop cfg env fuel s processed := by
  induction fuel generalizing s processed with
  | zero =>
    cases extra with
    | zero => rfl
    | succ extra =>
      have hp : ¬ processed < s.connections_.length := by omega
      simp [process_loop, hp]
  | succ fuel ih =>
    have e : fuel + 1 + extra = (fuel + extra) + 1 := by omega
    rw [e]
    simp only [process_loop]
    split_ifs with h1 h2
    · rfl
    · split
      · rfl
      · rename_i reported _
        split_ifs with h3
        · rfl
        · apply ih
          rw [(foldl_handle_frame cfg env _ _).1]
          simp only [load_cancelled_connections]
          omega
    · rfl

/-- The batch loop of `scan_async` ends as soon as the batch size is positive. -/
theorem scan_loop_finishes (cfg : ScanConfig) (env : Env) (batch_size : Nat)
    (hb : 0 < batch_size) (fuel : Nat) (s : ScanState) (i : Nat) (hf : 0 < fuel)
    (h : cfg.ports.length < i + fuel) : (scan_loop cfg env batch_size fuel s i).2 = true := by
  induction fuel generalizing s i with
  | zero => omega
  | succ fuel ih =>
    simp only [scan_loop]
    split_ifs with h1 h2
    · rfl
    · exact ih _ _ (by omega) (by omega)
    · rfl

/-- With a positive `thread_count`, `scan_async` returns. -/
theorem scan_async_returns (cfg : ScanConfig) (env : Env) (s : ScanState)
    (ht : 0 < cfg.thread_count) :
    scan_async cfg env s = some (scan_run cfg env s).1.results := by
  unfold scan_async
  simp only []
  have hdone : (scan_run cfg env s).2 = true := by
    unfold scan_run
    by_cases hn : cfg.ports.length = 0
    · simp [scan_loop, hn]
    · exact scan_loop_finishes cfg env _ (by omega) _ _ 0 (by omega) (by omega)
  rw [hdone]
  rfl

/-- Claim C5.  In a scan started on a freshly constructed scanner, the
connection table never holds more than `thread_count` records:
between batches (after any number `k` of batches the table is within the
bound, and so is `peak_connections`, the largest size it has had so far);
during connection setup (after any number `m` of ports of a batch that starts
at any index `i`); during event processing (after any number `j` of
iterations of the loop of `process_events`, and after any further events
`events` handled one by one). -/
theorem connection_table_within_concurrency (cfg : ScanConfig) (env : Env) (fds : Finset Int)
    (t0 : Int) (k i m j : Nat) (events : List Readiness) :
    (scan_loop cfg env (min cfg.thread_count cfg.ports.length) k
        (scan_start (fresh_scanner fds t0)) 0).1.connections_.length ≤ cfg.thread_count ∧
    (scan_loop cfg env (min cfg.thread_count cfg.ports.length) k
        (scan_start (fresh_scanner fds t0)) 0).1.peak_connections ≤ cfg.thread_count ∧
    (create_connections_loop env
        (load_cancelled env (scan_loop cfg env (min cfg.thread_count cfg.ports.length) k
          (scan_start (fresh_scanner fds t0)) 0).1)
        (((cfg.ports.take (min (i + min cfg.thread_count cfg.ports.length)
          cfg.ports.length)).drop i).take m)).connections_.length ≤ cfg.thread_count ∧
    (events.foldl (handle_connection_event cfg env)
        (process_loop cfg env j
          (create_connections_loop env
            (load_cancelled env (scan_loop cfg env (min cfg.thread_count cfg.ports.length) k
              (scan_start (fresh_scanner fds t0)) 0).1)
            ((cfg.ports.take (min (i + min cfg.thread_count cfg.ports.length)
              cfg.ports.length)).drop i)) 0)).connections_.length ≤ cfg.thread_count := by
  obtain ⟨h1, _, h3⟩ := scan_loop_table cfg env (min cfg.thread_count cfg.ports.length)
    cfg.thread_count k (Nat.min_le_left _ _) (scan_start (fresh_scanner fds t0)) 0 rfl rfl
    (Nat.zero_le _)
  have hb : min cfg.thread_count cfg.ports.length ≤ cfg.thread_count := Nat.min_le_left _ _
  have hlen := batch_ports_length cfg.ports i (min cfg.thread_count cfg.ports.length)
  refine ⟨by rw [h1]; exact Nat.zero_le _, h3, ?_, ?_⟩
  · obtain ⟨a1, _, _⟩ := create_connections_loop_table env
      (((cfg.ports.take (min (i + min cfg.thread_count cfg.ports.length)
        cfg.ports.length)).drop i).take m)
      (load_cancelled env (scan_loop cfg env (min cfg.thread_count cfg.ports.length) k
        (scan_start (fresh_scanner fds t0)) 0).1)
    rw [load_cancelled_connections, h1] at a1
    have hm : (((cfg.ports.take (min (i + min cfg.thread_count cfg.ports.length)
        cfg.ports.length)).drop i).take m).length ≤
        ((cfg.ports.take (min (i + min cfg.thread_count cfg.ports.length)
          cfg.ports.length)).drop i).length := by
      rw [List.length_take]; exact Nat.min_le_right _ _
    simp only [List.length_nil, Nat.zero_add] at a1
    omega
  · obtain ⟨a1, _, _⟩ := create_connections_loop_table env
      ((cfg.ports.take (min (i + min cfg.thread_count cfg.ports.length)
        cfg.ports.length)).drop i)
      (load_cancelled env (scan_loop cfg env (min cfg.thread_count cfg.ports.length) k
        (scan_start (fresh_scanner fds t0)) 0).1)
    rw [load_cancelled_connections, h1] at a1
    simp only [List.length_nil, Nat.zero_add] at a1
    rw [(foldl_handle_frame cfg env events _).1, (process_loop_table cfg env j _ 0).1]
    omega

/-- The three ways the body of the loop of `create_connections` can end:
`socket` fails, the registration fails, or the record is stored. -/
theorem connect_port_cases (env : Env) (s : ScanState) (port : Port) :
    connect_port env s port = { s with socket_calls := s.socket_calls ++ [port] } ∨
    connect_port env s port =
      { s with socket_calls := s.socket_calls ++ [port],
               epoll_adds := s.epoll_adds + 1,
               open_fds := (insert (Int.ofNat (lowest_free s.open_fds)) s.open_fds).erase
                 (Int.ofNat (lowest_free s.open_fds)) } ∨
    connect_port env s port =
      { s with socket_calls := s.socket_calls ++ [port],
               epoll_adds := s.epoll_adds + 1,
               open_fds := insert (Int.ofNat (lowest_free s.open_fds)) s.open_fds,
               connections_ := s.connections_ ++
                 [{ sockfd := Int.ofNat (lowest_free s.open_fds), port := port,
                    start_time := s.now }],
               fd_to_connection_ :=
                 (Int.ofNat (lowest_free s.open_fds), s.connections_.length) ::
                   s.fd_to_connection_,
               peak_connections := max s.peak_connections (s.connections_.length + 1) } := by
  have hneg : ¬ Int.ofNat (lowest_free s.open_fds) < 0 := by simp [Int.ofNat_eq_coe]
  unfold connect_port create_socket_for_target close
  by_cases hs : env.socket_ok s.socket_calls.length = true
  · by_cases hadd : env.epoll_add_ok s.epoll_adds = true
    · right; right
      simp only [hs, hadd, if_true]
      rw [if_neg hneg]
    · right; left
      simp only [hs, hadd, if_true]
      rw [if_neg hneg]
      simp only [Bool.false_eq_true, if_false]
  · left
    simp only [hs]
    simp only [Bool.false_eq_true, if_false]
    simp

theorem connect_port_time (env : Env) (s : ScanState) (port : Port)
    (h : ∀ c ∈ s.connections_, s.now ≤ c.start_time) :
    (connect_port env s port).now = s.now ∧ (connect_port env s port).results = s.results ∧
      ∀ c ∈ (connect_port env s port).connections_, s.now ≤ c.start_time := by
  rcases connect_port_cases env s port with he | he | he
  · rw [he]; exact ⟨rfl, rfl, h⟩
  · rw [he]; exact ⟨rfl, rfl, h⟩
  · rw [he]
    refine ⟨rfl, rfl, ?_⟩
    intro c hcm
    simp only [List.mem_append, List.mem_singleton] at hcm
    rcases hcm with hcm | hcm
    · exact h c hcm
    · subst hcm; exact le_refl _

theorem create_connections_loop_time (env : Env) (ports : List Port) (s : ScanState)
    (h : ∀ c ∈ s.connections_, s.now ≤ c.start_time) :
    (create_connections_loop env s ports).now = s.now ∧
      (create_connections_loop env s ports).results = s.results ∧
      ∀ c ∈ (create_connections_loop env s ports).connections_, s.now ≤ c.start_time := by
  induction ports generalizing s with
  | nil => exact ⟨rfl, rfl, h⟩
  | cons port rest ih =>
    simp only [create_connections_loop]
    split_ifs
    · exact ⟨rfl, rfl, h⟩
    · obtain ⟨b1, b2, b3⟩ := connect_port_time env (load_cancelled env s) port h
      simp only [load_cancelled_now, load_cancelled_results] at b1 b2 b3
      obtain ⟨a1, a2, a3⟩ := ih (connect_port env (load_cancelled env s) port)
        (by rw [b1]; exact b3)
      rw [b1] at a1 a3
      exact ⟨a1, a2.trans b2, a3⟩

theorem handle_connection_event_time (cfg : ScanConfig) (env : Env) (s : ScanState)
    (event : Readiness) (t0 bound : Int)
    (hc : ∀ c ∈ s.connections_, t0 ≤ c.start_time)
    (hr : ∀ r ∈ s.results, r.response_time ≤ bound) (hn : s.now - t0 ≤ bound) :
    (∀ c ∈ (handle_connection_event cfg env s event).connections_, t0 ≤ c.start_time) ∧
      (∀ r ∈ (handle_connection_event cfg env s event).results, r.response_time ≤ bound) := by
  rcases handle_connection_event_cases cfg env s event with he | ⟨idx, conn, _, hconn, he⟩
  · rw [he]; exact ⟨hc, hr⟩
  · rw [he]
    obtain ⟨k1, _, k3⟩ := classify_event_conn cfg env s conn event
    have hmem : conn ∈ s.connections_ := List.getElem?_mem hconn
    have hst := hc conn hmem
    refine ⟨?_, ?_⟩
    · intro c hcm
      simp only [] at hcm
      rcases List.mem_or_eq_of_mem_set hcm with h1 | h1
      · exact hc c h1
      · subst h1
        simp only [k1]
        exact hst
    · intro r hrm
      simp only [List.mem_append, List.mem_singleton] at hrm
      rcases hrm with h1 | h1
      · exact hr r h1
      · subst h1
        rw [k3]
        omega

theorem foldl_handle_time (cfg : ScanConfig) (env : Env) (t0 bound : Int)
    (events : List Readiness) (s : ScanState)
    (hc : ∀ c ∈ s.connections_, t0 ≤ c.start_time)
    (hr : ∀ r ∈ s.results, r.response_time ≤ bound) (hn : s.now - t0 ≤ bound) :
    (∀ c ∈ (events.foldl (handle_connection_event cfg env) s).connections_, t0 ≤ c.start_time) ∧
      (∀ r ∈ (events.foldl (handle_connection_event cfg env) s).results,
        r.response_time ≤ bound) := by
  induction events generalizing s with
  | nil => exact ⟨hc, hr⟩
  | cons e rest ih =>
    obtain ⟨b1, b2⟩ := handle_connection_event_time cfg env s e t0 bound hc hr hn
    exact ih _ b1 b2 (by rw [(handle_connection_event_frame cfg env s e).2.2.1]; exact hn)

theorem mark_filtered_time (cfg : ScanConfig) (now t0 bound : Int) (conns : List Connection)
    (results : ScanResults) (hc : ∀ c ∈ conns, t0 ≤ c.start_time)
    (hr : ∀ r ∈ results, r.response_time ≤ bound) (hn : now - t0 ≤ bound) :
    ∀ r ∈ mark_filtered cfg now results conns, r.response_time ≤ bound := by
  induction conns generalizing results with
  | nil => exact hr
  | cons conn rest ih =>
    have hst := hc conn (List.mem_cons_self _ _)
    have hrest : ∀ c ∈ rest, t0 ≤ c.start_time := fun c hcm => hc c (List.mem_cons_of_mem _ hcm)
    simp only [mark_filtered]
    split_ifs
    · apply ih _ hrest
      intro r hrm
      simp only [ScanResults.add_result, List.mem_append, List.mem_singleton] at hrm
      rcases hrm with h1 | h1
      · exact hr r h1
      · subst h1
        show now - conn.start_time ≤ bound
        omega
    · exact ih _ hrest hr

theorem process_loop_time (cfg : ScanConfig) (env : Env) (t0 bound delay : Int)
    (hd : 0 ≤ delay) (hw : ∀ k, ((env.wait k).elapsed : Int) ≤ delay) (fuel : Nat)
    (s : ScanState) (processed : Nat)
    (hc : ∀ c ∈ s.connections_, t0 ≤ c.start_time)
    (hr : ∀ r ∈ s.results, r.response_time ≤ bound)
    (hn : s.now - t0 ≤ (processed : Int) * delay)
    (hl : (s.connections_.length : Int) * delay ≤ bound) :
    ∀ r ∈ (process_loop cfg env fuel s processed).results, r.response_time ≤ bound := by
  induction fuel generalizing s processed with
  | zero => exact hr
  | succ fuel ih =>
    simp only [process_loop]
    split_ifs with h1 h2
    · exact hr
    · have hwk := hw (load_cancelled env s).waits
      have hpl : ((processed : Int) + 1) * delay ≤ (s.connections_.length : Int) * delay := by
        apply mul_le_mul_of_nonneg_right _ hd
        exact_mod_cast h1
      have hnow : s.now + ((env.wait (load_cancelled env s).waits).elapsed : Int) - t0 ≤
          ((processed : Int) + 1) * delay := by
        have : ((processed : Int) + 1) * delay = (processed : Int) * delay + delay := by ring
        omega
      split
      · exact hr
      · rename_i reported _
        split_ifs with h3
        · exact mark_filtered_time cfg _ t0 bound _ _ hc hr (by
            simp only [load_cancelled_now]; omega)
        · have hpos : 1 ≤ (List.take max_events reported).length := by omega
          obtain ⟨b1, b2⟩ := foldl_handle_time cfg env t0 bound (List.take max_events reported)
            { load_cancelled env s with
              waits := (load_cancelled env s).waits + 1,
              now := (load_cancelled env s).now + (env.wait (load_cancelled env s).waits).elapsed }
            hc hr (by simp only [load_cancelled_now]; omega)
          obtain ⟨f1, _, f3, _⟩ := foldl_handle_frame cfg env (List.take max_events reported)
            { load_cancelled env s with
              waits := (load_cancelled env s).waits + 1,
              now := (load_cancelled env s).now + (env.wait (load_cancelled env s).waits).elapsed }
          apply ih _ _ b1 b2
          · rw [f3]
            simp only [load_cancelled_now]
            have hmono : ((processed : Int) + 1) * delay ≤
                ((processed + (List.take max_events reported).length : Nat) : Int) * delay := by
              apply mul_le_mul_of_nonneg_right _ hd
              push_cast
              omega
            omega
          · rw [f1]
            exact hl
    · exact hr

theorem run_batch_time (cfg : ScanConfig) (env : Env) (bound delay : Int)
    (hd : 0 ≤ delay) (hw : ∀ k, ((env.wait k).elapsed : Int) ≤ delay) (s : ScanState)
    (ports : List Port) (hs : s.connections_ = [])
    (hr : ∀ r ∈ s.results, r.response_time ≤ bound)
    (hl : (ports.length : Int) * delay ≤ bound) :
    ∀ r ∈ (run_batch cfg env s ports).results, r.response_time ≤ bound := by
  obtain ⟨a1, a2, a3⟩ := create_connections_loop_time env ports s
    (by intro c hcm; rw [hs] at hcm; simp at hcm)
  obtain ⟨t1, _, _⟩ := create_connections_loop_table env ports s
  rw [hs] at t1
  simp only [List.length_nil, Nat.zero_add] at t1
  unfold run_batch create_connections
  simp only []
  rw [(cleanup_frame _).1]
  split_ifs
  · unfold process_events
    apply process_loop_time cfg env s.now bound delay hd hw _ _ 0 a3 (by rw [a2]; exact hr)
    · rw [a1]; simp
    · have : ((create_connections_loop env s ports).connections_.length : Int) * delay ≤
          (ports.length : Int) * delay := by
        apply mul_le_mul_of_nonneg_right _ hd
        exact_mod_cast t1
      omega
  · rw [a2]; exact hr

theorem scan_loop_time (cfg : ScanConfig) (env : Env) (batch_size : Nat) (delay : Int)
    (hd : 0 ≤ delay) (hw : ∀ k, ((env.wait k).elapsed : Int) ≤ delay) (fuel : Nat)
    (s : ScanState) (i : Nat) (hs : s.connections_ = [])
    (hr : ∀ r ∈ s.results, r.response_time ≤ (batch_size : Int) * delay) :
    ∀ r ∈ (scan_loop cfg env batch_size fuel s i).1.results,
      r.response_time ≤ (batch_size : Int) * delay := by
  induction fuel generalizing s i with
  | zero => exact hr
  | succ fuel ih =>
    simp only [scan_loop]
    split_ifs with h1 h2
    · exact hr
    · have hlen := batch_ports_length cfg.ports i batch_size
      have hb : (((cfg.ports.take (min (i + batch_size) cfg.ports.length)).drop i).length : Int)
          * delay ≤ (batch_size : Int) * delay := by
        apply mul_le_mul_of_nonneg_right _ hd
        exact_mod_cast hlen
      apply ih
      · exact (run_batch_table cfg env (load_cancelled env s) _ hs).1
      · exact run_batch_time cfg env _ delay hd hw (load_cancelled env s) _ hs hr hb
    · exact hr

/-- Claim C4, amended.  Let every multiplexer wait return within
`timeout + ε` milliseconds, time being counted inside the waits only.  Then
the scan returns (the concurrency being positive) and every result has
`response_time ≤ B * (timeout + ε)`, where
`B = min(thread_count, number of ports)` is the batch size: every wait is
called with the full `timeout`, and a batch of `B` connections needs at most
`B` waits. -/
theorem response_time_within_batch_bound (cfg : ScanConfig) (env : Env) (fds : Finset Int)
    (t0 ε : Int) (ht : 0 < cfg.thread_count)
    (hw : ∀ k, ((env.wait k).elapsed : Int) ≤ cfg.timeout + ε) :
    ∃ results, scan_async cfg env (fresh_scanner fds t0) = some results ∧
      ∀ r ∈ results,
        r.response_time ≤
          ((min cfg.thread_count cfg.ports.length : Nat) : Int) * (cfg.timeout + ε) := by
  have hd : 0 ≤ cfg.timeout + ε := le_trans (Int.ofNat_nonneg _) (hw 0)
  refine ⟨_, scan_async_returns cfg env _ ht, ?_⟩
  unfold scan_run
  apply scan_loop_time cfg env _ _ hd hw _ _ 0 rfl
  intro r hrm
  simp [scan_start] at hrm

theorem lowest_free_not_mem (open_fds : Finset Int) :
    Int.ofNat (lowest_free open_fds) ∉ open_fds := by
  unfold lowest_free
  cases h : (List.range (open_fds.card + 1)).find?
      (fun (n : Nat) => decide (Int.ofNat n ∉ open_fds)) with
  | some n =>
    have := List.find?_some h
    simpa using this
  | none =>
    exfalso
    rw [List.find?_eq_none] at h
    have hsub : (Finset.range (open_fds.card + 1)).image Int.ofNat ⊆ open_fds := by
      intro x hx
      rw [Finset.mem_image] at hx
      obtain ⟨n, hn, rfl⟩ := hx
      have := h n (List.mem_range.mpr (Finset.mem_range.mp hn))
      simpa using this
    have hcard := Finset.card_le_card hsub
    rw [Finset.card_image_of_injective _ (fun a b hab => Int.ofNat.inj hab), Finset.card_range]
      at hcard
    omega

theorem lookup_mem {l : List (Int × Nat)} {fd : Int} {idx : Nat}
    (h : l.lookup fd = some idx) : (fd, idx) ∈ l := by
  induction l with
  | nil => simp at h
  | cons p rest ih =>
    obtain ⟨k, v⟩ := p
    by_cases hk : fd = k
    · subst hk
      simp [List.lookup] at h
      subst h
      exact List.mem_cons_self _ _
    · have hne : (fd == k) = false := by simpa using hk
      simp only [List.lookup, hne] at h
      exact List.mem_cons_of_mem _ (ih h)

theorem connect_port_fds (env : Env) (base : Finset Int) (s : ScanState) (port : Port)
    (h : BatchFds base s) : BatchFds base (connect_port env s port) := by
  obtain ⟨ha, hb, hc, hd⟩ := h
  have hfresh := lowest_free_not_mem s.open_fds
  unfold connect_port create_socket_for_target close
  by_cases hs : env.socket_ok s.socket_calls.length = true
  · by_cases hadd : env.epoll_add_ok s.epoll_adds = true
    · simp only [hs, hadd, if_true]
      have hneg : ¬ Int.ofNat (lowest_free s.open_fds) < 0 := by
        simp [Int.ofNat_eq_coe]
      rw [if_neg hneg]
      refine ⟨?_, ?_, ?_, ?_⟩
      · exact fun x hx => Finset.mem_insert_of_mem (ha hx)
      · intro x hx
        simp only [Finset.mem_insert] at hx
        rcases hx with hx | hx
        · right
          refine ⟨s.connections_.length,
            { sockfd := Int.ofNat (lowest_free s.open_fds), port := port, start_time := s.now },
            ?_, hx.symm, ?_⟩
          · simp
          · rw [hx]; simp [Int.ofNat_eq_coe]
        · rcases hb x hx with h1 | ⟨j, c, hj, hcx, h0⟩
          · exact Or.inl h1
          · right
            refine ⟨j, c, ?_, hcx, h0⟩
            have hlt : j < s.connections_.length := (List.getElem?_eq_some.mp hj).1
            simp only []
            rw [List.getElem?_append_left hlt]
            exact hj
      · intro c hcm h0
        simp only [List.mem_append, List.mem_singleton] at hcm
        rcases hcm with hcm | hcm
        · exact hc c hcm h0
        · subst hcm
          exact fun hmem => hfresh (ha hmem)
      · intro p hp
        simp only [List.mem_cons] at hp
        rcases hp with hp | hp
        · subst hp
          refine ⟨fun hmem => hfresh (ha hmem), by simp, ?_⟩
          intro c hcx
          simp at hcx
          left; rw [← hcx]; rfl
        · obtain ⟨h1, h2, h3⟩ := hd p hp
          refine ⟨h1, by simp; omega, ?_⟩
          intro c hcx
          simp only [] at hcx
          rw [List.getElem?_append_left h2] at hcx
          exact h3 c hcx
    · simp only [hs, hadd, if_true]
      have hneg : ¬ Int.ofNat (lowest_free s.open_fds) < 0 := by
        simp [Int.ofNat_eq_coe]
      rw [if_neg hneg]
      simp only [Bool.false_eq_true, if_false]
      have he : (insert (Int.ofNat (lowest_free s.open_fds)) s.open_fds).erase
          (Int.ofNat (lowest_free s.open_fds)) = s.open_fds := Finset.erase_insert hfresh
      simp only [he]
      exact ⟨ha, hb, hc, hd⟩
  · simp only [hs]
    simp only [Bool.false_eq_true, if_false]
    exact ⟨ha, hb, hc, hd⟩

theorem batch_fds_congr (base : Finset Int) (s t : ScanState) (h : BatchFds base s)
    (h1 : t.open_fds = s.open_fds) (h2 : t.connections_ = s.connections_)
    (h3 : t.fd_to_connection_ = s.fd_to_connection_) : BatchFds base t := by
  unfold BatchFds at *
  rw [h1, h2, h3]
  exact h

theorem create_connections_loop_fds (env : Env) (base : Finset Int) (ports : List Port)
    (s : ScanState) (h : BatchFds base s) : BatchFds base (create_connections_loop env s ports) := by
  induction ports generalizing s with
  | nil => exact h
  | cons port rest ih =>
    have hl : BatchFds base (load_cancelled env s) := batch_fds_congr base s _ h rfl rfl rfl
    simp only [create_connections_loop]
    split_ifs
    · exact hl
    · exact ih _ (connect_port_fds env base _ port hl)

theorem handle_connection_event_fds (cfg : ScanConfig) (env : Env) (base : Finset Int)
    (s : ScanState) (event : Readiness) (h : BatchFds base s) :
    BatchFds base (handle_connection_event cfg env s event) := by
  rcases handle_connection_event_cases cfg env s event with he | ⟨idx, conn, hfd, hconn, he⟩
  · rw [he]; exact h
  · rw [he]
    obtain ⟨ha, hb, hc, hd⟩ := h
    obtain ⟨k1, k2, k3⟩ := hd _ (lookup_mem hfd)
    simp only [] at k1 k2 k3
    refine ⟨?_, ?_, ?_, ?_⟩
    · intro x hx
      simp only [Finset.mem_erase]
      exact ⟨fun hxe => k1 (hxe ▸ hx), ha hx⟩
    · intro x hx
      simp only [Finset.mem_erase] at hx
      rcases hb x hx.2 with h1 | ⟨j, c, hj, hcx, h0⟩
      · exact Or.inl h1
      · right
        by_cases hji : idx = j
        · subst hji
          rw [hconn] at hj
          cases hj
          rcases k3 conn hconn with e1 | e2
          · exact absurd (e1 ▸ hcx.symm) hx.1
          · omega
        · refine ⟨j, c, ?_, hcx, h0⟩
          simp only []
          rw [List.getElem?_set_ne hji]
          exact hj
    · intro c hcm h0
      simp only [] at hcm
      rcases List.mem_or_eq_of_mem_set hcm with h1 | h1
      · exact hc c h1 h0
      · subst h1
        simp at h0
    · intro p hp
      obtain ⟨h1, h2, h3⟩ := hd p hp
      refine ⟨h1, by simpa using h2, ?_⟩
      intro c hcx
      simp only [] at hcx
      by_cases hpi : idx = p.2
      · rw [← hpi, List.getElem?_set_eq_of_lt _ k2] at hcx
        cases hcx
        right
        simp
      · rw [List.getElem?_set_ne hpi] at hcx
        exact h3 c hcx

theorem foldl_handle_fds (cfg : ScanConfig) (env : Env) (base : Finset Int)
    (events : List Readiness) (s : ScanState) (h : BatchFds base s) :
    BatchFds base (events.foldl (handle_connection_event cfg env) s) := by
  induction events generalizing s with
  | nil => exact h
  | cons e rest ih => exact ih _ (handle_connection_event_fds cfg env base s e h)

theorem process_loop_fds (cfg : ScanConfig) (env : Env) (base : Finset Int) (fuel : Nat)
    (s : ScanState) (processed : Nat) (h : BatchFds base s) :
    BatchFds base (process_loop cfg env fuel s processed) := by
  induction fuel generalizing s processed with
  | zero => exact h
  | succ fuel ih =>
    have hl : BatchFds base (load_cancelled env s) := batch_fds_congr base s _ h rfl rfl rfl
    simp only [process_loop]
    split_ifs with h1 h2
    · exact hl
    · split
      · exact batch_fds_congr base s _ h rfl rfl rfl
      · split_ifs
        · exact batch_fds_congr base s _ h rfl rfl rfl
        · exact ih _ _ (foldl_handle_fds cfg env base _ _
            (batch_fds_congr base s _ h rfl rfl rfl))
    · exact h

theorem close_all_open_fds (l : List Connection) (s : ScanState) (x : Int) :
    x ∈ (close_all s l).open_fds ↔
      x ∈ s.open_fds ∧ ∀ c ∈ l, 0 ≤ c.sockfd → c.sockfd ≠ x := by
  induction l generalizing s with
  | nil => simp [close_all]
  | cons conn rest ih =>
    simp only [close_all]
    rw [ih]
    by_cases h0 : conn.sockfd ≥ 0
    · simp only [h0, if_true, close, Finset.mem_erase, List.mem_cons]
      constructor
      · rintro ⟨⟨hne, hx⟩, hr⟩
        refine ⟨hx, ?_⟩
        intro c hcm hc0
        rcases hcm with rfl | hcm
        · exact fun hh => hne hh.symm
        · exact hr c hcm hc0
      · rintro ⟨hx, hr⟩
        exact ⟨⟨fun hh => hr conn (Or.inl rfl) h0 hh.symm, hx⟩,
          fun c hcm hc0 => hr c (Or.inr hcm) hc0⟩
    · simp only [h0, if_false, List.mem_cons]
      constructor
      · rintro ⟨hx, hr⟩
        refine ⟨hx, ?_⟩
        intro c hcm hc0
        rcases hcm with rfl | hcm
        · exact absurd hc0 h0
        · exact hr c hcm hc0
      · rintro ⟨hx, hr⟩
        exact ⟨hx, fun c hcm hc0 => hr c (Or.inr hcm) hc0⟩

theorem cleanup_open_fds (base : Finset Int) (s : ScanState) (h : BatchFds base s) :
    (cleanup s).open_fds = base := by
  obtain ⟨ha, hb, hc, _⟩ := h
  ext x
  show x ∈ (close_all s s.connections_).open_fds ↔ x ∈ base
  rw [close_all_open_fds]
  constructor
  · rintro ⟨hx, hr⟩
    rcases hb x hx with h1 | ⟨j, c, hj, hcx, h0⟩
    · exact h1
    · exact absurd hcx (hr c (List.getElem?_mem hj) (hcx ▸ h0))
  · intro hx
    exact ⟨ha hx, fun c hcm hc0 hh => hc c hcm hc0 (hh ▸ hx)⟩

theorem batch_fds_start (s : ScanState) (hs : s.connections_ = [])
    (hm : s.fd_to_connection_ = []) : BatchFds s.open_fds s := by
  refine ⟨fun x hx => hx, fun x hx => Or.inl hx, ?_, ?_⟩
  · intro c hcm; rw [hs] at hcm; simp at hcm
  · intro p hp; rw [hm] at hp; simp at hp

theorem run_batch_open_fds (cfg : ScanConfig) (env : Env) (s : ScanState)
    (batch_ports : List Port) (hs : s.connections_ = []) (hm : s.fd_to_connection_ = []) :
    (run_batch cfg env s batch_ports).open_fds = s.open_fds := by
  have h1 := create_connections_loop_fds env s.open_fds batch_ports s (batch_fds_start s hs hm)
  unfold run_batch create_connections
  simp only []
  split_ifs
  · exact cleanup_open_fds _ _ (process_loop_fds cfg env _ _ _ 0 h1)
  · exact cleanup_open_fds _ _ h1

/-- In a whole scan the hypotheses of the batch law hold at every batch: after
any number of batches the set of open descriptors is the initial one. -/
theorem scan_loop_open_fds (cfg : ScanConfig) (env : Env) (batch_size fuel : Nat)
    (s : ScanState) (i : Nat) (hs : s.connections_ = []) (hm : s.fd_to_connection_ = []) :
    (scan_loop cfg env batch_size fuel s i).1.open_fds = s.open_fds := by
  induction fuel generalizing s i with
  | zero => rfl
  | succ fuel ih =>
    simp only [scan_loop]
    split_ifs with h1 h2
    · rfl
    · obtain ⟨b1, b2, _⟩ := run_batch_table cfg env (load_cancelled env s)
        ((cfg.ports.take (min (i + batch_size) cfg.ports.length)).drop i) hs
      rw [ih _ _ b1 b2]
      exact run_batch_open_fds cfg env (load_cancelled env s) _ hs hm
    · rfl

/-- Claim C7.  Take a scanner between two batches (connection table and
descriptor map empty) and run one batch on any ports: connection setup,
event processing when a record was stored, then the clean-up.  Whatever the
environment decides for each socket (registration fails, an event classifies
it, the wait times out or fails, the scan is cancelled), the set of open
descriptors after the batch equals the set before it: every socket opened
during the batch has been closed, and no other descriptor has been. -/
theorem run_batch_conserves_descriptors (cfg : ScanConfig) (env : Env) (s : ScanState)
    (batch_ports : List Port) (hs : s.connections_ = []) (hm : s.fd_to_connection_ = []) :
    (run_batch cfg env s batch_ports).open_fds = s.open_fds :=
  run_batch_open_fds cfg env s batch_ports hs hm

/-! ### Facts about the string operations -/

theorem isPrefixOf_sound (a b : List Char) : a.isPrefixOf b = true ↔ a <+: b :=
  List.isPrefixOf_iff_prefix

theorem findAux_bound (pat : List Char) (l : List Char) (i j : Nat)
    (h : findAux pat l i = some j) : i ≤ j ∧ j - i + pat.length ≤ l.length := by
  induction l generalizing i with
  | nil =>
    simp only [findAux] at h
    split_ifs at h with hp
    · cases h
      have : pat = [] := by simpa using hp
      subst this
      simp
  | cons c cs ih =>
    simp only [findAux] at h
    split_ifs at h with hp
    · cases h
      have hpre : pat <+: c :: cs := (isPrefixOf_sound _ _).mp hp
      have := hpre.length_le
      simp at this ⊢
      omega
    · obtain ⟨h1, h2⟩ := ih (i + 1) h
      simp only [List.length_cons]
      omega

theorem findAux_isSome_iff (pat : List Char) (l : List Char) (i : Nat) :
    (findAux pat l i).isSome = true ↔ pat <:+: l := by
  induction l generalizing i with
  | nil =>
    simp only [findAux]
    split_ifs with hp
    · have : pat = [] := by simpa using hp
      subst this
      simp
    · have : pat ≠ [] := by simpa using hp
      simp [this]
  | cons c cs ih =>
    simp only [findAux]
    rw [List.infix_cons_iff]
    split_ifs with hp
    · simp [(isPrefixOf_sound _ _).mp hp]
    · rw [ih]
      have : ¬ pat <+: c :: cs := fun hpre => hp ((isPrefixOf_sound _ _).mpr hpre)
      simp [this]

/-- The test `banner.find(pattern) != npos` holds exactly when the literal
occurs in the banner as a contiguous block. -/
theorem find_isSome_iff (s pat : String) :
    (find s pat 0).isSome = true ↔ pat.data <:+: s.data := by
  unfold find
  simp only [Nat.not_lt_zero, if_false, List.drop_zero]
  exact findAux_isSome_iff pat.data s.data 0

theorem find_bound (s pat : String) (pos j : Nat) (h : find s pat pos = some j) :
    j + pat.length ≤ s.length := by
  unfold find at h
  split_ifs at h with hlt
  obtain ⟨h1, h2⟩ := findAux_bound pat.data (s.data.drop pos) pos j h
  simp only [List.length_drop] at h2
  have e1 : s.length = s.data.length := rfl
  have e2 : pat.length = pat.data.length := rfl
  omega

theorem find_char_le (s : String) (c : Char) (pos e : Nat) (h : find_char s c pos = some e) :
    pos ≤ s.length := by
  unfold find_char at h
  split_ifs at h with hlt
  omega

theorem or_find_le (s : String) (a b : Option Nat) (pos e : Nat)
    (ha : ∀ x, a = some x → pos ≤ s.length) (hb : ∀ x, b = some x → pos ≤ s.length)
    (h : or_find a b = some e) : pos ≤ s.length := by
  unfold or_find at h
  cases a with
  | some x => exact ha x rfl
  | none => exact hb e h

theorem substr_of_le (s : String) (pos len : Nat) (h : pos ≤ s.length) :
    substr s pos len = some ⟨(s.data.drop pos).take len⟩ := by
  unfold substr
  rw [if_neg (by omega)]

/-! ### The pattern matcher -/

theorem extract_ssh_version_total (banner : String) (info : ServiceInfo) :
    ∃ v, extract_ssh_version banner info = some { info with version := v } := by
  unfold extract_ssh_version
  cases hf : find banner "SSH-" 0 with
  | none => exact ⟨info.version, rfl⟩
  | some pos =>
    simp only []
    cases he : or_find (or_find (find_char banner ' ' pos) (find_char banner '\r' pos))
        (find_char banner '\n' pos) with
    | none => exact ⟨info.version, rfl⟩
    | some end_ =>
      have hb := find_bound banner "SSH-" 0 pos hf
      have h4 : "SSH-".length = 4 := by decide
      rw [h4] at hb
      simp only []
      rw [substr_of_le banner (pos + 4) _ hb]
      exact ⟨_, rfl⟩

theorem match_loop_spec (banner : String) (info : ServiceInfo) (ps : List ServicePattern) :
    ∃ out, match_loop banner info ps = some out ∧
      match ps.find? (fun p => decide (p.pattern.data <:+: banner.data)) with
      | some p => out.name = p.service_name ∧ out.confidence = p.confidence
      | none => out = info := by
  induction ps with
  | nil => exact ⟨info, rfl, rfl⟩
  | cons p rest ih =>
    simp only [match_loop, List.find?]
    by_cases hfound : (find banner p.pattern 0).isSome = true
    · have hin : p.pattern.data <:+: banner.data := (find_isSome_iff _ _).mp hfound
      simp only [hfound, if_true, hin, decide_True]
      split_ifs
      · obtain ⟨v, hv⟩ := extract_ssh_version_total banner
          { info with name := p.service_name, confidence := p.confidence }
        exact ⟨_, hv, rfl, rfl⟩
      · exact ⟨_, rfl, rfl, rfl⟩
    · have hin : ¬ p.pattern.data <:+: banner.data := fun h => hfound ((find_isSome_iff _ _).mpr h)
      simp only [hfound, hin, decide_False]
      exact ih

theorem match_patterns_spec (patterns_ : PatternTable)
    (services : Port → Option String) (port : Port) (banner : String) :
    ∃ info, match_patterns patterns_ services port banner = some info ∧
      match ((patterns_.find port).getD []).find?
          (fun p => decide (p.pattern.data <:+: banner.data)) with
      | some p =>
        if p.service_name = "" then
          info.name = get_service_name services port ∧ info.confidence = 50
        else info.name = p.service_name ∧ info.confidence = p.confidence
      | none => info.name = get_service_name services port ∧ info.confidence = 50 := by
  unfold match_patterns
  cases hl : patterns_.find port with
  | none =>
    simp only [Option.getD_none, List.find?_nil]
    exact ⟨_, rfl, rfl, rfl⟩
  | some ps =>
    simp only [Option.getD_some]
    obtain ⟨out, ho, hspec⟩ := match_loop_spec banner {} ps
    rw [ho]
    simp only []
    cases hf : ps.find? (fun p => decide (p.pattern.data <:+: banner.data)) with
    | none =>
      rw [hf] at hspec
      simp only [] at hspec
      subst hspec
      exact ⟨_, rfl, rfl, rfl⟩
    | some p =>
      rw [hf] at hspec
      simp only [] at hspec
      obtain ⟨hn, hc⟩ := hspec
      by_cases hname : p.service_name = ""
      · have : out.name = "" := hn.trans hname
        simp only [this, if_true, hname]
        exact ⟨_, rfl, rfl, rfl⟩
      · have : ¬ out.name = "" := fun h => hname (hn.symm.trans h)
        simp only [this, if_false, hname]
        exact ⟨_, rfl, hn, hc⟩

/-- Claim C8, amended.  For every pattern table, port and banner,
`match_patterns` returns.  When some pattern listed for the port has its
literal contained in the banner and the first such pattern has a non-empty
`service_name`, the result carries the `service_name` and the confidence of
that pattern; when no pattern matches, or the first match has an empty
`service_name`, the result carries the well-known-port name and confidence
0.5 (stored as 50). -/
theorem match_patterns_first_named_hit (patterns_ : PatternTable)
    (services : Port → Option String) (port : Port) (banner : String) :
    ∃ info, match_patterns patterns_ services port banner = some info ∧
      match ((patterns_.find port).getD []).find?
          (fun p => decide (p.pattern.data <:+: banner.data)) with
      | some p =>
        if p.service_name = "" then
          info.name = get_service_name services port ∧ info.confidence = 50
        else info.name = p.service_name ∧ info.confidence = p.confidence
      | none => info.name = get_service_name services port ∧ info.confidence = 50 :=
  match_patterns_spec patterns_ services port banner

/-- Claim C8 as stated fails.  After `add_pattern(8080, p)` with a pattern `p`
of literal `HTTP/`, empty `service_name` and confidence 0.9, the banner
`HTTP/1.1 200 OK` on port 8080 contains the literal of `p`, the first and only
pattern listed for the port, yet `match_patterns` does not return the name and
the confidence of `p`: it returns the well-known-port fallback with
confidence 0.5. -/
theorem match_patterns_unnamed_hit :
    ∃ p info,
      ((unnamed_http_table.find 8080).getD []).find?
          (fun p => decide (p.pattern.data <:+: "HTTP/1.1 200 OK".data)) = some p ∧
      match_patterns unnamed_http_table (fun _ => none) 8080 "HTTP/1.1 200 OK" = some info ∧
      ¬ (info.name = p.service_name ∧ info.confidence = p.confidence) :=
  ⟨⟨"HTTP/", "", "", 90⟩, { name := "unknown", confidence := 50 }, by decide, by decide,
    by decide⟩

theorem match_patterns_total (patterns_ : PatternTable) (services : Port → Option String)
    (port : Port) (banner : String) :
    ∃ info, match_patterns patterns_ services port banner = some info := by
  obtain ⟨info, h, _⟩ := match_patterns_spec patterns_ services port banner
  exact ⟨info, h⟩

theorem analyze_http_response_total (response : String) :
    ∃ info, analyze_http_response response = some info := by
  unfold analyze_http_response
  simp only []
  cases hf : find response "Server:" 0 with
  | none =>
    simp only []
    split_ifs <;> exact ⟨_, rfl⟩
  | some server_pos =>
    simp only []
    cases he : or_find (find_char response '\r' (server_pos + 8))
        (find_char response '\n' (server_pos + 8)) with
    | none =>
      simp only []
      split_ifs <;> exact ⟨_, rfl⟩
    | some end_ =>
      have hle := or_find_le response _ _ (server_pos + 8) end_
        (fun x hx => find_char_le response '\r' _ x hx)
        (fun x hx => find_char_le response '\n' _ x hx) he
      simp only []
      rw [substr_of_le response _ _ hle]
      simp only []
      split_ifs <;> exact ⟨_, rfl⟩

theorem analyze_ssh_banner_total (banner : String) :
    ∃ info, analyze_ssh_banner banner = some info := by
  unfold analyze_ssh_banner
  simp only []
  cases hf : find banner "SSH-" 0 with
  | none => exact ⟨_, rfl⟩
  | some ssh_pos =>
    simp only []
    cases hv : find_char banner '-' (ssh_pos + 4) with
    | none => exact ⟨_, rfl⟩
    | some version_end =>
      simp only []
      rw [substr_of_le banner _ _ (find_char_le banner '-' _ _ hv)]
      simp only []
      cases he : or_find (or_find (find_char banner ' ' (version_end + 1))
          (find_char banner '\r' (version_end + 1))) (find_char banner '\n' (version_end + 1)) with
      | none => exact ⟨_, rfl⟩
      | some product_end =>
        have hle := or_find_le banner _ _ (version_end + 1) product_end
          (fun x hx => or_find_le banner _ _ (version_end + 1) x
            (fun y hy => find_char_le banner ' ' _ y hy)
            (fun y hy => find_char_le banner '\r' _ y hy) hx)
          (fun x hx => find_char_le banner '\n' _ x hx) he
        simp only []
        rw [substr_of_le banner _ _ hle]
        exact ⟨_, rfl⟩

theorem analyze_ftp_banner_total (banner : String) :
    ∃ info, analyze_ftp_banner banner = some info := by
  unfold analyze_ftp_banner
  simp only []
  split_ifs
  · cases he : or_find (find_char banner '\r' 4) (find_char banner '\n' 4) with
    | none => exact ⟨_, rfl⟩
    | some end_ =>
      have hle := or_find_le banner _ _ 4 end_
        (fun x hx => find_char_le banner '\r' _ x hx)
        (fun x hx => find_char_le banner '\n' _ x hx) he
      simp only []
      rw [substr_of_le banner _ _ hle]
      exact ⟨_, rfl⟩
  · exact ⟨_, rfl⟩

/-- The service detector never raises: `detect_service` always returns. -/
theorem detect_service_total (patterns_ : PatternTable) (services : Port → Option String)
    (grabbed : String) (port : Port) (banner : String) :
    ∃ info, detect_service patterns_ services grabbed port banner = some info := by
  unfold detect_service
  simp only []
  generalize (if banner = "" then grabbed else banner) = service_banner
  obtain ⟨g, hg⟩ := match_patterns_total patterns_ services port service_banner
  obtain ⟨a1, ha1⟩ := analyze_http_response_total service_banner
  obtain ⟨a2, ha2⟩ := analyze_ssh_banner_total service_banner
  obtain ⟨a3, ha3⟩ := analyze_ftp_banner_total service_banner
  rw [hg, ha1, ha2, ha3]
  simp only [prefer]
  split_ifs <;> exact ⟨_, rfl⟩

/-- Claim C9.  For a non-empty banner `detect_service` returns: on port 22
(resp. 21, resp. 80, 8080 or 443) the result of the SSH (resp. FTP, resp.
HTTP) analyzer when its confidence is strictly greater than that of
`match_patterns port banner`, and the `match_patterns` result otherwise; on
every other port the `match_patterns` result.  All the functions involved
return (none raises). -/
theorem detect_service_prefers_analyzer (patterns_ : PatternTable)
    (services : Port → Option String) (grabbed : String) (port : Port) (banner : String)
    (hb : banner ≠ "") :
    ∃ generic, match_patterns patterns_ services port banner = some generic ∧
      (port = 22 → ∃ ssh_info, analyze_ssh_banner banner = some ssh_info ∧
        detect_service patterns_ services grabbed port banner =
          some (if ssh_info.confidence > generic.confidence then ssh_info else generic)) ∧
      (port = 21 → ∃ ftp_info, analyze_ftp_banner banner = some ftp_info ∧
        detect_service patterns_ services grabbed port banner =
          some (if ftp_info.confidence > generic.confidence then ftp_info else generic)) ∧
      (port = 80 ∨ port = 8080 ∨ port = 443 →
        ∃ http_info, analyze_http_response banner = some http_info ∧
          detect_service patterns_ services grabbed port banner =
            some (if http_info.confidence > generic.confidence then http_info else generic)) ∧
      (port ≠ 22 → port ≠ 21 → port ≠ 80 → port ≠ 8080 → port ≠ 443 →
        detect_service patterns_ services grabbed port banner = some generic) := by
  obtain ⟨g, hg⟩ := match_patterns_total patterns_ services port banner
  refine ⟨g, hg, ?_, ?_, ?_, ?_⟩
  · intro hp
    obtain ⟨a, ha⟩ := analyze_ssh_banner_total banner
    refine ⟨a, ha, ?_⟩
    unfold detect_service
    simp only [hb, if_false, hg, ha, prefer]
    subst hp
    simp only [Nat.reduceEqDiff, or_self, if_false, if_true]
    split_ifs <;> rfl
  · intro hp
    obtain ⟨a, ha⟩ := analyze_ftp_banner_total banner
    refine ⟨a, ha, ?_⟩
    unfold detect_service
    simp only [hb, if_false, hg, ha, prefer]
    subst hp
    simp only [Nat.reduceEqDiff, or_self, if_false, if_true]
    split_ifs <;> rfl
  · intro hp
    obtain ⟨a, ha⟩ := analyze_http_response_total banner
    refine ⟨a, ha, ?_⟩
    unfold detect_service
    simp only [hb, if_false, hg, ha, prefer, hp, if_true]
    split_ifs <;> rfl
  · intro h22 h21 h80 h8080 h443
    unfold detect_service
    simp only [hb, if_false, hg, h22, h21, h80, h8080, h443, or_self]

theorem analyze_http_response_confidence (response : String) (a : ServiceInfo)
    (h : analyze_http_response response = some a) : a.confidence ≤ 90 := by
  unfold analyze_http_response at h
  simp only [] at h
  cases hf : find response "Server:" 0 with
  | none =>
    rw [hf] at h
    simp only [] at h
    split_ifs at h <;> cases h <;> decide
  | some server_pos =>
    rw [hf] at h
    simp only [] at h
    cases he : or_find (find_char response '\r' (server_pos + 8))
        (find_char response '\n' (server_pos + 8)) with
    | none =>
      rw [he] at h
      simp only [] at h
      split_ifs at h <;> cases h <;> decide
    | some end_ =>
      rw [he] at h
      simp only [] at h
      cases hs : substr response (server_pos + 8) (size_sub end_ (server_pos + 8)) with
      | none => rw [hs] at h; simp at h
      | some p =>
        rw [hs] at h
        simp only [] at h
        split_ifs at h <;> cases h <;> exact Nat.le_refl _

/-- On port 80 with the built-in table, every non-empty banner that contains
`HTTP/` gets the generic result: whatever the HTTP analyzer extracts, its
confidence is at most 0.9 and never strictly above the 0.9 of the pattern. -/
theorem detect_service_http_keeps_generic (services : Port → Option String)
    (grabbed banner : String) (hb : banner ≠ "") (hh : "HTTP/".data <:+: banner.data) :
    detect_service SERVICE_PATTERNS services grabbed 80 banner =
      some { name := "http", confidence := 90 } := by
  have hfound : (find banner "HTTP/" 0).isSome = true := (find_isSome_iff _ _).mpr hh
  have hm : match_patterns SERVICE_PATTERNS services 80 banner =
      some { name := "http", confidence := 90 } := by
    have ht : PatternTable.find SERVICE_PATTERNS 80 =
        some [⟨"HTTP/", "http", "Server:\\s*([^\\r\\n]+)", 90⟩] := by decide
    unfold match_patterns
    rw [ht]
    have hne : ¬ ("HTTP/" = "SSH-") := by decide
    have hn2 : ¬ ("http" = "") := by decide
    simp [match_loop, hfound, hne, hn2]
  obtain ⟨a, ha⟩ := analyze_http_response_total banner
  have hc := analyze_http_response_confidence banner a ha
  unfold detect_service
  simp only [hb, if_false, hm, ha, prefer, true_or, if_true]
  have : ¬ a.confidence > 90 := by omega
  simp [this]

/-- Claim C10, evaluated on the code.  On port 80 the response
`HTTP/1.1 200 OK`, `Server: nginx/1.25.3` contains the header line of the
claim, first occurrence of `Server:`.  The HTTP analyzer extracts the product
with confidence 0.9, but the built-in pattern `HTTP/` already gives confidence
0.9 and the analyzer result replaces it only when strictly greater:
`detect_service` returns an empty product. -/
theorem detect_service_http_server_header_lost :
    detect_service SERVICE_PATTERNS (fun _ => none) "" 80
        "HTTP/1.1 200 OK\r\nServer: nginx/1.25.3\r\n\r\n" =
      some { name := "http", product := "", confidence := 90 } ∧
    analyze_http_response "HTTP/1.1 200 OK\r\nServer: nginx/1.25.3\r\n\r\n" =
      some { name := "http", version := "1.1", product := "nginx/1.25.3", confidence := 90 } := by
  decide

/-- Claim C1, evaluated on the code.  Two ports are scanned in one batch, every
socket is created and registered, nothing is cancelled.  Port 80 refuses the
connection and port 81 never answers.  The scan returns three results for two
ports: port 80 is reported `CLOSED` by its event and a second time `FILTERED`
by the timeout branch, which skips only the records whose `connected` flag is
set. -/
theorem scan_async_reports_refused_port_twice :
    (scan_async two_ports refused_then_silent (fresh_scanner std_fds 0)).map
        (fun results => results.map (fun r => (r.port, r.status))) =
      some [(80, PortStatus.CLOSED), (80, PortStatus.FILTERED), (81, PortStatus.FILTERED)] := by
  decide

/-- Claim C3, evaluated on the code.  The call of `socket` for port 80 fails.
The remaining port 81 is still attempted (second entry of `socket_calls`) and
gets its result, but no result at all, and so no `UNKNOWN` result, is recorded
for port 80. -/
theorem scan_async_drops_port_without_socket :
    (scan_run two_ports first_socket_fails (fresh_scanner std_fds 0)).1.socket_calls = [80, 81] ∧
    (scan_async two_ports first_socket_fails (fresh_scanner std_fds 0)).map
        (fun results => results.map (fun r => (r.port, r.status))) =
      some [(81, PortStatus.OPEN)] := by
  decide

/-- Claim C4 as stated fails.  With a timeout of 1000 ms and `ε = 100`, no wait
overruns `timeout + ε`: port 80 answers after 900 ms, then the second wait,
called with the full timeout again, returns after 1000 ms.  The result for
port 81 has a response time of 1900 ms, above `timeout + ε`. -/
theorem response_time_exceeds_deadline :
    (∀ k, ((late_answer_then_silent.wait k).elapsed : Int) ≤ two_ports.timeout + 100) ∧
    ∃ r ∈ (scan_run two_ports late_answer_then_silent (fresh_scanner std_fds 0)).1.results,
      two_ports.timeout + 100 < r.response_time := by
  constructor
  · intro k
    rcases k with _ | k <;> simp [late_answer_then_silent, two_ports]
  · exact ⟨{ port := 81, status := PortStatus.FILTERED, response_time := 1900 },
      by decide, by decide⟩

/-- Claim C2 on a refused connection: the event on descriptor 3 is writable
with `SO_ERROR = 111`, and the single result appended is for port 80. -/
theorem handle_connection_event_classifies_witness :
    one_pending.fd_to_connection_.lookup refused_event.fd = some 0 ∧
    ∃ r : ScanResult,
      (handle_connection_event two_ports refused_then_silent one_pending refused_event).results =
        one_pending.results ++ [r] ∧
      r.port = 80 ∧
      (r.status = PortStatus.OPEN ↔
        (refused_event.epollout = true ∧ refused_event.so_error = some 0)) ∧
      (¬ (refused_event.epollout = true ∧ refused_event.so_error = some 0) →
        r.status = PortStatus.CLOSED) :=
  ⟨by decide, handle_connection_event_classifies two_ports refused_then_silent one_pending
    refused_event 0 { sockfd := 3, port := 80, start_time := 0 } (by decide) (by decide)
    (Or.inl (by decide))⟩

/-- Claim C4, amended, on the scan of two ports in which port 80 answers late and
port 81 never answers: both results stay within `2 * (1000 + 100)` ms. -/
theorem response_time_within_batch_bound_witness :
    (∀ k, ((late_answer_then_silent.wait k).elapsed : Int) ≤ two_ports.timeout + 100) ∧
    ∃ results, scan_async two_ports late_answer_then_silent (fresh_scanner std_fds 0) =
        some results ∧
      ∀ r ∈ results, r.response_time ≤ 2 * (1000 + 100) :=
  ⟨fun k => by rcases k with _ | k <;> simp [late_answer_then_silent, two_ports],
    response_time_within_batch_bound two_ports late_answer_then_silent std_fds 0 100
      (by decide)
      (fun k => by rcases k with _ | k <;> simp [late_answer_then_silent, two_ports])⟩

/-- Claim C6 on a scanner cancelled after its first result, with one connection
still pending: whichever check point comes next, the scan ends with that one
result. -/
theorem cancelled_scan_appends_nothing_witness :
    cancelled_after_one.cancelled_ = true ∧
    (∃ t, scan_loop two_ports refused_then_silent 2 (3 + 1)
          (run_batch two_ports refused_then_silent cancelled_after_one [81]) 0 = (t, true) ∧
        t.results = cancelled_after_one.results) ∧
    (∃ t, scan_loop two_ports refused_then_silent 2 (3 + 1)
          (cleanup (process_loop two_ports refused_then_silent 1 cancelled_after_one 0)) 0 =
            (t, true) ∧
        t.results = cancelled_after_one.results) ∧
    (∃ t, scan_loop two_ports refused_then_silent 2 (3 + 1) cancelled_after_one 0 = (t, true) ∧
        t.results = cancelled_after_one.results) :=
  ⟨rfl, cancelled_scan_appends_nothing two_ports refused_then_silent cancelled_after_one
    (Or.inl rfl) [81] 1 0 2 3 0⟩

/-- Claim C7 on a batch of two ports, one refused and one silent: after the
batch the open descriptors are again 0, 1 and 2. -/
theorem run_batch_conserves_descriptors_witness :
    (fresh_scanner std_fds 0).connections_ = [] ∧
    (run_batch two_ports refused_then_silent (fresh_scanner std_fds 0) [80, 81]).open_fds =
      std_fds :=
  ⟨rfl, run_batch_conserves_descriptors two_ports refused_then_silent (fresh_scanner std_fds 0)
    [80, 81] rfl rfl⟩

/-- Claim C9 on the SSH banner of an OpenSSH server on port 22. -/
theorem detect_service_prefers_analyzer_witness :
    "SSH-2.0-OpenSSH_8.9p1 Ubuntu\r\n" ≠ "" ∧
    ∃ generic,
      match_patterns SERVICE_PATTERNS (fun _ => none) 22 "SSH-2.0-OpenSSH_8.9p1 Ubuntu\r\n" =
        some generic ∧
      (22 = 22 → ∃ ssh_info,
        analyze_ssh_banner "SSH-2.0-OpenSSH_8.9p1 Ubuntu\r\n" = some ssh_info ∧
        detect_service SERVICE_PATTERNS (fun _ => none) "" 22 "SSH-2.0-OpenSSH_8.9p1 Ubuntu\r\n" =
          some (if ssh_info.confidence > generic.confidence then ssh_info else generic)) :=
  ⟨by decide,
    (detect_service_prefers_analyzer SERVICE_PATTERNS (fun _ => none) "" 22
      "SSH-2.0-OpenSSH_8.9p1 Ubuntu\r\n" (by decide)).imp (fun _ h => ⟨h.1, h.2.1⟩)⟩

/-! ### More facts about the string operations -/

theorem size_sub_eq (a b : Nat) (hb : b ≤ a) (ha : a < 2 ^ 64) : size_sub a b = a - b := by
  unfold size_sub
  have h1 : b % 2 ^ 64 = b := Nat.mod_eq_of_lt (by omega)
  rw [h1]
  have h2 : a + 2 ^ 64 - b = (a - b) + 2 ^ 64 := by omega
  rw [h2, Nat.add_mod_right]
  exact Nat.mod_eq_of_lt (by omega)

theorem findAux_head_not_mem (p : Char) (ps l : List Char) (i : Nat) (h : p ∉ l) :
    findAux (p :: ps) l i = none := by
  induction l generalizing i with
  | nil => simp [findAux]
  | cons c cs ih =>
    have hc : p ≠ c := fun e => h (e ▸ List.mem_cons_self _ _)
    have hcs : p ∉ cs := fun e => h (List.mem_cons_of_mem _ e)
    simp only [findAux]
    have hpre : (p :: ps).isPrefixOf (c :: cs) = false := by
      simp [List.isPrefixOf, hc]
    rw [hpre]
    simpa using ih (i + 1) hcs

theorem findAux_char_append (c : Char) (l1 l2 : List Char) (i : Nat) (h : c ∉ l1) :
    findAux [c] (l1 ++ c :: l2) i = some (i + l1.length) := by
  induction l1 generalizing i with
  | nil => simp [findAux, List.isPrefixOf]
  | cons d ds ih =>
    have hd : c ≠ d := fun e => h (e ▸ List.mem_cons_self _ _)
    have hds : c ∉ ds := fun e => h (List.mem_cons_of_mem _ e)
    have hpre : [c].isPrefixOf (d :: (ds ++ c :: l2)) = false := by
      simp [List.isPrefixOf, hd]
    rw [List.cons_append, findAux, hpre]
    simp only [Bool.false_eq_true, if_false]
    rw [ih (i + 1) hds]
    simp only [List.length_cons]
    congr 1
    omega

theorem find_char_none (s : String) (c : Char) (pos : Nat) (h : c ∉ s.data.drop pos) :
    find_char s c pos = none := by
  unfold find_char
  split_ifs
  · rfl
  · exact findAux_head_not_mem c [] _ pos h

theorem find_char_append (s : String) (c : Char) (pos : Nat) (l1 l2 : List Char)
    (hs : s.data.drop pos = l1 ++ c :: l2) (h : c ∉ l1) :
    find_char s c pos = some (pos + l1.length) := by
  unfold find_char
  have hlen : ¬ s.length < pos := by
    intro hlt
    have : s.data.drop pos = [] := List.drop_eq_nil_of_le (by
      have e : s.length = s.data.length := rfl
      omega)
    rw [this] at hs
    simp at hs
  rw [if_neg hlen, hs]
  exact findAux_char_append c l1 l2 pos h

theorem findAux_eq_start (pat l : List Char) (i : Nat) :
    findAux pat l i = some i ↔ pat <+: l := by
  cases l with
  | nil =>
    simp only [findAux]
    constructor
    · intro h
      split_ifs at h with hp
      have : pat = [] := by simpa using hp
      subst this
      exact List.nil_prefix
    · intro h
      have : pat = [] := List.prefix_nil.mp h
      subst this
      simp
  | cons c cs =>
    simp only [findAux]
    constructor
    · intro h
      split_ifs at h with hp
      · exact (isPrefixOf_sound _ _).mp hp
      · have := (findAux_bound pat cs (i + 1) i h).1
        omega
    · intro h
      rw [if_pos ((isPrefixOf_sound _ _).mpr h)]

/-- The test `s.find(pat) == 0` holds exactly when `s` begins with `pat`. -/
theorem find_eq_zero_iff (s pat : String) : find s pat 0 = some 0 ↔ pat.data <+: s.data := by
  unfold find
  simp only [Nat.not_lt_zero, if_false, List.drop_zero]
  exact findAux_eq_start pat.data s.data 0

/-! ### The FTP analyzer -/

theorem string_length_data (s : String) : s.length = s.data.length := rfl

theorem find_at_start (s pat : String) (h : pat.data <+: s.data) : find s pat 0 = some 0 :=
  (find_eq_zero_iff s pat).mpr h

theorem analyze_ftp_banner_cr (line more : String)
    (hlen : ("220 " ++ line ++ "\r" ++ more).length < 2 ^ 64) (h1 : '\r' ∉ line.data) :
    analyze_ftp_banner ("220 " ++ line ++ "\r" ++ more) =
      some { name := "ftp", product := line, confidence := 85 } := by
  have hdata : ("220 " ++ line ++ "\r" ++ more).data =
      '2' :: '2' :: '0' :: ' ' :: (line.data ++ '\r' :: more.data) := by
    simp [String.data_append]
  have hpre : find ("220 " ++ line ++ "\r" ++ more) "220" 0 = some 0 := by
    apply find_at_start
    rw [hdata]
    exact ⟨' ' :: (line.data ++ '\r' :: more.data), rfl⟩
  have hdrop : ("220 " ++ line ++ "\r" ++ more).data.drop 4 = line.data ++ '\r' :: more.data := by
    rw [hdata]; rfl
  have hcr := find_char_append ("220 " ++ line ++ "\r" ++ more) '\r' 4 line.data more.data hdrop h1
  have hl4 : 4 ≤ ("220 " ++ line ++ "\r" ++ more).length := by
    rw [string_length_data, hdata]; simp
  have hll : 4 + line.data.length < 2 ^ 64 := by
    rw [string_length_data, hdata] at hlen
    simp at hlen
    have e := string_length_data line
    omega
  unfold analyze_ftp_banner
  simp only [hpre, if_true, hcr, or_find]
  rw [substr_of_le _ _ _ hl4, hdrop, size_sub_eq _ _ (by omega) hll]
  simp

theorem analyze_ftp_banner_lf (line more : String)
    (hlen : ("220 " ++ line ++ "\n" ++ more).length < 2 ^ 64) (h1 : '\r' ∉ line.data)
    (h2 : '\n' ∉ line.data) (h3 : '\r' ∉ more.data) :
    analyze_ftp_banner ("220 " ++ line ++ "\n" ++ more) =
      some { name := "ftp", product := line, confidence := 85 } := by
  have hdata : ("220 " ++ line ++ "\n" ++ more).data =
      '2' :: '2' :: '0' :: ' ' :: (line.data ++ '\n' :: more.data) := by
    simp [String.data_append]
  have hpre : find ("220 " ++ line ++ "\n" ++ more) "220" 0 = some 0 := by
    apply find_at_start
    rw [hdata]
    exact ⟨' ' :: (line.data ++ '\n' :: more.data), rfl⟩
  have hdrop : ("220 " ++ line ++ "\n" ++ more).data.drop 4 = line.data ++ '\n' :: more.data := by
    rw [hdata]; rfl
  have hcr : find_char ("220 " ++ line ++ "\n" ++ more) '\r' 4 = none := by
    apply find_char_none
    rw [hdrop]
    simp [h1, h3]
  have hlf := find_char_append ("220 " ++ line ++ "\n" ++ more) '\n' 4 line.data more.data hdrop h2
  have hl4 : 4 ≤ ("220 " ++ line ++ "\n" ++ more).length := by
    rw [string_length_data, hdata]; simp
  have hll : 4 + line.data.length < 2 ^ 64 := by
    rw [string_length_data, hdata] at hlen
    simp at hlen
    have e := string_length_data line
    omega
  unfold analyze_ftp_banner
  simp only [hpre, if_true, hcr, hlf, or_find]
  rw [substr_of_le _ _ _ hl4, hdrop, size_sub_eq _ _ (by omega) hll]
  simp

theorem analyze_ftp_banner_open_line (rest : String) (h1 : '\r' ∉ rest.data)
    (h2 : '\n' ∉ rest.data) :
    analyze_ftp_banner ("220 " ++ rest) = some { name := "ftp", confidence := 80 } := by
  have hdata : ("220 " ++ rest).data = '2' :: '2' :: '0' :: ' ' :: rest.data := by
    simp [String.data_append]
  have hpre : find ("220 " ++ rest) "220" 0 = some 0 := by
    apply find_at_start
    rw [hdata]
    exact ⟨' ' :: rest.data, rfl⟩
  have hdrop : ("220 " ++ rest).data.drop 4 = rest.data := by
    rw [hdata]; rfl
  have hcr : find_char ("220 " ++ rest) '\r' 4 = none := by
    apply find_char_none; rw [hdrop]; exact h1
  have hlf : find_char ("220 " ++ rest) '\n' 4 = none := by
    apply find_char_none; rw [hdrop]; exact h2
  unfold analyze_ftp_banner
  simp only [hpre, if_true, hcr, hlf, or_find]

theorem analyze_ftp_banner_other (banner : String) (h : ¬ "220".data <+: banner.data) :
    analyze_ftp_banner banner = some { name := "ftp", confidence := 80 } := by
  have hpre : ¬ find banner "220" 0 = some 0 := fun e => h ((find_eq_zero_iff _ _).mp e)
  unfold analyze_ftp_banner
  simp only [hpre, if_false]

theorem analyze_ftp_banner_spec (banner : String) (hlen : banner.length < 2 ^ 64) :
    ∃ info, analyze_ftp_banner banner = some info ∧ info.name = "ftp" ∧
      (∀ line more : String, banner = "220 " ++ line ++ "\r" ++ more →
        '\r' ∉ line.data → '\n' ∉ line.data →
        info.product = line ∧ info.confidence = 85) ∧
      (∀ line more : String, banner = "220 " ++ line ++ "\n" ++ more →
        '\r' ∉ line.data → '\n' ∉ line.data → '\r' ∉ more.data →
        info.product = line ∧ info.confidence = 85) ∧
      (∀ rest : String, banner = "220 " ++ rest → '\r' ∉ rest.data → '\n' ∉ rest.data →
        info.product = "" ∧ info.confidence = 80) ∧
      (¬ "220".data <+: banner.data → info.product = "" ∧ info.confidence = 80) := by
  obtain ⟨info, hinfo⟩ := analyze_ftp_banner_total banner
  have hname : info.name = "ftp" := by
    unfold analyze_ftp_banner at hinfo
    simp only [] at hinfo
    split_ifs at hinfo
    · split at hinfo
      · split at hinfo
        · cases hinfo; rfl
        · cases hinfo
      · cases hinfo; rfl
    · cases hinfo; rfl
  refine ⟨info, hinfo, hname, ?_, ?_, ?_, ?_⟩
  · intro line more hb h1 _
    subst hb
    rw [analyze_ftp_banner_cr line more hlen h1] at hinfo
    cases hinfo
    exact ⟨rfl, rfl⟩
  · intro line more hb h1 h2 h3
    subst hb
    rw [analyze_ftp_banner_lf line more hlen h1 h2 h3] at hinfo
    cases hinfo
    exact ⟨rfl, rfl⟩
  · intro rest hb h1 h2
    subst hb
    rw [analyze_ftp_banner_open_line rest h1 h2] at hinfo
    cases hinfo
    exact ⟨rfl, rfl⟩
  · intro h
    rw [analyze_ftp_banner_other banner h] at hinfo
    cases hinfo
    exact ⟨rfl, rfl⟩

/-! ### The banner grabber -/

theorem sent_bytes_append (a b : List SockOp) :
    sent_bytes (a ++ b) = sent_bytes a ++ sent_bytes b := by
  induction a with
  | nil => rfl
  | cons op rest ih =>
    cases op <;> simp [sent_bytes, ih]

theorem grab_tcp_banner_sends_nothing (net : GrabEnv) (w : Wire) (target : String) (port : Port)
    (timeout : Int) :
    sent_bytes (grab_tcp_banner net w target port timeout).2.ops = sent_bytes w.ops := by
  unfold grab_tcp_banner
  simp only []
  split_ifs <;> simp [sent_bytes_append, sent_bytes]

theorem grab_http_banner_sends_request (net : GrabEnv) (w : Wire) (target : String)
    (port : Port) (timeout : Int) (h1 : (net.dial w.dials).socket_ok = true)
    (h2 : net.addr_ok target = true) (h3 : (net.dial w.dials).connect_ok = true) :
    sent_bytes (grab_http_banner net w target port timeout).2.ops =
      sent_bytes w.ops ++ [http_request target] := by
  unfold grab_http_banner
  simp only [h1, h2, h3, Bool.not_true, Bool.false_eq_true, if_false, if_true]
  split_ifs
  · simp [sent_bytes_append, sent_bytes]
  · rw [grab_tcp_banner_sends_nothing]
    simp [sent_bytes_append, sent_bytes]

theorem grab_banner_wire (net : GrabEnv) (w : Wire) (target : String) (port : Port)
    (timeout : Int) :
    ((port = 80 ∨ port = 8080) → (net.dial w.dials).socket_ok = true →
      net.addr_ok target = true → (net.dial w.dials).connect_ok = true →
      sent_bytes (grab_banner net w target port timeout).2.ops =
        sent_bytes w.ops ++
          ["GET / HTTP/1.1\r\nHost: " ++ target ++ "\r\nConnection: close\r\n\r\n"]) ∧
    (port ≠ 80 → port ≠ 8080 →
      sent_bytes (grab_banner net w target port timeout).2.ops = sent_bytes w.ops) := by
  constructor
  · intro hp h1 h2 h3
    unfold grab_banner
    simp only [hp, if_true]
    exact grab_http_banner_sends_request net _ target port timeout h1 h2 h3
  · intro h80 h8080
    unfold grab_banner grab_ssl_banner
    simp only [h80, h8080, or_self, if_false]
    split_ifs <;> exact grab_tcp_banner_sends_nothing net _ target port timeout

/-! ### Decimal numbers -/

theorem digitChar_isdigit (d : Nat) (h : d < 10) : isdigit (Nat.digitChar d) = true := by
  interval_cases d <;> decide

theorem digitChar_value (d : Nat) (h : d < 10) : (Nat.digitChar d).toNat - 48 = d := by
  interval_cases d <;> decide

theorem digits_value_append (a b : List Char) :
    digits_value (a ++ b) = b.foldl (fun a c => 10 * a + (c.toNat - 48)) (digits_value a) := by
  unfold digits_value
  rw [List.foldl_append]

theorem toDigitsCore_append (fuel n : Nat) (ds : List Char) :
    Nat.toDigitsCore 10 fuel n ds = Nat.toDigitsCore 10 fuel n [] ++ ds := by
  induction fuel generalizing n ds with
  | zero => simp [Nat.toDigitsCore]
  | succ fuel ih =>
    simp only [Nat.toDigitsCore]
    split_ifs
    · simp
    · rw [ih (n / 10) (Nat.digitChar (n % 10) :: ds), ih (n / 10) [Nat.digitChar (n % 10)]]
      simp

theorem toDigitsCore_value (fuel n : Nat) (h : n < fuel) :
    digits_value (Nat.toDigitsCore 10 fuel n []) = n := by
  induction fuel generalizing n with
  | zero => omega
  | succ fuel ih =>
    simp only [Nat.toDigitsCore]
    split_ifs with h0
    · have hd := digitChar_value (n % 10) (Nat.mod_lt _ (by decide))
      simp only [digits_value, List.foldl_cons, List.foldl_nil, Nat.mul_zero, Nat.zero_add, hd]
      omega
    · rw [toDigitsCore_append, digits_value_append, ih (n / 10) (by omega)]
      have hd := digitChar_value (n % 10) (Nat.mod_lt _ (by decide))
      simp only [List.foldl_cons, List.foldl_nil, hd]
      omega

theorem toDigitsCore_isdigit (fuel n : Nat) :
    ∀ c ∈ Nat.toDigitsCore 10 fuel n [], isdigit c = true := by
  induction fuel generalizing n with
  | zero => simp [Nat.toDigitsCore]
  | succ fuel ih =>
    have hd := digitChar_isdigit (n % 10) (Nat.mod_lt _ (by decide))
    simp only [Nat.toDigitsCore]
    split_ifs
    · intro c hc
      simp only [List.mem_singleton] at hc
      rw [hc]; exact hd
    · rw [toDigitsCore_append]
      intro c hc
      simp only [List.mem_append, List.mem_singleton] at hc
      rcases hc with hc | hc
      · exact ih _ c hc
      · rw [hc]; exact hd

theorem toDigitsCore_ne_nil (fuel n : Nat) : Nat.toDigitsCore 10 (fuel + 1) n [] ≠ [] := by
  simp only [Nat.toDigitsCore]
  split_ifs
  · simp
  · rw [toDigitsCore_append]; simp

theorem toDigitsCore_length (fuel n : Nat) : (Nat.toDigitsCore 10 fuel n []).length ≤ fuel := by
  induction fuel generalizing n with
  | zero => simp [Nat.toDigitsCore]
  | succ fuel ih =>
    simp only [Nat.toDigitsCore]
    split_ifs
    · simp
    · rw [toDigitsCore_append]
      have := ih (n / 10)
      simp
      omega

/-- The printed form of a number: its characters are digits, there is at least
one, and their decimal value is the number. -/
theorem print_nat_digits (n : Nat) :
    (∀ c ∈ (print_nat n).data, isdigit c = true) ∧ (print_nat n).data ≠ [] ∧
      digits_value (print_nat n).data = n ∧ (print_nat n).data.length ≤ n + 1 :=
  ⟨toDigitsCore_isdigit (n + 1) n, toDigitsCore_ne_nil n n,
    toDigitsCore_value (n + 1) n (Nat.lt_succ_self n), toDigitsCore_length (n + 1) n⟩

theorem isdigit_not_space (c : Char) (h : isdigit c = true) : isspace c = false := by
  unfold isdigit at h
  unfold isspace
  simp only [Bool.and_eq_true, decide_eq_true_eq] at h
  have h1 : c ≠ ' ' := by rintro rfl; revert h; decide
  have h2 : c ≠ '\t' := by rintro rfl; revert h; decide
  have h3 : c ≠ '\n' := by rintro rfl; revert h; decide
  have h4 : c ≠ '\x0b' := by rintro rfl; revert h; decide
  have h5 : c ≠ '\x0c' := by rintro rfl; revert h; decide
  have h6 : c ≠ '\r' := by rintro rfl; revert h; decide
  simp [h1, h2, h3, h4, h5, h6]

theorem isdigit_ne (c d : Char) (h : isdigit c = true) (hd : isdigit d = false) : c ≠ d := by
  rintro rfl
  rw [h] at hd
  cases hd

/-- What `strtol` reads from a non-empty run of digits: no sign, all the digits. -/
theorem scan_number_digits (ds : List Char) (hd : ∀ c ∈ ds, isdigit c = true) (hne : ds ≠ []) :
    scan_number ⟨ds⟩ = (false, ds) := by
  cases ds with
  | nil => exact absurd rfl hne
  | cons c cs =>
    have hc := hd c (List.mem_cons_self _ _)
    have hsp := isdigit_not_space c hc
    have hminus : c ≠ '-' := isdigit_ne c '-' hc (by decide)
    have hplus : c ≠ '+' := isdigit_ne c '+' hc (by decide)
    have htake : (c :: cs).takeWhile isdigit = c :: cs := by
      rw [List.takeWhile_eq_self_iff]
      exact hd
    unfold scan_number
    have hdrop : (c :: cs).dropWhile isspace = c :: cs := by
      simp [List.dropWhile, hsp]
    simp only [hdrop]
    split
    · rename_i heq; cases heq; exact absurd rfl hminus
    · rename_i heq; cases heq; exact absurd rfl hplus
    · rename_i heq _ _
      rw [htake]

theorem stoi_digits (ds : List Char) (hd : ∀ c ∈ ds, isdigit c = true) (hne : ds ≠ [])
    (hv : digits_value ds < 2 ^ 31) : stoi ⟨ds⟩ = some (digits_value ds : Int) := by
  unfold stoi
  simp only [scan_number_digits ds hd hne, hne, if_false, Bool.false_eq_true]
  have h1 : ¬ ((digits_value ds : Int) < -(2 ^ 31) ∨ 2 ^ 31 - 1 < (digits_value ds : Int)) := by
    have : (digits_value ds : Int) < 2 ^ 31 := by exact_mod_cast hv
    omega
  rw [if_neg h1]

theorem stoul_digits (ds : List Char) (hd : ∀ c ∈ ds, isdigit c = true) (hne : ds ≠ [])
    (hv : digits_value ds < 2 ^ 64) : stoul ⟨ds⟩ = some (digits_value ds) := by
  unfold stoul
  simp only [scan_number_digits ds hd hne, hne, if_false, Bool.false_eq_true]
  rw [if_neg (by omega)]

theorem stoi_print_nat (n : Nat) (h : n < 2 ^ 31) : stoi (print_nat n) = some (n : Int) := by
  obtain ⟨h1, h2, h3, _⟩ := print_nat_digits n
  have := stoi_digits (print_nat n).data h1 h2 (by rw [h3]; exact h)
  rw [h3] at this
  exact this

theorem stoul_print_nat (n : Nat) (h : n < 2 ^ 64) : stoul (print_nat n) = some n := by
  obtain ⟨h1, h2, h3, _⟩ := print_nat_digits n
  have := stoul_digits (print_nat n).data h1 h2 (by rw [h3]; exact h)
  rw [h3] at this
  exact this

/-! ### Splitting a text into tokens -/

theorem getline_loop_token (delim : Char) (t rest cur : List Char) (pending : Bool)
    (h : delim ∉ t) :
    getline_loop delim (t ++ delim :: rest) cur pending =
      ⟨cur ++ t⟩ :: getline_loop delim rest [] false := by
  induction t generalizing cur pending with
  | nil => simp [getline_loop]
  | cons c cs ih =>
    have hc : c ≠ delim := fun e => h (e ▸ List.mem_cons_self _ _)
    have hcs : delim ∉ cs := fun e => h (List.mem_cons_of_mem _ e)
    rw [List.cons_append, getline_loop, if_neg hc, ih _ _ hcs]
    simp

theorem getline_loop_last (delim : Char) (t cur : List Char) (pending : Bool) (h : delim ∉ t)
    (hne : t ≠ [] ∨ pending = true) :
    getline_loop delim t cur pending = [⟨cur ++ t⟩] := by
  induction t generalizing cur pending with
  | nil =>
    rcases hne with hne | hne
    · exact absurd rfl hne
    · simp [getline_loop, hne]
  | cons c cs ih =>
    have hc : c ≠ delim := fun e => h (e ▸ List.mem_cons_self _ _)
    have hcs : delim ∉ cs := fun e => h (List.mem_cons_of_mem _ e)
    rw [getline_loop, if_neg hc, ih _ _ hcs (Or.inr rfl)]
    simp

/-! ### The range loop of `parse_port_range` -/

/-- The loop over a range that ends at 65535 never ends: the 16-bit counter
wraps to 0 and the test `p <= end` stays true. -/
theorem port_range_loop_max (fuel : Nat) (p : Nat) (ports : List Nat) (hp : p ≤ 65535) :
    port_range_loop fuel p 65535 ports = none := by
  induction fuel generalizing p ports with
  | zero => rfl
  | succ fuel ih =>
    rw [port_range_loop, if_pos hp]
    exact ih _ _ (by omega)

theorem port_range_loop_below (fuel : Nat) (p end_ : Nat) (ports : List Nat)
    (he : end_ < 65535) (hp : p ≤ end_ + 1) (hf : end_ + 1 - p < fuel) :
    port_range_loop fuel p end_ ports = some (ports ++ List.range' p (end_ + 1 - p)) := by
  induction fuel generalizing p ports with
  | zero => omega
  | succ fuel ih =>
    rw [port_range_loop]
    by_cases hle : p ≤ end_
    · rw [if_pos hle]
      have hmod : (p + 1) % 65536 = p + 1 := Nat.mod_eq_of_lt (by omega)
      rw [hmod, ih (p + 1) _ (by omega) (by omega)]
      have e : end_ + 1 - p = (end_ + 1 - (p + 1)) + 1 := by omega
      rw [e, List.range'_succ]
      simp
    · rw [if_neg hle]
      have e : end_ + 1 - p = 0 := by omega
      rw [e]
      simp

/-- What the range loop returns when it returns: the ports from `p` to `end`. -/
theorem port_range_loop_returns (fuel : Nat) (p end_ : Nat) (ports result : List Nat)
    (he : end_ ≤ 65535) (hp : p ≤ end_)
    (h : port_range_loop fuel p end_ ports = some result) :
    end_ < 65535 ∧ result = ports ++ List.range' p (end_ + 1 - p) := by
  have hlt : end_ < 65535 := by
    by_contra hn
    have e : end_ = 65535 := by omega
    subst e
    rw [port_range_loop_max fuel p ports hp] at h
    cases h
  refine ⟨hlt, ?_⟩
  induction fuel generalizing p ports with
  | zero => simp [port_range_loop] at h
  | succ fuel ih =>
    rw [port_range_loop, if_pos hp] at h
    have hmod : (p + 1) % 65536 = p + 1 := Nat.mod_eq_of_lt (by omega)
    rw [hmod] at h
    by_cases hle : p + 1 ≤ end_
    · rw [ih (p + 1) _ hle h]
      have e : end_ + 1 - p = (end_ + 1 - (p + 1)) + 1 := by omega
      rw [e, List.range'_succ]
      simp
    · have e : p = end_ := by omega
      subst e
      cases fuel with
      | zero => simp [port_range_loop] at h
      | succ fuel =>
        have hn : ¬ (p + 1 ≤ p) := by omega
        rw [port_range_loop, if_neg hn] at h
        cases h
        simp

/-! ### Sorting and removing duplicates -/

theorem unique_mem (l : List Nat) (p : Nat) : p ∈ unique l ↔ p ∈ l := by
  induction l with
  | nil => simp [unique]
  | cons a rest ih =>
    cases rest with
    | nil => simp [unique]
    | cons b rest =>
      simp only [unique]
      split_ifs with hab
      · rw [ih]
        subst hab
        simp
      · simp only [List.mem_cons] at ih ⊢
        rw [ih]

theorem unique_head (a : Nat) (rest : List Nat) :
    ∀ x ∈ unique (a :: rest), x ∈ a :: rest := fun x hx => (unique_mem _ x).mp hx

theorem unique_sorted (l : List Nat) (h : l.Sorted (· ≤ ·)) : (unique l).Sorted (· < ·) := by
  induction l with
  | nil => simp [unique]
  | cons a rest ih =>
    cases rest with
    | nil => simp [unique]
    | cons b rest =>
      have hrest : (b :: rest).Sorted (· ≤ ·) := List.Sorted.of_cons h
      have hall : ∀ x ∈ b :: rest, a ≤ x := fun x hx => List.rel_of_sorted_cons h x hx
      simp only [unique]
      split_ifs with he
      · exact ih hrest
      · have hsub := ih hrest
        have hb : ∀ x ∈ b :: rest, b ≤ x := by
          intro x hx
          rcases List.mem_cons.mp hx with rfl | hx
          · exact Nat.le_refl _
          · exact List.rel_of_sorted_cons hrest x hx
        have hab : a ≤ b := hall b (List.mem_cons_self _ _)
        rw [List.Sorted, List.pairwise_cons]
        refine ⟨?_, hsub⟩
        intro x hx
        have hx2 := hb x ((unique_mem _ x).mp hx)
        have hne : ¬ ((a : Nat) = b) := he
        show (a : Nat) < x
        omega

theorem sort_unique_spec (l : List Nat) :
    (unique (l.insertionSort (· ≤ ·))).Sorted (· < ·) ∧
      ∀ p, p ∈ unique (l.insertionSort (· ≤ ·)) ↔ p ∈ l := by
  refine ⟨unique_sorted _ (List.sorted_insertionSort (· ≤ ·) l), ?_⟩
  intro p
  rw [unique_mem]
  exact (List.perm_insertionSort (· ≤ ·) l).mem_iff

/-! ### Parsing a well-formed port specification -/

theorem string_mk_data (s : String) : (⟨s.data⟩ : String) = s := rfl

theorem remove_spaces_id (s : String) (h : ∀ c ∈ s.data, isspace c = false) :
    remove_spaces s = s := by
  unfold remove_spaces
  have : s.data.filter (fun c => !isspace c) = s.data := by
    rw [List.filter_eq_self]
    intro c hc
    simp [h c hc]
  rw [this]

theorem to_port_of_le (n : Nat) (h : n ≤ 65535) : to_port (n : Int) = n := by
  unfold to_port
  have : ((n : Int) % 65536) = (n : Int) := Int.emod_eq_of_lt (by omega) (by omega)
  rw [this]
  simp

theorem print_nat_no_char (n : Nat) (c : Char) (hc : isdigit c = false) :
    c ∉ (print_nat n).data := by
  intro hmem
  have := (print_nat_digits n).1 c hmem
  rw [this] at hc
  cases hc

theorem parse_port_token_single (fuel : Nat) (ports : List Nat) (n : Nat) (h : n ≤ 65535) :
    parse_port_token fuel ports (PortToken.single n).text = Run.returns (ports ++ [n]) := by
  obtain ⟨h1, h2, h3, _⟩ := print_nat_digits n
  have hsp : remove_spaces (print_nat n) = print_nat n :=
    remove_spaces_id _ (fun c hc => isdigit_not_space c (h1 c hc))
  have hdash : find_char (print_nat n) '-' 0 = none :=
    find_char_none _ _ _ (by
      rw [List.drop_zero]
      exact print_nat_no_char n '-' (by decide))
  unfold parse_port_token PortToken.text
  simp only [hsp, hdash, stoi_print_nat n (by omega), to_port_of_le n h]

theorem parse_port_token_range (fuel : Nat) (ports : List Nat) (a b : Nat) (ha : a ≤ 65535)
    (hb : b ≤ 65535) :
    parse_port_token fuel ports (PortToken.range a b).text =
      match port_range_loop fuel (min a b) (max a b) ports with
      | some result => Run.returns result
      | none => Run.unfinished := by
  obtain ⟨a1, a2, a3, a4⟩ := print_nat_digits a
  obtain ⟨b1, b2, b3, b4⟩ := print_nat_digits b
  have hdata : (print_nat a ++ "-" ++ print_nat b).data =
      (print_nat a).data ++ '-' :: (print_nat b).data := by
    simp [String.data_append]
  have hsp : remove_spaces (print_nat a ++ "-" ++ print_nat b) =
      print_nat a ++ "-" ++ print_nat b := by
    apply remove_spaces_id
    intro c hc
    rw [hdata] at hc
    simp only [List.mem_append, List.mem_cons] at hc
    rcases hc with hc | hc | hc
    · exact isdigit_not_space c (a1 c hc)
    · subst hc; decide
    · exact isdigit_not_space c (b1 c hc)
  have hdash : find_char (print_nat a ++ "-" ++ print_nat b) '-' 0 =
      some (0 + (print_nat a).data.length) :=
    find_char_append _ '-' 0 _ _ (by rw [List.drop_zero, hdata])
      (print_nat_no_char a '-' (by decide))
  have hlen : (print_nat a ++ "-" ++ print_nat b).length =
      (print_nat a).data.length + 1 + (print_nat b).data.length := by
    rw [string_length_data, hdata]
    simp
    omega
  have hfirst : substr (print_nat a ++ "-" ++ print_nat b) 0 (0 + (print_nat a).data.length) =
      some (print_nat a) := by
    rw [substr_of_le _ _ _ (Nat.zero_le _), hdata]
    simp
  have hsecond : substr (print_nat a ++ "-" ++ print_nat b) (0 + (print_nat a).data.length + 1)
      npos = some (print_nat b) := by
    rw [substr_of_le _ _ _ (by rw [hlen]; omega), hdata]
    have hd : ((print_nat a).data ++ '-' :: (print_nat b).data).drop
        (0 + (print_nat a).data.length + 1) = (print_nat b).data := by
      have e : 0 + (print_nat a).data.length + 1 = ((print_nat a).data ++ ['-']).length := by
        simp
      rw [e]
      have e2 : (print_nat a).data ++ '-' :: (print_nat b).data =
          ((print_nat a).data ++ ['-']) ++ (print_nat b).data := by simp
      rw [e2, List.drop_left]
    rw [hd, List.take_of_length_le (by unfold npos; omega)]
  unfold parse_port_token PortToken.text
  simp only [hsp, hdash, hfirst, hsecond, stoi_print_nat a (by omega),
    stoi_print_nat b (by omega), to_port_of_le a ha, to_port_of_le b hb]
  have hmin : (if decide (a > b) = true then b else a) = min a b := by
    by_cases h : a > b
    · simp [h, Nat.min_eq_right (Nat.le_of_lt h)]
    · simp [h, Nat.min_eq_left (Nat.le_of_not_gt h)]
  have hmax : (if decide (a > b) = true then a else b) = max a b := by
    by_cases h : a > b
    · simp [h, Nat.max_eq_left (Nat.le_of_lt h)]
    · simp [h, Nat.max_eq_right (Nat.le_of_not_gt h)]
  rw [hmin, hmax]

theorem token_text_chars (t : PortToken) :
    (∀ c ∈ t.text.data, isdigit c = true ∨ c = '-') ∧ t.text.data ≠ [] := by
  cases t with
  | single n =>
    obtain ⟨h1, h2, _, _⟩ := print_nat_digits n
    exact ⟨fun c hc => Or.inl (h1 c hc), h2⟩
  | range a b =>
    obtain ⟨a1, a2, _, _⟩ := print_nat_digits a
    obtain ⟨b1, _, _, _⟩ := print_nat_digits b
    have hdata : (print_nat a ++ "-" ++ print_nat b).data =
        (print_nat a).data ++ '-' :: (print_nat b).data := by
      simp [String.data_append]
    refine ⟨?_, ?_⟩
    · intro c hc
      unfold PortToken.text at hc
      rw [hdata] at hc
      simp only [List.mem_append, List.mem_cons] at hc
      rcases hc with hc | hc | hc
      · exact Or.inl (a1 c hc)
      · exact Or.inr hc
      · exact Or.inl (b1 c hc)
    · unfold PortToken.text
      rw [hdata]
      simp

theorem token_text_no_comma (t : PortToken) : ',' ∉ t.text.data := by
  intro h
  rcases (token_text_chars t).1 ',' h with h | h
  · revert h; decide
  · revert h; decide

theorem getlines_port_spec_text (tokens : List PortToken) :
    getlines ',' (port_spec_text tokens) = tokens.map PortToken.text := by
  induction tokens with
  | nil => rfl
  | cons t rest ih =>
    cases rest with
    | nil =>
      unfold getlines port_spec_text
      rw [getline_loop_last ',' _ _ _ (token_text_no_comma t) (Or.inl (token_text_chars t).2)]
      rfl
    | cons u rest =>
      unfold getlines at ih ⊢
      have hdata : (port_spec_text (t :: u :: rest)).data =
          t.text.data ++ ',' :: (port_spec_text (u :: rest)).data := by
        show (t.text ++ "," ++ port_spec_text (u :: rest)).data = _
        simp [String.data_append]
      rw [hdata, getline_loop_token ',' _ _ _ _ (token_text_no_comma t), ih]
      rfl

theorem parse_port_tokens_spec (fuel : Nat) (tokens : List PortToken)
    (hwf : ∀ t ∈ tokens, t.in_range) (ports result : List Nat)
    (h : parse_port_tokens fuel ports (tokens.map PortToken.text) = Run.returns result) :
    ∀ p, p ∈ result ↔ p ∈ ports ∨ ∃ t ∈ tokens, t.names p := by
  induction tokens generalizing ports with
  | nil =>
    simp only [List.map_nil, parse_port_tokens, Run.returns.injEq] at h
    subst h
    simp
  | cons t rest ih =>
    have hrest : ∀ u ∈ rest, u.in_range := fun u hu => hwf u (List.mem_cons_of_mem _ hu)
    have ht := hwf t (List.mem_cons_self _ _)
    rw [List.map_cons, parse_port_tokens] at h
    cases t with
    | single n =>
      rw [parse_port_token_single fuel ports n ht.2] at h
      intro p
      rw [ih hrest _ h]
      simp only [List.mem_append, List.mem_singleton, List.mem_cons, exists_eq_or_imp,
        PortToken.names]
      tauto
    | range a b =>
      obtain ⟨ha1, ha2, hb1, hb2⟩ := ht
      rw [parse_port_token_range fuel ports a b ha2 hb2] at h
      cases hloop : port_range_loop fuel (min a b) (max a b) ports with
      | none => rw [hloop] at h; cases h
      | some mid =>
        rw [hloop] at h
        have hmax : max a b ≤ 65535 := max_le ha2 hb2
        have hle : min a b ≤ max a b := le_trans (min_le_left a b) (le_max_left a b)
        obtain ⟨_, hmid⟩ := port_range_loop_returns fuel _ _ _ _ hmax hle hloop
        intro p
        rw [ih hrest _ h, hmid]
        simp only [List.mem_append, List.mem_range'_1, List.mem_cons, exists_eq_or_imp,
          PortToken.names]
        constructor
        · rintro ((hp | hp) | hp)
          · exact Or.inl hp
          · exact Or.inr (Or.inl ⟨hp.1, by omega⟩)
          · exact Or.inr (Or.inr hp)
        · rintro (hp | hp | hp)
          · exact Or.inl (Or.inl hp)
          · exact Or.inl (Or.inr ⟨hp.1, by omega⟩)
          · exact Or.inr hp

theorem parse_port_tokens_returns (fuel : Nat) (hfuel : 65535 ≤ fuel) (tokens : List PortToken)
    (hwf : ∀ t ∈ tokens, t.in_range) (hmax : ∀ t ∈ tokens, ¬ t.names 65535)
    (ports : List Nat) :
    ∃ result, parse_port_tokens fuel ports (tokens.map PortToken.text) = Run.returns result := by
  induction tokens generalizing ports with
  | nil => exact ⟨ports, rfl⟩
  | cons t rest ih =>
    have hrest : ∀ u ∈ rest, u.in_range := fun u hu => hwf u (List.mem_cons_of_mem _ hu)
    have hrmax : ∀ u ∈ rest, ¬ u.names 65535 := fun u hu => hmax u (List.mem_cons_of_mem _ hu)
    have ht := hwf t (List.mem_cons_self _ _)
    have htm := hmax t (List.mem_cons_self _ _)
    rw [List.map_cons, parse_port_tokens]
    cases t with
    | single n =>
      rw [parse_port_token_single fuel ports n ht.2]
      exact ih hrest hrmax _
    | range a b =>
      obtain ⟨ha1, ha2, hb1, hb2⟩ := ht
      rw [parse_port_token_range fuel ports a b ha2 hb2]
      have hmax2 : max a b ≤ 65535 := max_le ha2 hb2
      have hle : min a b ≤ max a b := le_trans (min_le_left a b) (le_max_left a b)
      have hlt : max a b < 65535 := by
        by_contra hn
        apply htm
        exact ⟨le_trans hle hmax2, by omega⟩
      have hmin : 1 ≤ min a b := le_min ha1 hb1
      rw [port_range_loop_below fuel _ _ ports hlt (by omega) (by omega)]
      exact ih hrest hrmax _

theorem parse_port_range_spec (fuel : Nat) (tokens : List PortToken)
    (hwf : ∀ t ∈ tokens, t.in_range) :
    (∀ ports, parse_port_range fuel (port_spec_text tokens) = Run.returns ports →
      ports.Sorted (· < ·) ∧ ∀ p, p ∈ ports ↔ ∃ t ∈ tokens, t.names p) ∧
    (65535 ≤ fuel → (∀ t ∈ tokens, ¬ t.names 65535) →
      ∃ ports, parse_port_range fuel (port_spec_text tokens) = Run.returns ports) := by
  constructor
  · intro ports h
    unfold parse_port_range at h
    rw [getlines_port_spec_text] at h
    cases hloop : parse_port_tokens fuel [] (tokens.map PortToken.text) with
    | throws => rw [hloop] at h; cases h
    | unfinished => rw [hloop] at h; cases h
    | returns raw =>
      rw [hloop] at h
      simp only [Run.returns.injEq] at h
      subst h
      obtain ⟨hs, hm⟩ := sort_unique_spec raw
      refine ⟨hs, fun p => ?_⟩
      rw [hm p, parse_port_tokens_spec fuel tokens hwf [] raw hloop p]
      simp
  · intro hfuel hmax
    obtain ⟨raw, hraw⟩ := parse_port_tokens_returns fuel hfuel tokens hwf hmax []
    unfold parse_port_range
    rw [getlines_port_spec_text, hraw]
    exact ⟨_, rfl⟩


theorem parse_port_range_to_max (fuel a : Nat) (ha : a ≤ 65535) :
    parse_port_range fuel (port_spec_text [PortToken.range a 65535]) = Run.unfinished := by
  unfold parse_port_range
  rw [getlines_port_spec_text, List.map_cons, List.map_nil, parse_port_tokens,
    parse_port_token_range fuel [] a 65535 ha (le_refl _), Nat.max_eq_right ha,
    port_range_loop_max fuel _ [] (le_trans (min_le_left a 65535) ha)]

/-- Claim C15: on a well-formed port spec (comma-separated numbers and ranges,
all numbers in `[1, 65535]`), whenever `parse_port_range` returns, the list is
strictly ascending and holds exactly the ports named by some token, a range
`a-b` naming `min(a,b) .. max(a,b)`; it does return, given enough fuel, when no
token names port 65535; `"3-1"` and `"1-3"` both give `[1, 2, 3]`. -/
theorem parse_port_range_sorted_exact (fuel : Nat) (tokens : List PortToken)
    (hwf : ∀ t ∈ tokens, t.in_range) :
    ((∀ ports, parse_port_range fuel (port_spec_text tokens) = Run.returns ports →
        ports.Sorted (· < ·) ∧ ∀ p, p ∈ ports ↔ ∃ t ∈ tokens, t.names p) ∧
      (65535 ≤ fuel → (∀ t ∈ tokens, ¬ t.names 65535) →
        ∃ ports, parse_port_range fuel (port_spec_text tokens) = Run.returns ports)) ∧
    parse_port_range 4 "3-1" = Run.returns [1, 2, 3] ∧
    parse_port_range 4 "1-3" = Run.returns [1, 2, 3] :=
  ⟨parse_port_range_spec fuel tokens hwf, by decide, by decide⟩

/-- Witness of C15 on the spec `"80,3-1"`. -/
theorem parse_port_range_sorted_exact_witness :
    (∀ t ∈ [PortToken.single 80, PortToken.range 3 1], t.in_range) ∧
    (((∀ ports, parse_port_range 9
          (port_spec_text [PortToken.single 80, PortToken.range 3 1]) = Run.returns ports →
        ports.Sorted (· < ·) ∧
          ∀ p, p ∈ ports ↔ ∃ t ∈ [PortToken.single 80, PortToken.range 3 1], t.names p) ∧
      (65535 ≤ 9 → (∀ t ∈ [PortToken.single 80, PortToken.range 3 1], ¬ t.names 65535) →
        ∃ ports, parse_port_range 9
          (port_spec_text [PortToken.single 80, PortToken.range 3 1]) = Run.returns ports)) ∧
    parse_port_range 4 "3-1" = Run.returns [1, 2, 3] ∧
    parse_port_range 4 "1-3" = Run.returns [1, 2, 3]) :=
  ⟨by simp [PortToken.in_range],
    parse_port_range_sorted_exact 9 [PortToken.single 80, PortToken.range 3 1]
      (by simp [PortToken.in_range])⟩

/-- Claim C16 fails: on the documented spec `"1-65535"` the range loop of
`parse_port_range` never ends, whatever number of iterations it is given; the
16-bit counter wraps from 65535 to 0 and `p <= end` stays true. -/
theorem parse_port_range_full_range_never_returns (fuel : Nat) :
    parse_port_range fuel "1-65535" = Run.unfinished :=
  parse_port_range_to_max fuel 1 (by decide)

/-- Claim C17 fails: the port spec `"70000"` is stored in a 16-bit port as 4464
and `"65537"` as 1, and `validate_config` accepts the resulting configs. -/
theorem out_of_range_port_accepted (fuel : Nat) :
    parse_port_range fuel "70000" = Run.returns [4464] ∧
    validate_config literal_resolver (cli_with_ports [4464]) = some (cli_with_ports [4464]) ∧
    parse_port_range fuel "65537" = Run.returns [1] ∧
    validate_config literal_resolver (cli_with_ports [1]) = some (cli_with_ports [1]) :=
  ⟨rfl, by decide, rfl, by decide⟩

/-- Claim C11 fails: on port 22, for an identification line ended by CR LF and
followed by text that holds a space, `detect_service` returns a product that
runs past the end of the line up to that space; the spec's instance, where a
space follows the product, gives version `2.0` and product `OpenSSH_8.9p1`. -/
theorem detect_service_ssh_product_past_line (services : Port → Option String) :
    detect_service SERVICE_PATTERNS services "" 22 ssh_banner_with_later_space =
      some { name := "ssh", version := "2.0", product := "OpenSSH_8.9p1\r\nInvalid",
             confidence := 95 } ∧
    detect_service SERVICE_PATTERNS services "" 22 "SSH-2.0-OpenSSH_8.9p1 Ubuntu\r\n" =
      some { name := "ssh", version := "2.0", product := "OpenSSH_8.9p1", confidence := 95 } :=
  ⟨rfl, rfl⟩

/-- Counterexample to claim C12: a greeting `220 ...` that ends without CR or
LF gets an empty product and confidence 0.8, not the remainder of the line. -/
theorem analyze_ftp_banner_unterminated_greeting :
    analyze_ftp_banner "220 ProFTPD Server ready" = some { name := "ftp", confidence := 80 } := by
  decide

/-- Claim C12, amended: `analyze_ftp_banner` always returns name `ftp`; when
the banner is `220 ` followed by a line that is ended by CR, or by LF with no
CR after it, the product is that line and the confidence 0.85; when the banner
is `220 ` followed by text without CR and LF, or does not begin with `220`, the
product is empty and the confidence 0.8. -/
theorem analyze_ftp_banner_first_line (banner : String) (hlen : banner.length < 2 ^ 64) :
    ∃ info, analyze_ftp_banner banner = some info ∧ info.name = "ftp" ∧
      (∀ line more : String, banner = "220 " ++ line ++ "\r" ++ more →
        '\r' ∉ line.data → '\n' ∉ line.data →
        info.product = line ∧ info.confidence = 85) ∧
      (∀ line more : String, banner = "220 " ++ line ++ "\n" ++ more →
        '\r' ∉ line.data → '\n' ∉ line.data → '\r' ∉ more.data →
        info.product = line ∧ info.confidence = 85) ∧
      (∀ rest : String, banner = "220 " ++ rest → '\r' ∉ rest.data → '\n' ∉ rest.data →
        info.product = "" ∧ info.confidence = 80) ∧
      (¬ "220".data <+: banner.data → info.product = "" ∧ info.confidence = 80) :=
  analyze_ftp_banner_spec banner hlen

/-- Witness of C12 on the greeting `220 ProFTPD Server ready` ended by CR LF. -/
theorem analyze_ftp_banner_first_line_witness :
    "220 ProFTPD Server ready\r\n".length < 2 ^ 64 ∧
    ∃ info, analyze_ftp_banner "220 ProFTPD Server ready\r\n" = some info ∧ info.name = "ftp" ∧
      (∀ line more : String, "220 ProFTPD Server ready\r\n" = "220 " ++ line ++ "\r" ++ more →
        '\r' ∉ line.data → '\n' ∉ line.data →
        info.product = line ∧ info.confidence = 85) ∧
      (∀ line more : String, "220 ProFTPD Server ready\r\n" = "220 " ++ line ++ "\n" ++ more →
        '\r' ∉ line.data → '\n' ∉ line.data → '\r' ∉ more.data →
        info.product = line ∧ info.confidence = 85) ∧
      (∀ rest : String, "220 ProFTPD Server ready\r\n" = "220 " ++ rest →
        '\r' ∉ rest.data → '\n' ∉ rest.data →
        info.product = "" ∧ info.confidence = 80) ∧
      (¬ "220".data <+: "220 ProFTPD Server ready\r\n".data →
        info.product = "" ∧ info.confidence = 80) :=
  ⟨by decide, analyze_ftp_banner_first_line "220 ProFTPD Server ready\r\n" (by decide)⟩

/-- Claim C13: for every target, when `grab_banner` handles port 80 or 8080
and the connection succeeds, the bytes it sends are exactly
`GET / HTTP/1.1\r\nHost: <target>\r\nConnection: close\r\n\r\n`; for every
other port, 443 included, it sends nothing. -/
theorem grab_banner_sends_http_probe_only (net : GrabEnv) (w : Wire) (target : String)
    (port : Port) (timeout : Int) :
    ((port = 80 ∨ port = 8080) → (net.dial w.dials).socket_ok = true →
      net.addr_ok target = true → (net.dial w.dials).connect_ok = true →
      sent_bytes (grab_banner net w target port timeout).2.ops =
        sent_bytes w.ops ++
          ["GET / HTTP/1.1\r\nHost: " ++ target ++ "\r\nConnection: close\r\n\r\n"]) ∧
    (port ≠ 80 → port ≠ 8080 →
      sent_bytes (grab_banner net w target port timeout).2.ops = sent_bytes w.ops) :=
  grab_banner_wire net w target port timeout

/-- Witness of C13: the probe sent to port 8080 of `example.org`, and nothing sent to port 443. -/
theorem grab_banner_sends_http_probe_only_witness :
    sent_bytes (grab_banner web_server {} "example.org" 8080 2000).2.ops =
      ["GET / HTTP/1.1\r\nHost: example.org\r\nConnection: close\r\n\r\n"] ∧
    sent_bytes (grab_banner web_server {} "example.org" 443 2000).2.ops = [] :=
  ⟨(grab_banner_sends_http_probe_only web_server {} "example.org" 8080 2000).1
      (Or.inr rfl) rfl rfl rfl,
    (grab_banner_sends_http_probe_only web_server {} "example.org" 443 2000).2
      (by decide) (by decide)⟩

/-- Claim C14 fails: with `banner_grabbing = false` and `service_detection =
true`, an accepted connection on port 80 makes `detect_service` call
`grab_banner` (default timeout 5000 ms), in the async handler and in the
threaded connect scan, where the grabber connects and sends its HTTP probe. -/
theorem banner_grab_made_despite_flag (env : Env) (services : Port → Option String) :
    detection_without_banner.banner_grabbing = false ∧
    (handle_connection_event detection_without_banner env one_pending
      accepted_event).banner_grabs = [(80, 5000)] ∧
    (tcp_connect_scan detection_without_banner web_server services {} {} 80).map
        (fun r => (r.2.grabs, r.2.ops)) =
      some ([(80, 5000)],
        [SockOp.socket 0, SockOp.connect 0 80, SockOp.send 0 (http_request "127.0.0.1"),
          SockOp.recv 0 4095, SockOp.close 0]) :=
  ⟨rfl, rfl, rfl⟩

/-- Claim C19 fails: with the command line `-c scan.json`, which passes
`validate_config`, and a file that sets `"timeout": 100000` and
`"threads": 5000`, the config `main` hands to the scanner has timeout 100000 ms
and 5000 threads; the merged config is never validated. -/
theorem main_config_keeps_file_values :
    validate_config literal_resolver cli_with_file = some cli_with_file ∧
    main_config literal_resolver (fun _ => some oversized_file) cli_with_file =
      some { create_default_config with timeout := 100000, thread_count := 5000 } := by
  decide

theorem validate_config_spec (net : Resolver) (config_ : ScanConfig)
    (htarget : net.is_valid_ipv4 config_.target = true)
    (hformat : config_.output_format = "txt" ∨ config_.output_format = "json" ∨
      config_.output_format = "xml")
    (hports : ∀ p ∈ config_.ports, p ≤ 65535) :
    (validate_config net config_ = some config_ ↔
      (1 ≤ config_.timeout ∧ config_.timeout ≤ 60000 ∧ 1 ≤ config_.thread_count ∧
        config_.thread_count ≤ 2000 ∧ config_.ports ≠ [] ∧ (0 : Nat) ∉ config_.ports)) ∧
    (¬ (1 ≤ config_.timeout ∧ config_.timeout ≤ 60000 ∧ 1 ≤ config_.thread_count ∧
        config_.thread_count ≤ 2000 ∧ config_.ports ≠ [] ∧ (0 : Nat) ∉ config_.ports) →
      validate_config net config_ = none) := by
  have hany : config_.ports.any (fun port => port < MIN_PORT || port > MAX_PORT) = true ↔
      (0 : Nat) ∈ config_.ports := by
    rw [List.any_eq_true]
    constructor
    · rintro ⟨p, hp, hcond⟩
      have hle : @LE.le Nat _ p 65535 := hports p hp
      simp only [MIN_PORT, MAX_PORT, Bool.or_eq_true, decide_eq_true_eq] at hcond
      have hp0 : @Eq Nat p 0 := by
        rcases hcond with h | h
        · have h1 : @LT.lt Nat _ p 1 := h
          omega
        · have h1 : @LT.lt Nat _ 65535 p := h
          omega
      rw [← hp0]
      exact hp
    · intro h0
      exact ⟨0, h0, by decide⟩
  have hfmt : ¬ (config_.output_format ≠ "txt" ∧ config_.output_format ≠ "json" ∧
      config_.output_format ≠ "xml") := by
    rintro ⟨h1, h2, h3⟩
    rcases hformat with h | h | h
    · exact h1 h
    · exact h2 h
    · exact h3 h
  have hrun : validate_config net config_ =
      if (1 ≤ config_.timeout ∧ config_.timeout ≤ 60000 ∧ 1 ≤ config_.thread_count ∧
        config_.thread_count ≤ 2000 ∧ config_.ports ≠ [] ∧ (0 : Nat) ∉ config_.ports)
      then some config_ else none := by
    unfold validate_config
    simp only [htarget, Bool.not_true, Bool.false_and, Bool.false_eq_true, if_false]
    by_cases ht : config_.timeout ≤ 0 ∨ config_.timeout > 60000
    · rw [if_pos ht, if_neg (by omega)]
    rw [if_neg ht]
    by_cases hc : config_.thread_count = 0 ∨ config_.thread_count > 2000
    · rw [if_pos hc, if_neg (by omega)]
    rw [if_neg hc]
    by_cases he : config_.ports.isEmpty = true
    · rw [if_pos he, if_neg]
      rw [List.isEmpty_iff] at he
      simp [he]
    rw [if_neg he]
    by_cases hz : (0 : Nat) ∈ config_.ports
    · rw [if_pos (hany.mpr hz), if_neg]
      simp [hz]
    rw [if_neg (fun h => hz (hany.mp h)), if_neg hfmt, if_pos]
    rw [List.isEmpty_iff] at he
    exact ⟨by omega, by omega, by omega, by omega, he, hz⟩
  rw [hrun]
  constructor
  · constructor
    · intro h
      by_contra hn
      rw [if_neg hn] at h
      cases h
    · intro h
      rw [if_pos h]
  · intro hn
    rw [if_neg hn]

/-- Claim C18: for a config whose target is an IPv4 literal and whose output
format is txt, json or xml (ports being 16-bit values), `validate_config`
accepts the config exactly when `1 ≤ timeout ≤ 60000`, `1 ≤ thread_count ≤ 2000`,
the port list is non-empty and holds no port 0; otherwise it raises. -/
theorem validate_config_accepts_iff (net : Resolver) (config_ : ScanConfig)
    (htarget : net.is_valid_ipv4 config_.target = true)
    (hformat : config_.output_format = "txt" ∨ config_.output_format = "json" ∨
      config_.output_format = "xml")
    (hports : ∀ p ∈ config_.ports, p ≤ 65535) :
    (validate_config net config_ = some config_ ↔
      (1 ≤ config_.timeout ∧ config_.timeout ≤ 60000 ∧ 1 ≤ config_.thread_count ∧
        config_.thread_count ≤ 2000 ∧ config_.ports ≠ [] ∧ (0 : Nat) ∉ config_.ports)) ∧
    (¬ (1 ≤ config_.timeout ∧ config_.timeout ≤ 60000 ∧ 1 ≤ config_.thread_count ∧
        config_.thread_count ≤ 2000 ∧ config_.ports ≠ [] ∧ (0 : Nat) ∉ config_.ports) →
      validate_config net config_ = none) :=
  validate_config_spec net config_ htarget hformat hports

/-- Witness of C18 on the default config with the port list `[0, 80]`, which is refused. -/
theorem validate_config_accepts_iff_witness :
    (literal_resolver.is_valid_ipv4 (cli_with_ports [0, 80]).target = true ∧
      ((cli_with_ports [0, 80]).output_format = "txt" ∨
        (cli_with_ports [0, 80]).output_format = "json" ∨
        (cli_with_ports [0, 80]).output_format = "xml") ∧
      ∀ p ∈ (cli_with_ports [0, 80]).ports, p ≤ 65535) ∧
    ((validate_config literal_resolver (cli_with_ports [0, 80]) = some (cli_with_ports [0, 80]) ↔
      (1 ≤ (cli_with_ports [0, 80]).timeout ∧ (cli_with_ports [0, 80]).timeout ≤ 60000 ∧
        1 ≤ (cli_with_ports [0, 80]).thread_count ∧
        (cli_with_ports [0, 80]).thread_count ≤ 2000 ∧ (cli_with_ports [0, 80]).ports ≠ [] ∧
        (0 : Nat) ∉ (cli_with_ports [0, 80]).ports)) ∧
    (¬ (1 ≤ (cli_with_ports [0, 80]).timeout ∧ (cli_with_ports [0, 80]).timeout ≤ 60000 ∧
        1 ≤ (cli_with_ports [0, 80]).thread_count ∧
        (cli_with_ports [0, 80]).thread_count ≤ 2000 ∧ (cli_with_ports [0, 80]).ports ≠ [] ∧
        (0 : Nat) ∉ (cli_with_ports [0, 80]).ports) →
      validate_config literal_resolver (cli_with_ports [0, 80]) = none)) :=
  ⟨⟨rfl, Or.inl rfl, by decide⟩,
    validate_config_accepts_iff literal_resolver (cli_with_ports [0, 80]) rfl (Or.inl rfl)
      (by decide)⟩

/-! ### Reading a JSON config: what the reader guarantees -/

theorem remove_spaces_no_space (s : String) :
    ∀ ch ∈ (remove_spaces s).data, isspace ch = false := by
  intro ch hch
  unfold remove_spaces at hch
  simp only [List.mem_filter, Bool.not_eq_true'] at hch
  exact hch.2

theorem findAux_char_before (c : Char) (l : List Char) (i j : Nat)
    (h : findAux [c] l i = some j) : i ≤ j ∧ c ∉ l.take (j - i) := by
  induction l generalizing i with
  | nil =>
    simp [findAux] at h
  | cons d ds ih =>
    rw [findAux] at h
    split_ifs at h with hp
    · cases h
      simp
    · obtain ⟨h1, h2⟩ := ih (i + 1) h
      refine ⟨by omega, ?_⟩
      have e : j - i = (j - (i + 1)) + 1 := by omega
      rw [e, List.take_succ_cons]
      intro hmem
      rcases List.mem_cons.mp hmem with hc | hc
      · apply hp
        rw [hc]
        simp [List.isPrefixOf]
      · exact h2 hc

theorem size_sub_le (a b : Nat) (hb : b ≤ a) (hb2 : b < 2 ^ 64) : size_sub a b ≤ a - b := by
  unfold size_sub
  rw [Nat.mod_eq_of_lt hb2]
  have e : a + 2 ^ 64 - b = (a - b) + 2 ^ 64 := by omega
  rw [e, Nat.add_mod_right]
  exact Nat.mod_le _ _

theorem size_add_lt (a b : Nat) : size_add a b < 2 ^ 64 := Nat.mod_lt _ (by decide)

theorem take_take_subset (l : List Char) (n m : Nat) (h : n ≤ m) :
    ∀ c ∈ l.take n, c ∈ l.take m := by
  intro c hc
  have e : l.take n = (l.take m).take n := by
    rw [List.take_take, Nat.min_eq_left h]
  rw [e] at hc
  exact List.mem_of_mem_take hc

theorem between_spec (line : String) (c : Char) (start : Nat) (hstart : start < 2 ^ 64)
    (v : String) (hend : pos_of (find_char line c start) ≠ npos)
    (h : substr line start (size_sub (pos_of (find_char line c start)) start) = some v) :
    c ∉ v.data ∧ ∀ ch ∈ v.data, ch ∈ line.data := by
  cases hfind : find_char line c start with
  | none =>
    rw [hfind] at hend
    exact absurd rfl hend
  | some e =>
    rw [hfind] at h
    simp only [pos_of] at h
    have hle := find_char_le line c start e hfind
    rw [substr_of_le line start _ hle] at h
    simp only [Option.some.injEq] at h
    subst h
    unfold find_char at hfind
    rw [if_neg (by omega)] at hfind
    obtain ⟨h1, h2⟩ := findAux_char_before c _ start e hfind
    have hsub := size_sub_le e start h1 hstart
    constructor
    · intro hmem
      exact h2 (take_take_subset _ _ _ hsub c hmem)
    · intro ch hch
      exact List.mem_of_mem_drop (List.mem_of_mem_take hch)

theorem quoted_value_spec (line v : String) (h : quoted_value line = some (some v)) :
    '"' ∉ v.data ∧ ∀ ch ∈ v.data, ch ∈ line.data := by
  unfold quoted_value at h
  simp only [] at h
  split_ifs at h with hc
  · obtain ⟨_, hend⟩ := hc
    split at h
    · rename_i value hsub
      simp only [Option.some.injEq] at h
      subst h
      exact between_spec line '"' _ (size_add_lt _ _) _ hend hsub
    · cases h
  · cases h

theorem to_port_le (v : Int) : to_port v ≤ 65535 := by
  unfold to_port
  have h1 : 0 ≤ v % 65536 := Int.emod_nonneg v (by decide)
  have h2 : v % 65536 < 65536 := Int.emod_lt_of_pos v (by decide)
  show (v % 65536).toNat ≤ 65535
  omega

theorem parse_port_string_loop_le (tokens : List String) (acc ports : List Nat)
    (hacc : ∀ p ∈ acc, p ≤ 65535) (h : parse_port_string_loop acc tokens = some ports) :
    ∀ p ∈ ports, p ≤ 65535 := by
  induction tokens generalizing acc with
  | nil =>
    simp only [parse_port_string_loop, Option.some.injEq] at h
    subst h
    exact hacc
  | cons raw rest ih =>
    rw [parse_port_string_loop] at h
    split_ifs at h with hne
    · split at h
      · rename_i value _
        apply ih _ _ h
        intro p hp
        rcases List.mem_append.mp hp with hp | hp
        · exact hacc p hp
        · simp only [List.mem_singleton] at hp
          subst hp
          exact to_port_le value
      · cases h
    · exact ih _ hacc h

theorem keep_digits_isdigit (s : String) : ∀ c ∈ (keep_digits s).data, isdigit c = true := by
  intro c hc
  unfold keep_digits at hc
  simp only [List.mem_filter] at hc
  exact hc.2

theorem stoi_digits_range (s : String) (hd : ∀ c ∈ s.data, isdigit c = true) (v : Int)
    (h : stoi s = some v) : 0 ≤ v ∧ v < 2 ^ 31 := by
  by_cases hne : s.data = []
  · have : s = "" := by
      cases s
      simp only at hne
      subst hne
      rfl
    subst this
    have hnone : stoi "" = none := by decide
    rw [hnone] at h
    cases h
  · have hs : scan_number s = (false, s.data) := scan_number_digits s.data hd hne
    unfold stoi at h
    simp only [hs] at h
    rw [if_neg hne] at h
    simp only [Bool.false_eq_true, if_false] at h
    split_ifs at h with hr
    simp only [Option.some.injEq] at h
    subst h
    push_neg at hr
    constructor
    · exact Int.natCast_nonneg _
    · omega

theorem stoul_lt (s : String) (v : Nat) (h : stoul s = some v) : v < 2 ^ 64 := by
  unfold stoul at h
  simp only [] at h
  split_ifs at h with h1 h2 h3
  · simp only [Option.some.injEq] at h
    subst h
    exact Nat.mod_lt _ (by decide)
  · simp only [Option.some.injEq] at h
    subst h
    omega

theorem loaded_default : Loaded create_default_config := by
  unfold Loaded
  refine ⟨by decide, by decide, by decide, by decide, by decide, by decide, rfl, rfl, rfl, rfl,
    rfl, rfl, rfl⟩

theorem number_value_isdigit (line text : String) (h : number_value line = some text) :
    ∀ c ∈ text.data, isdigit c = true := by
  unfold number_value at h
  simp only [] at h
  split at h
  · simp only [Option.some.injEq] at h
    subst h
    exact keep_digits_isdigit _
  · cases h

theorem load_json_line_loaded (config result : ScanConfig) (raw : String) (hc : Loaded config)
    (h : load_json_line config raw = some result) : Loaded result := by
  obtain ⟨c1, c2, c3, c4, c5, c6, c7, c8, c9, c10, c11, c12, c13⟩ := hc
  unfold load_json_line at h
  simp only [] at h
  split_ifs at h with k1 k2 k3 k4 k5
  · split at h
    · cases h
    · cases h
      exact ⟨c1, c2, c3, c4, c5, c6, c7, c8, c9, c10, c11, c12, c13⟩
    · rename_i value hq
      cases h
      obtain ⟨q1, q2⟩ := quoted_value_spec _ _ hq
      exact ⟨q1, fun ch hch => remove_spaces_no_space raw ch (q2 ch hch), c3, c4, c5, c6, c7, c8,
        c9, c10, c11, c12, c13⟩
  · split at h
    · cases h
    · cases h
      exact ⟨c1, c2, c3, c4, c5, c6, c7, c8, c9, c10, c11, c12, c13⟩
    · rename_i ports_str hq
      split at h
      · rename_i ports hp
        cases h
        exact ⟨c1, c2, parse_port_string_loop_le _ [] ports (by simp) hp, c4, c5, c6, c7, c8,
          c9, c10, c11, c12, c13⟩
      · cases h
  · split at h
    · cases h
    · cases h
      exact ⟨c1, c2, c3, c4, c5, c6, c7, c8, c9, c10, c11, c12, c13⟩
    · cases h
      exact ⟨c1, c2, c3, c4, c5, c6, c7, c8, c9, c10, c11, c12, c13⟩
  · split at h
    · cases h
    · rename_i timeout_str hn
      split_ifs at h with hne
      · split at h
        · rename_i value hv
          cases h
          obtain ⟨v1, v2⟩ := stoi_digits_range _ (number_value_isdigit _ _ hn) value hv
          exact ⟨c1, c2, c3, v1, v2, c6, c7, c8, c9, c10, c11, c12, c13⟩
        · cases h
      · cases h
        exact ⟨c1, c2, c3, c4, c5, c6, c7, c8, c9, c10, c11, c12, c13⟩
  · split at h
    · cases h
    · rename_i threads_str hn
      split_ifs at h with hne
      · split at h
        · rename_i value hv
          cases h
          exact ⟨c1, c2, c3, c4, c5, stoul_lt _ value hv, c7, c8, c9, c10, c11, c12, c13⟩
        · cases h
      · cases h
        exact ⟨c1, c2, c3, c4, c5, c6, c7, c8, c9, c10, c11, c12, c13⟩
  · cases h
    exact ⟨c1, c2, c3, c4, c5, c6, c7, c8, c9, c10, c11, c12, c13⟩

theorem load_json_lines_loaded (lines : List String) (config result : ScanConfig)
    (hc : Loaded config) (h : load_json_lines config lines = some result) : Loaded result := by
  induction lines generalizing config with
  | nil =>
    simp only [load_json_lines, Option.some.injEq] at h
    subst h
    exact hc
  | cons line rest ih =>
    rw [load_json_lines] at h
    split at h
    · rename_i next hn
      exact ih next (load_json_line_loaded config next line hc hn) h
    · cases h

theorem load_json_config_loaded (content : String) (config : ScanConfig)
    (h : load_json_config content = some config) : Loaded config :=
  load_json_lines_loaded _ _ _ loaded_default h

/-! ### Reading back a saved JSON config -/

theorem remove_spaces_append (a b : String) :
    remove_spaces (a ++ b) = remove_spaces a ++ remove_spaces b := by
  unfold remove_spaces
  apply String.ext
  simp [String.data_append]

theorem print_int_ofNat (n : Nat) : print_int (n : Int) = print_nat n := by
  unfold print_int
  rw [if_neg (by omega)]
  simp

theorem write_ports_chars (ports : List Nat) :
    ∀ c ∈ (write_ports ports).data, isdigit c = true ∨ c = ',' ∨ c = ' ' := by
  induction ports with
  | nil => intro c hc; cases hc
  | cons p rest ih =>
    cases rest with
    | nil =>
      intro c hc
      exact Or.inl ((print_nat_digits p).1 c hc)
    | cons q rest =>
      intro c hc
      have hdata : (write_ports (p :: q :: rest)).data =
          (print_nat p).data ++ ',' :: ' ' :: (write_ports (q :: rest)).data := by
        show (print_nat p ++ ", " ++ write_ports (q :: rest)).data = _
        simp [String.data_append]
      rw [hdata] at hc
      simp only [List.mem_append, List.mem_cons] at hc
      rcases hc with hc | hc | hc | hc
      · exact Or.inl ((print_nat_digits p).1 c hc)
      · exact Or.inr (Or.inl hc)
      · exact Or.inr (Or.inr hc)
      · exact ih c hc

set_option maxRecDepth 8000 in
theorem getlines_save_json_config (target : String) (ports : List Nat) (scan_type : ScanType)
    (timeout thread_count : Nat) (htarget : '\n' ∉ target.data) :
    getlines '\n' (save_json_config
      { target := target, ports := ports, scan_type := scan_type, ip_version := IPVersion.AUTO,
        timeout := (timeout : Int), thread_count := thread_count, verbose := false,
        service_detection := true, banner_grabbing := true, config_file := "",
        output_format := "txt", output_file := "" }) =
      ["\x7b",
        "  \"target\": \"" ++ target ++ "\",",
        "  \"ports\": [" ++ write_ports ports ++ "],",
        "  \"scan_type\": \"" ++ scan_type_to_string scan_type ++ "\",",
        "  \"ip_version\": \"auto\",",
        "  \"timeout\": " ++ print_nat timeout ++ ",",
        "  \"threads\": " ++ print_nat thread_count ++ ",",
        "  \"verbose\": false,",
        "  \"service_detection\": true,",
        "  \"banner_grabbing\": true,",
        "  \"output_format\": \"txt\"",
        "\x7d"] := by
  have hports : '\n' ∉ (write_ports ports).data := by
    intro h
    rcases write_ports_chars ports _ h with h | h | h
    · revert h; decide
    · revert h; decide
    · revert h; decide
  have hscan : '\n' ∉ (scan_type_to_string scan_type).data := by
    cases scan_type <;> decide
  have htime : '\n' ∉ (print_nat timeout).data := print_nat_no_char _ _ (by decide)
  have hthreads : '\n' ∉ (print_nat thread_count).data := print_nat_no_char _ _ (by decide)
  have hdata : (save_json_config
      { target := target, ports := ports, scan_type := scan_type, ip_version := IPVersion.AUTO,
        timeout := (timeout : Int), thread_count := thread_count, verbose := false,
        service_detection := true, banner_grabbing := true, config_file := "",
        output_format := "txt", output_file := "" }).data =
      "\x7b".data ++ '\n' ::
      (("  \"target\": \"" ++ target ++ "\",").data ++ '\n' ::
      (("  \"ports\": [" ++ write_ports ports ++ "],").data ++ '\n' ::
      (("  \"scan_type\": \"" ++ scan_type_to_string scan_type ++ "\",").data ++ '\n' ::
      ("  \"ip_version\": \"auto\",".data ++ '\n' ::
      (("  \"timeout\": " ++ print_nat timeout ++ ",").data ++ '\n' ::
      (("  \"threads\": " ++ print_nat thread_count ++ ",").data ++ '\n' ::
      ("  \"verbose\": false,".data ++ '\n' ::
      ("  \"service_detection\": true,".data ++ '\n' ::
      ("  \"banner_grabbing\": true,".data ++ '\n' ::
      ("  \"output_format\": \"txt\"".data ++ '\n' ::
      ("\x7d".data ++ '\n' :: []))))))))))) := by
    simp [save_json_config, print_int_ofNat, ip_version_to_string, print_bool,
      String.data_append]
  have l1 : '\n' ∉ ("  \"target\": \"" ++ target ++ "\",").data := by
    simpa [String.data_append] using htarget
  have l2 : '\n' ∉ ("  \"ports\": [" ++ write_ports ports ++ "],").data := by
    simpa [String.data_append] using hports
  have l3 : '\n' ∉ ("  \"scan_type\": \"" ++ scan_type_to_string scan_type ++ "\",").data := by
    simpa [String.data_append] using hscan
  have l5 : '\n' ∉ ("  \"timeout\": " ++ print_nat timeout ++ ",").data := by
    simpa [String.data_append] using htime
  have l6 : '\n' ∉ ("  \"threads\": " ++ print_nat thread_count ++ ",").data := by
    simpa [String.data_append] using hthreads
  unfold getlines
  rw [hdata, getline_loop_token _ _ _ _ _ (by decide), getline_loop_token _ _ _ _ _ l1,
    getline_loop_token _ _ _ _ _ l2, getline_loop_token _ _ _ _ _ l3,
    getline_loop_token _ _ _ _ _ (by decide), getline_loop_token _ _ _ _ _ l5,
    getline_loop_token _ _ _ _ _ l6, getline_loop_token _ _ _ _ _ (by decide),
    getline_loop_token _ _ _ _ _ (by decide), getline_loop_token _ _ _ _ _ (by decide),
    getline_loop_token _ _ _ _ _ (by decide), getline_loop_token _ _ _ _ _ (by decide)]
  rfl

theorem find_none_of_not_mem (s pat : String) (ch : Char) (hp : ch ∈ pat.data)
    (hs : ch ∉ s.data) : (find s pat 0).isSome = false := by
  cases hfind : (find s pat 0).isSome with
  | false => rfl
  | true =>
    exfalso
    apply hs
    exact ((find_isSome_iff s pat).mp hfind).subset hp

theorem find_isSome_at_start (s pat : String) (h : pat.data <+: s.data) :
    (find s pat 0).isSome = true := by
  rw [find_at_start s pat h]
  rfl

theorem load_json_line_target (config : ScanConfig) (target : String)
    (hquote : '"' ∉ target.data) (hspace : ∀ ch ∈ target.data, isspace ch = false)
    (hlen : target.data.length + 11 < 2 ^ 64) :
    load_json_line config ("  \"target\": \"" ++ target ++ "\",") =
      some { config with target := target } := by
  have hline : remove_spaces ("  \"target\": \"" ++ target ++ "\",") =
      "\"target\":\"" ++ target ++ "\"," := by
    rw [remove_spaces_append, remove_spaces_append, remove_spaces_id target hspace]
    rfl
  have hdata : ("\"target\":\"" ++ target ++ "\",").data =
      '"' :: 't' :: 'a' :: 'r' :: 'g' :: 'e' :: 't' :: '"' :: ':' :: '"' ::
        (target.data ++ ['"', ',']) := by
    simp [String.data_append]
  have hsize : ("\"target\":\"" ++ target ++ "\",").length = target.data.length + 12 := by
    rw [string_length_data, hdata]
    simp
  have hkey : (find ("\"target\":\"" ++ target ++ "\",") "\"target\":" 0).isSome = true := by
    apply find_isSome_at_start
    rw [hdata]
    exact ⟨'"' :: (target.data ++ ['"', ',']), by simp⟩
  have hcolon : find_char ("\"target\":\"" ++ target ++ "\",") ':' 0 = some 8 :=
    find_char_append _ ':' 0 ['"', 't', 'a', 'r', 'g', 'e', 't', '"']
      ('"' :: (target.data ++ ['"', ','])) (by rw [hdata]; rfl) (by decide)
  have hopen : find_char ("\"target\":\"" ++ target ++ "\",") '"' 8 = some 9 :=
    find_char_append _ '"' 8 [':'] (target.data ++ ['"', ',']) (by rw [hdata]; rfl) (by decide)
  have hclose : find_char ("\"target\":\"" ++ target ++ "\",") '"' 10 =
      some (10 + target.data.length) :=
    find_char_append _ '"' 10 target.data [','] (by rw [hdata]; rfl) hquote
  have hstart : size_add 9 1 = 10 := by decide
  have hvalue : quoted_value ("\"target\":\"" ++ target ++ "\",") = some (some target) := by
    unfold quoted_value
    simp only [hcolon, pos_of, hopen, hstart, hclose]
    rw [if_pos ⟨by decide, by unfold npos; omega⟩, size_sub_eq _ _ (by omega) (by omega),
      substr_of_le _ _ _ (by rw [hsize]; omega), hdata]
    simp
  unfold load_json_line
  simp only [hline, hkey, if_true, hvalue]

theorem remove_spaces_write_ports (ports : List Nat) :
    remove_spaces (write_ports ports) = port_spec_text (ports.map PortToken.single) := by
  induction ports with
  | nil => rfl
  | cons p rest ih =>
    cases rest with
    | nil =>
      exact remove_spaces_id _ (fun c hc => isdigit_not_space c ((print_nat_digits p).1 c hc))
    | cons q rest =>
      show remove_spaces (print_nat p ++ ", " ++ write_ports (q :: rest)) =
        (PortToken.single p).text ++ "," ++ port_spec_text ((q :: rest).map PortToken.single)
      rw [remove_spaces_append, remove_spaces_append, ih,
        remove_spaces_id _ (fun c hc => isdigit_not_space c ((print_nat_digits p).1 c hc))]
      rfl

theorem parse_port_string_loop_printed (ports acc : List Nat) (h : ∀ p ∈ ports, p ≤ 65535) :
    parse_port_string_loop acc ((ports.map PortToken.single).map PortToken.text) =
      some (acc ++ ports) := by
  induction ports generalizing acc with
  | nil => simp [parse_port_string_loop]
  | cons p rest ih =>
    obtain ⟨h1, h2, _, _⟩ := print_nat_digits p
    have hp : p ≤ 65535 := h p (List.mem_cons_self _ _)
    have hsp : remove_spaces (print_nat p) = print_nat p :=
      remove_spaces_id _ (fun c hc => isdigit_not_space c (h1 c hc))
    have hne : print_nat p ≠ "" := by
      intro he
      apply h2
      rw [he]
    have ht : (PortToken.single p).text = print_nat p := rfl
    rw [List.map_cons, List.map_cons, ht, parse_port_string_loop]
    simp only [hsp, if_pos hne, stoi_print_nat p (by omega), to_port_of_le p hp]
    rw [ih _ (fun q hq => h q (List.mem_cons_of_mem _ hq))]
    simp

theorem parse_port_string_printed (ports : List Nat) (h : ∀ p ∈ ports, p ≤ 65535) :
    parse_port_string (remove_spaces (write_ports ports)) = some ports := by
  unfold parse_port_string
  rw [remove_spaces_write_ports, getlines_port_spec_text, parse_port_string_loop_printed _ _ h]
  rfl

theorem remove_spaces_write_ports_chars (ports : List Nat) :
    ∀ c ∈ (remove_spaces (write_ports ports)).data, isdigit c = true ∨ c = ',' := by
  intro c hc
  have hs := remove_spaces_no_space _ c hc
  unfold remove_spaces at hc
  simp only [List.mem_filter] at hc
  rcases write_ports_chars ports c hc.1 with h | h | h
  · exact Or.inl h
  · exact Or.inr h
  · subst h
    revert hs
    decide

theorem ports_line_spec (text : String)
    (hchars : ∀ c ∈ text.data, isdigit c = true ∨ c = ',')
    (hlen : text.data.length + 11 < 2 ^ 64) :
    (find ("\"ports\":[" ++ text ++ "],") "\"target\":" 0).isSome = false ∧
    (find ("\"ports\":[" ++ text ++ "],") "\"ports\":" 0).isSome = true ∧
    bracketed_value ("\"ports\":[" ++ text ++ "],") = some (some text) := by
  have hdata : ("\"ports\":[" ++ text ++ "],").data =
      '"' :: 'p' :: 'o' :: 'r' :: 't' :: 's' :: '"' :: ':' :: '[' ::
        (text.data ++ [']', ',']) := by
    simp [String.data_append]
  have hsize : ("\"ports\":[" ++ text ++ "],").length = text.data.length + 11 := by
    rw [string_length_data, hdata]
    simp
  have hno : ∀ ch : Char, isdigit ch = false → ch ≠ ',' → ch ∉ text.data := by
    intro ch h1 h2 hmem
    rcases hchars ch hmem with h | h
    · rw [h] at h1
      cases h1
    · exact h2 h
  refine ⟨?_, ?_, ?_⟩
  · apply find_none_of_not_mem _ _ 'a' (by decide)
    rw [hdata]
    have := hno 'a' (by decide) (by decide)
    simp [this]
  · apply find_isSome_at_start
    rw [hdata]
    exact ⟨'[' :: (text.data ++ [']', ',']), by simp⟩
  · have hopen : find_char ("\"ports\":[" ++ text ++ "],") '[' 0 = some 8 :=
      find_char_append _ '[' 0 ['"', 'p', 'o', 'r', 't', 's', '"', ':']
        (text.data ++ [']', ',']) (by rw [hdata]; rfl) (by decide)
    have hclose : find_char ("\"ports\":[" ++ text ++ "],") ']' 0 =
        some (0 + ('"' :: 'p' :: 'o' :: 'r' :: 't' :: 's' :: '"' :: ':' :: '[' ::
          text.data).length) :=
      find_char_append _ ']' 0 ('"' :: 'p' :: 'o' :: 'r' :: 't' :: 's' :: '"' :: ':' :: '[' ::
          text.data) [','] (by rw [hdata]; simp) (by
        have := hno ']' (by decide) (by decide)
        simp [this])
    have hstart : size_add 8 1 = 9 := by decide
    unfold bracketed_value
    simp only [hopen, pos_of, hstart, hclose, List.length_cons]
    rw [if_pos ⟨by decide, by unfold npos; omega⟩, size_sub_eq _ _ (by omega) (by omega),
      substr_of_le _ _ _ (by rw [hsize]; omega), hdata]
    simp

theorem load_json_line_ports (config : ScanConfig) (ports : List Nat)
    (hports : ∀ p ∈ ports, p ≤ 65535)
    (hlen : (remove_spaces (write_ports ports)).data.length + 11 < 2 ^ 64) :
    load_json_line config ("  \"ports\": [" ++ write_ports ports ++ "],") =
      some { config with ports := ports } := by
  have hline : remove_spaces ("  \"ports\": [" ++ write_ports ports ++ "],") =
      "\"ports\":[" ++ remove_spaces (write_ports ports) ++ "]," := by
    rw [remove_spaces_append, remove_spaces_append]
    rfl
  obtain ⟨h1, h2, h3⟩ := ports_line_spec _ (remove_spaces_write_ports_chars ports) hlen
  unfold load_json_line
  simp only [hline, h1, h2, h3, parse_port_string_printed ports hports, if_true,
    Bool.false_eq_true, if_false]

theorem keep_digits_id (s : String) (h : ∀ c ∈ s.data, isdigit c = true) : keep_digits s = s := by
  unfold keep_digits
  have : s.data.filter isdigit = s.data := by
    rw [List.filter_eq_self]
    exact h
  rw [this]

theorem digits_not_mem (text : String) (hd : ∀ c ∈ text.data, isdigit c = true) (ch : Char)
    (h : isdigit ch = false) : ch ∉ text.data := by
  intro hmem
  rw [hd ch hmem] at h
  cases h

theorem timeout_line_spec (text : String) (hd : ∀ c ∈ text.data, isdigit c = true)
    (hlen : text.data.length + 11 < 2 ^ 64) :
    (find ("\"timeout\":" ++ text ++ ",") "\"target\":" 0).isSome = false ∧
    (find ("\"timeout\":" ++ text ++ ",") "\"ports\":" 0).isSome = false ∧
    (find ("\"timeout\":" ++ text ++ ",") "\"scan_type\":" 0).isSome = false ∧
    (find ("\"timeout\":" ++ text ++ ",") "\"timeout\":" 0).isSome = true ∧
    number_value ("\"timeout\":" ++ text ++ ",") = some text := by
  have hdata : ("\"timeout\":" ++ text ++ ",").data =
      '"' :: 't' :: 'i' :: 'm' :: 'e' :: 'o' :: 'u' :: 't' :: '"' :: ':' ::
        (text.data ++ [',']) := by
    simp [String.data_append]
  have hsize : ("\"timeout\":" ++ text ++ ",").length = text.data.length + 11 := by
    rw [string_length_data, hdata]
    simp
  refine ⟨?_, ?_, ?_, ?_, ?_⟩
  · apply find_none_of_not_mem _ _ 'a' (by decide)
    rw [hdata]
    have := digits_not_mem text hd 'a' (by decide)
    simp [this]
  · apply find_none_of_not_mem _ _ 'p' (by decide)
    rw [hdata]
    have := digits_not_mem text hd 'p' (by decide)
    simp [this]
  · apply find_none_of_not_mem _ _ 's' (by decide)
    rw [hdata]
    have := digits_not_mem text hd 's' (by decide)
    simp [this]
  · apply find_isSome_at_start
    rw [hdata]
    exact ⟨text.data ++ [','], by simp⟩
  · have hcolon : find_char ("\"timeout\":" ++ text ++ ",") ':' 0 = some 9 :=
      find_char_append _ ':' 0 ['"', 't', 'i', 'm', 'e', 'o', 'u', 't', '"']
        (text.data ++ [',']) (by rw [hdata]; rfl) (by decide)
    have hcomma : find_char ("\"timeout\":" ++ text ++ ",") ',' 10 =
        some (10 + text.data.length) :=
      find_char_append _ ',' 10 text.data [] (by rw [hdata]; rfl)
        (digits_not_mem text hd ',' (by decide))
    have hstart : size_add 9 1 = 10 := by decide
    unfold number_value
    simp only [hcolon, pos_of, hstart, hcomma]
    have hsub : size_sub (10 + text.data.length) 10 = text.data.length := by
      rw [size_sub_eq _ _ (by omega) (by omega)]
      omega
    rw [hsub, substr_of_le _ _ _ (by rw [hsize]; omega), hdata]
    simp only [List.drop_succ_cons, List.drop_zero, Nat.add_sub_cancel_left,
      List.take_left, Option.some.injEq]
    exact keep_digits_id text hd

theorem threads_line_spec (text : String) (hd : ∀ c ∈ text.data, isdigit c = true)
    (hlen : text.data.length + 11 < 2 ^ 64) :
    (find ("\"threads\":" ++ text ++ ",") "\"target\":" 0).isSome = false ∧
    (find ("\"threads\":" ++ text ++ ",") "\"ports\":" 0).isSome = false ∧
    (find ("\"threads\":" ++ text ++ ",") "\"scan_type\":" 0).isSome = false ∧
    (find ("\"threads\":" ++ text ++ ",") "\"timeout\":" 0).isSome = false ∧
    (find ("\"threads\":" ++ text ++ ",") "\"threads\":" 0).isSome = true ∧
    number_value ("\"threads\":" ++ text ++ ",") = some text := by
  have hdata : ("\"threads\":" ++ text ++ ",").data =
      '"' :: 't' :: 'h' :: 'r' :: 'e' :: 'a' :: 'd' :: 's' :: '"' :: ':' ::
        (text.data ++ [',']) := by
    simp [String.data_append]
  have hsize : ("\"threads\":" ++ text ++ ",").length = text.data.length + 11 := by
    rw [string_length_data, hdata]
    simp
  refine ⟨?_, ?_, ?_, ?_, ?_, ?_⟩
  · apply find_none_of_not_mem _ _ 'g' (by decide)
    rw [hdata]
    have := digits_not_mem text hd 'g' (by decide)
    simp [this]
  · apply find_none_of_not_mem _ _ 'p' (by decide)
    rw [hdata]
    have := digits_not_mem text hd 'p' (by decide)
    simp [this]
  · apply find_none_of_not_mem _ _ 'c' (by decide)
    rw [hdata]
    have := digits_not_mem text hd 'c' (by decide)
    simp [this]
  · apply find_none_of_not_mem _ _ 'i' (by decide)
    rw [hdata]
    have := digits_not_mem text hd 'i' (by decide)
    simp [this]
  · apply find_isSome_at_start
    rw [hdata]
    exact ⟨text.data ++ [','], by simp⟩
  · have hcolon : find_char ("\"threads\":" ++ text ++ ",") ':' 0 = some 9 :=
      find_char_append _ ':' 0 ['"', 't', 'h', 'r', 'e', 'a', 'd', 's', '"']
        (text.data ++ [',']) (by rw [hdata]; rfl) (by decide)
    have hcomma : find_char ("\"threads\":" ++ text ++ ",") ',' 10 =
        some (10 + text.data.length) :=
      find_char_append _ ',' 10 text.data [] (by rw [hdata]; rfl)
        (digits_not_mem text hd ',' (by decide))
    have hstart : size_add 9 1 = 10 := by decide
    unfold number_value
    simp only [hcolon, pos_of, hstart, hcomma]
    have hsub : size_sub (10 + text.data.length) 10 = text.data.length := by
      rw [size_sub_eq _ _ (by omega) (by omega)]
      omega
    rw [hsub, substr_of_le _ _ _ (by rw [hsize]; omega), hdata]
    simp only [List.drop_succ_cons, List.drop_zero, Nat.add_sub_cancel_left,
      List.take_left, Option.some.injEq]
    exact keep_digits_id text hd

theorem print_nat_ne_empty (n : Nat) : print_nat n ≠ "" := by
  intro he
  apply (print_nat_digits n).2.1
  rw [he]

theorem load_json_line_timeout (config : ScanConfig) (timeout : Nat) (h : timeout < 2 ^ 31)
    (hlen : (print_nat timeout).data.length + 11 < 2 ^ 64) :
    load_json_line config ("  \"timeout\": " ++ print_nat timeout ++ ",") =
      some { config with timeout := (timeout : Int) } := by
  have hd := (print_nat_digits timeout).1
  have hline : remove_spaces ("  \"timeout\": " ++ print_nat timeout ++ ",") =
      "\"timeout\":" ++ print_nat timeout ++ "," := by
    rw [remove_spaces_append, remove_spaces_append,
      remove_spaces_id _ (fun c hc => isdigit_not_space c (hd c hc))]
    rfl
  obtain ⟨h1, h2, h3, h4, h5⟩ := timeout_line_spec _ hd hlen
  unfold load_json_line
  simp only [hline, h1, h2, h3, h4, h5, if_true, Bool.false_eq_true, if_false,
    if_pos (print_nat_ne_empty timeout), stoi_print_nat timeout h]

theorem load_json_line_threads (config : ScanConfig) (thread_count : Nat)
    (h : thread_count < 2 ^ 64) (hlen : (print_nat thread_count).data.length + 11 < 2 ^ 64) :
    load_json_line config ("  \"threads\": " ++ print_nat thread_count ++ ",") =
      some { config with thread_count := thread_count } := by
  have hd := (print_nat_digits thread_count).1
  have hline : remove_spaces ("  \"threads\": " ++ print_nat thread_count ++ ",") =
      "\"threads\":" ++ print_nat thread_count ++ "," := by
    rw [remove_spaces_append, remove_spaces_append,
      remove_spaces_id _ (fun c hc => isdigit_not_space c (hd c hc))]
    rfl
  obtain ⟨h1, h2, h3, h4, h5, h6⟩ := threads_line_spec _ hd hlen
  unfold load_json_line
  simp only [hline, h1, h2, h3, h4, h5, h6, if_true, Bool.false_eq_true, if_false,
    if_pos (print_nat_ne_empty thread_count), stoul_print_nat thread_count h]

/-! ### The lines written by save_json_config, read by load_json_line -/

theorem load_json_line_brace (config : ScanConfig) :
    load_json_line config "\x7b" = some config := rfl

theorem load_json_line_ip (config : ScanConfig) :
    load_json_line config "  \"ip_version\": \"auto\"," = some config := rfl

theorem load_json_line_verbose (config : ScanConfig) :
    load_json_line config "  \"verbose\": false," = some config := rfl

theorem load_json_line_sd (config : ScanConfig) :
    load_json_line config "  \"service_detection\": true," = some config := rfl

theorem load_json_line_bg (config : ScanConfig) :
    load_json_line config "  \"banner_grabbing\": true," = some config := rfl

theorem load_json_line_of (config : ScanConfig) :
    load_json_line config "  \"output_format\": \"txt\"" = some config := rfl

theorem load_json_line_end (config : ScanConfig) :
    load_json_line config "\x7d" = some config := rfl

theorem load_json_line_scan_type (config : ScanConfig) (scan_type : ScanType) :
    load_json_line config ("  \"scan_type\": \"" ++ scan_type_to_string scan_type ++ "\",") =
      some { config with scan_type := scan_type } := by
  cases scan_type <;> rfl

set_option maxRecDepth 8000 in
theorem save_json_config_length (target : String) (ports : List Nat) (scan_type : ScanType)
    (timeout thread_count : Nat) :
    target.length + (write_ports ports).length + (print_nat timeout).length +
        (print_nat thread_count).length + 11 ≤
      (save_json_config
        { target := target, ports := ports, scan_type := scan_type,
          ip_version := IPVersion.AUTO, timeout := (timeout : Int),
          thread_count := thread_count, verbose := false, service_detection := true,
          banner_grabbing := true, config_file := "", output_format := "txt",
          output_file := "" }).length := by
  rw [string_length_data (save_json_config _)]
  simp [save_json_config, print_int_ofNat, ip_version_to_string, print_bool,
    String.data_append]
  omega

theorem remove_spaces_length (s : String) : (remove_spaces s).data.length ≤ s.length := by
  unfold remove_spaces
  exact List.length_filter_le _ _

theorem load_saved_config (target : String) (ports : List Nat) (scan_type : ScanType)
    (timeout thread_count : Nat) (hquote : '"' ∉ target.data)
    (hspace : ∀ ch ∈ target.data, isspace ch = false) (hports : ∀ p ∈ ports, p ≤ 65535)
    (htimeout : timeout < 2 ^ 31) (hthreads : thread_count < 2 ^ 64)
    (hlen : (save_json_config
      { target := target, ports := ports, scan_type := scan_type, ip_version := IPVersion.AUTO,
        timeout := (timeout : Int), thread_count := thread_count, verbose := false,
        service_detection := true, banner_grabbing := true, config_file := "",
        output_format := "txt", output_file := "" }).length < 2 ^ 64) :
    load_json_config (save_json_config
      { target := target, ports := ports, scan_type := scan_type, ip_version := IPVersion.AUTO,
        timeout := (timeout : Int), thread_count := thread_count, verbose := false,
        service_detection := true, banner_grabbing := true, config_file := "",
        output_format := "txt", output_file := "" }) =
      some { target := target, ports := ports, scan_type := scan_type,
             ip_version := IPVersion.AUTO, timeout := (timeout : Int),
             thread_count := thread_count, verbose := false, service_detection := true,
             banner_grabbing := true, config_file := "", output_format := "txt",
             output_file := "" } := by
  have hsize := save_json_config_length target ports scan_type timeout thread_count
  have hp := remove_spaces_length (write_ports ports)
  have e1 := string_length_data target
  have e2 := string_length_data (print_nat timeout)
  have e3 := string_length_data (print_nat thread_count)
  have hnl : '\n' ∉ target.data := by
    intro h
    have := hspace _ h
    revert this
    decide
  unfold load_json_config
  rw [getlines_save_json_config target ports scan_type timeout thread_count hnl]
  simp only [load_json_lines, load_json_line_brace,
    load_json_line_target _ target hquote hspace (by omega),
    load_json_line_ports _ ports hports (by omega),
    load_json_line_scan_type,
    load_json_line_ip,
    load_json_line_timeout _ timeout htimeout (by omega),
    load_json_line_threads _ thread_count hthreads (by omega),
    load_json_line_verbose, load_json_line_sd, load_json_line_bg, load_json_line_of,
    load_json_line_end]
  rfl

theorem load_save_load_spec (x : String) (config : ScanConfig)
    (hload : load_json_config x = some config)
    (hlen : (save_json_config config).length < 2 ^ 64) :
    load_json_config (save_json_config config) = some config := by
  obtain ⟨c1, c2, c3, c4, c5, c6, c7, c8, c9, c10, c11, c12, c13⟩ :=
    load_json_config_loaded x config hload
  obtain ⟨target, ports, scan_type, ip_version, timeout, thread_count, verbose,
    service_detection, banner_grabbing, config_file, output_format, output_file⟩ := config
  simp only at c1 c2 c3 c4 c5 c6 c7 c8 c9 c10 c11 c12 c13
  subst c7 c8 c9 c10 c11 c12 c13
  lift timeout to ℕ using c4
  exact load_saved_config target ports scan_type timeout thread_count c1 c2 c3 (by omega) c6 hlen

/-- Claim C20: for every JSON text `x` that `load_json_config` accepts, saving
the loaded config with `save_json_config` and loading the saved text (a string
of fewer than `2 ^ 64` bytes) returns the same config: equal in every field,
so in target, ports, timeout, threads, service_detection, banner_grabbing,
ip_version and scan_type. -/
theorem load_save_load_same_config (x : String) (config : ScanConfig)
    (hload : load_json_config x = some config)
    (hlen : (save_json_config config).length < 2 ^ 64) :
    load_json_config (save_json_config config) = some config :=
  load_save_load_spec x config hload hlen

set_option maxRecDepth 8000 in
/-- Witness of C20 on `sample_json`. -/
theorem load_save_load_same_config_witness :
    (load_json_config sample_json = some sample_config ∧
      (save_json_config sample_config).length < 2 ^ 64) ∧
    load_json_config (save_json_config sample_config) = some sample_config :=
  ⟨⟨by decide, by decide⟩,
    load_save_load_same_config sample_json sample_config (by decide) (by decide)⟩

/-! ### The result sink -/

theorem count_if_eq (pred : ScanResult → Bool) (l : List ScanResult) (n : Nat) :
    count_if pred l n = n + l.countP pred := by
  induction l generalizing n with
  | nil => simp [count_if]
  | cons r rest ih =>
    rw [count_if, ih]
    by_cases h : pred r = true
    · simp [h, List.countP_cons_of_pos]
      omega
    · simp [h, List.countP_cons_of_neg]

theorem copy_if_eq (pred : ScanResult → Bool) (l out : List ScanResult) :
    copy_if pred l out = out ++ l.filter pred := by
  induction l generalizing out with
  | nil => simp [copy_if]
  | cons r rest ih =>
    rw [copy_if, ih]
    by_cases h : pred r = true
    · simp [h]
    · simp [h]

theorem call_eq (results_ : ScanResults) (call : AddCall) :
    results_.call call = results_ ++ [call.added] := by
  cases call <;> rfl

theorem foldl_call_eq (calls : List AddCall) (results_ : ScanResults) :
    calls.foldl ScanResults.call results_ = results_ ++ calls.map AddCall.added := by
  induction calls generalizing results_ with
  | nil => simp
  | cons c rest ih =>
    rw [List.foldl_cons, ih, call_eq]
    simp

theorem add_calls_spec (calls : List AddCall) :
    (add_calls calls).get_results = calls.map AddCall.added ∧
    (∀ call, add_calls (calls ++ [call]) = add_calls calls ++ [call.added]) ∧
    (add_calls calls).open_count =
      (calls.map AddCall.added).countP (fun r => r.status = PortStatus.OPEN) ∧
    (add_calls calls).closed_count =
      (calls.map AddCall.added).countP (fun r => r.status = PortStatus.CLOSED) ∧
    (add_calls calls).filtered_count =
      (calls.map AddCall.added).countP (fun r => r.status = PortStatus.FILTERED) ∧
    (add_calls calls).get_open_ports =
      (calls.map AddCall.added).filter (fun r => r.status = PortStatus.OPEN) ∧
    (add_calls calls).get_open_ports.length = (add_calls calls).open_count := by
  have h : add_calls calls = calls.map AddCall.added := by
    unfold add_calls
    rw [foldl_call_eq]
    simp
  refine ⟨h, ?_, ?_, ?_, ?_, ?_, ?_⟩
  · intro call
    unfold add_calls
    rw [List.foldl_append, List.foldl_cons, List.foldl_nil, call_eq]
  · rw [h]
    unfold ScanResults.open_count
    rw [count_if_eq]
    simp
  · rw [h]
    unfold ScanResults.closed_count
    rw [count_if_eq]
    simp
  · rw [h]
    unfold ScanResults.filtered_count
    rw [count_if_eq]
    simp
  · rw [h]
    unfold ScanResults.get_open_ports
    rw [copy_if_eq]
    simp
  · rw [h]
    unfold ScanResults.get_open_ports ScanResults.open_count
    rw [copy_if_eq, count_if_eq, List.countP_eq_length_filter]
    simp

/-- Claim C23: after any sequence of `add_result` calls on an empty
`ScanResults`, `get_results` is the list of the added results in call order
(one more call appends one element and keeps the earlier ones), `open_count`,
`closed_count` and `filtered_count` are the numbers of results with status
`OPEN`, `CLOSED` and `FILTERED`, and `get_open_ports` is the sublist of the
`OPEN` results in the same order, of length `open_count`. -/
theorem add_result_appends_and_counts (calls : List AddCall) :
    (add_calls calls).get_results = calls.map AddCall.added ∧
    (∀ call, add_calls (calls ++ [call]) = add_calls calls ++ [call.added]) ∧
    (add_calls calls).open_count =
      (calls.map AddCall.added).countP (fun r => r.status = PortStatus.OPEN) ∧
    (add_calls calls).closed_count =
      (calls.map AddCall.added).countP (fun r => r.status = PortStatus.CLOSED) ∧
    (add_calls calls).filtered_count =
      (calls.map AddCall.added).countP (fun r => r.status = PortStatus.FILTERED) ∧
    (add_calls calls).get_open_ports =
      (calls.map AddCall.added).filter (fun r => r.status = PortStatus.OPEN) ∧
    (add_calls calls).get_open_ports.length = (add_calls calls).open_count :=
  add_calls_spec calls

/-! ### The sockets of the banner grabber -/

theorem close_count_append (id : Nat) (a b : List SockOp) :
    close_count id (a ++ b) = close_count id a + close_count id b := by
  induction a with
  | nil => simp [close_count]
  | cons op rest ih =>
    cases op <;> simp [close_count, ih]
    omega

theorem grab_tcp_banner_closes (net : GrabEnv) (w : Wire) (target : String) (port : Port)
    (timeout : Int) :
    close_count w.dials (grab_tcp_banner net w target port timeout).2.ops =
      close_count w.dials w.ops +
        (if (net.dial w.dials).socket_ok = false then 0
         else if net.addr_ok target = false then 0
         else if (net.dial w.dials).connect_ok = true then
           (if (recv_into 1023 (net.dial w.dials)).length > 0 then 1 else 2)
         else 1) := by
  unfold grab_tcp_banner
  simp only []
  cases h1 : (net.dial w.dials).socket_ok
  · simp
  · cases h2 : net.addr_ok target
    · simp [close_count_append, close_count]
    · cases h3 : (net.dial w.dials).connect_ok
      · simp [close_count_append, close_count]
      · by_cases h4 : (recv_into 1023 (net.dial w.dials)).length > 0
        · simp [h4, close_count_append, close_count]
        · simp [h4, close_count_append, close_count]

/-- Claim C30 fails: when the peer accepts the connection and sends nothing,
`grab_tcp_banner` closes its socket twice, and `grab_http_banner` closes both
its own socket and the socket of its fallback twice; when `create_sockaddr`
rejects the target, the socket is created and never closed.  Only a refused
connection and a received banner close the socket exactly once. -/
theorem grab_banner_socket_closed_twice_or_never :
    (grab_tcp_banner silent_server {} "192.0.2.1" 25 5000).2.ops =
      [SockOp.socket 0, SockOp.connect 0 25, SockOp.recv 0 1023, SockOp.close 0,
        SockOp.close 0] ∧
    (grab_http_banner silent_server {} "192.0.2.1" 80 5000).2.ops =
      [SockOp.socket 0, SockOp.connect 0 80, SockOp.send 0 (http_request "192.0.2.1"),
        SockOp.recv 0 4095, SockOp.close 0, SockOp.close 0,
        SockOp.socket 1, SockOp.connect 1 80, SockOp.recv 1 1023, SockOp.close 1,
        SockOp.close 1] ∧
    (grab_tcp_banner no_ipv4_address {} "::1" 25 5000).2.ops = [SockOp.socket 0] ∧
    (grab_http_banner no_ipv4_address {} "::1" 80 5000).2.ops =
      [SockOp.socket 0, SockOp.socket 1] ∧
    close_count 0 (grab_tcp_banner refusing_server {} "192.0.2.1" 25 5000).2.ops = 1 ∧
    close_count 0 (grab_tcp_banner web_server {} "192.0.2.1" 25 5000).2.ops = 1 := by
  decide

/-! ### The connect scan -/

theorem detect_service_on_total (net : GrabEnv) (patterns_ : PatternTable)
    (services : Port → Option String) (w : Wire) (target : String) (port : Port)
    (banner : String) :
    ∃ info, (detect_service_on net patterns_ services w target port banner).1 = some info := by
  unfold detect_service_on
  split_ifs
  · exact detect_service_total _ _ _ _ _
  · exact detect_service_total _ _ _ _ _

theorem tcp_connect_scan_spec (cfg : ScanConfig) (net : GrabEnv)
    (services : Port → Option String) (probe : Probe) (w : Wire) (port : Port) :
    (probe.socket_ok = true → net.addr_ok cfg.target = true →
      ∃ result, tcp_connect_scan cfg net services probe w port = some result) ∧
    (∀ result, tcp_connect_scan cfg net services probe w port = some result →
      result.1.port = port ∧
      result.1.status =
        (if probe.connect_result = 0 then PortStatus.OPEN else PortStatus.CLOSED) ∧
      result.1.status ≠ PortStatus.FILTERED ∧ result.1.status ≠ PortStatus.UNKNOWN ∧
      result.1.status ≠ PortStatus.OPEN_FILTERED) := by
  have key : ∀ result, tcp_connect_scan cfg net services probe w port = some result →
      result.1.port = port ∧
      result.1.status =
        (if probe.connect_result = 0 then PortStatus.OPEN else PortStatus.CLOSED) := by
    intro result h
    obtain ⟨info, hinfo⟩ := detect_service_on_total net SERVICE_PATTERNS services w cfg.target
      port ""
    unfold tcp_connect_scan at h
    by_cases hc : probe.connect_result = 0
    · simp only [hc, if_true, hinfo] at h
      rw [if_pos hc]
      split_ifs at h <;> (simp only [Option.some.injEq] at h; subst h; exact ⟨rfl, rfl⟩)
    · simp only [hc, if_false, hinfo] at h
      rw [if_neg hc]
      split_ifs at h <;> (simp only [Option.some.injEq] at h; subst h; exact ⟨rfl, rfl⟩)
  constructor
  · intro hs ha
    unfold tcp_connect_scan
    simp only [hs, ha, Bool.not_true, Bool.false_eq_true, if_false]
    obtain ⟨info, hinfo⟩ := detect_service_on_total net SERVICE_PATTERNS services w cfg.target
      port ""
    rw [hinfo]
    split_ifs <;> exact ⟨_, rfl⟩
  · intro result h
    obtain ⟨hp, hs⟩ := key result h
    refine ⟨hp, hs, ?_, ?_, ?_⟩ <;> (rw [hs]; split_ifs <;> decide)

/-- Claim C28: whenever `tcp_connect_scan` returns a result (it does as soon as
its socket is created and the target address accepted), the status is `OPEN`
when `connect` returned 0 and `CLOSED` otherwise, so it is never `FILTERED`,
`UNKNOWN` or `OPEN_FILTERED`: a connect that runs into the timeout returns -1
and is reported `CLOSED`. -/
theorem tcp_connect_scan_open_or_closed (cfg : ScanConfig) (net : GrabEnv)
    (services : Port → Option String) (probe : Probe) (w : Wire) (port : Port) :
    (probe.socket_ok = true → net.addr_ok cfg.target = true →
      ∃ result, tcp_connect_scan cfg net services probe w port = some result) ∧
    (∀ result, tcp_connect_scan cfg net services probe w port = some result →
      result.1.port = port ∧
      result.1.status =
        (if probe.connect_result = 0 then PortStatus.OPEN else PortStatus.CLOSED) ∧
      result.1.status ≠ PortStatus.FILTERED ∧ result.1.status ≠ PortStatus.UNKNOWN ∧
      result.1.status ≠ PortStatus.OPEN_FILTERED) :=
  tcp_connect_scan_spec cfg net services probe w port

/-- Claim C28 on a connect that times out on port 53 of `192.0.2.1`: the result is `CLOSED`. -/
theorem tcp_connect_scan_open_or_closed_witness :
    tcp_connect_scan plain_scan quiet_host.grab quiet_host.services quiet_host.probe {} 53 =
      some ({ port := 53, status := PortStatus.CLOSED, response_time := 1 }, {}) ∧
    ∀ result, tcp_connect_scan plain_scan quiet_host.grab quiet_host.services quiet_host.probe
        {} 53 = some result → result.1.status = PortStatus.CLOSED :=
  ⟨by decide, fun result h =>
    ((tcp_connect_scan_open_or_closed plain_scan quiet_host.grab quiet_host.services
      quiet_host.probe {} 53).2 result h).2.1⟩

/-! ### The timeout branch of process_events -/

theorem mark_filtered_eq (cfg : ScanConfig) (now : Int) (results : ScanResults)
    (conns : List Connection) :
    mark_filtered cfg now results conns =
      results ++ (conns.filter (fun conn => !conn.connected)).map (fun conn =>
        { port := conn.port, status := PortStatus.FILTERED,
          response_time := now - conn.start_time, ip_version := result_ip_version cfg }) := by
  induction conns generalizing results with
  | nil => simp [mark_filtered]
  | cons conn rest ih =>
    rw [mark_filtered]
    cases hc : conn.connected
    · simp [ih, ScanResults.add_result, hc]
    · simp [ih, hc]

/-- Claim C24 fails: in a batch of the ports 80 and 81, port 80 is classified
`CLOSED` by its event and keeps `connected = false`; when the next wait returns
zero events, the timeout branch appends a `FILTERED` result for port 80 as well
as for port 81.  For every table, the branch appends a result exactly for the
records whose `connected` flag is not set, and the flag is set for `OPEN` only. -/
theorem process_events_refilters_closed_port (cfg : ScanConfig) (now : Int)
    (results : ScanResults) (conns : List Connection) :
    ((process_events two_ports refused_then_silent
        (create_connections refused_then_silent (scan_start (fresh_scanner std_fds 0))
          [80, 81]).2).results.map (fun r => (r.port, r.status)) =
      [(80, PortStatus.CLOSED), (80, PortStatus.FILTERED), (81, PortStatus.FILTERED)]) ∧
    ((handle_connection_event two_ports refused_then_silent
        (create_connections refused_then_silent (scan_start (fresh_scanner std_fds 0))
          [80, 81]).2 refused_event).connections_.map (fun conn => (conn.port, conn.connected)) =
      [(80, false), (81, false)]) ∧
    mark_filtered cfg now results conns =
      results ++ (conns.filter (fun conn => !conn.connected)).map (fun conn =>
        { port := conn.port, status := PortStatus.FILTERED,
          response_time := now - conn.start_time, ip_version := result_ip_version cfg }) :=
  ⟨by decide, by decide, mark_filtered_eq cfg now results conns⟩

/-! ### Merging the file config and the command-line config -/

theorem merge_configs_fields (file_config cli_config : ScanConfig) :
    (merge_configs file_config cli_config).ports =
      (if cli_config.ports.isEmpty then file_config.ports else cli_config.ports) ∧
    (merge_configs file_config cli_config).ip_version = file_config.ip_version ∧
    (merge_configs file_config cli_config).service_detection = file_config.service_detection ∧
    (merge_configs file_config cli_config).banner_grabbing = file_config.banner_grabbing ∧
    (merge_configs file_config cli_config).timeout =
      (if cli_config.timeout ≠ DEFAULT_TIMEOUT then cli_config.timeout
       else file_config.timeout) ∧
    (merge_configs file_config cli_config).thread_count =
      (if cli_config.thread_count ≠ DEFAULT_THREAD_COUNT then cli_config.thread_count
       else file_config.thread_count) ∧
    (merge_configs file_config cli_config).target =
      (if cli_config.target ≠ "" ∧ cli_config.target ≠ "127.0.0.1" then cli_config.target
       else file_config.target) ∧
    (merge_configs file_config cli_config).scan_type =
      (if cli_config.scan_type ≠ ScanType.TCP_CONNECT then cli_config.scan_type
       else file_config.scan_type) ∧
    (merge_configs file_config cli_config).output_file =
      (if cli_config.output_file ≠ "" then cli_config.output_file
       else file_config.output_file) ∧
    (merge_configs file_config cli_config).output_format =
      (if cli_config.output_format ≠ "txt" then cli_config.output_format
       else file_config.output_format) := by
  unfold merge_configs
  lift_lets
  intro m0 m1 m2 m3 m4 m5 m6 m7
  have e1 : m1 = if cli_config.target ≠ "" ∧ cli_config.target ≠ "127.0.0.1" then
      { file_config with target := cli_config.target } else file_config := rfl
  have e2 : m2 = if ¬ cli_config.ports.isEmpty then { m1 with ports := cli_config.ports }
      else m1 := rfl
  have e3 : m3 = if cli_config.scan_type ≠ ScanType.TCP_CONNECT then
      { m2 with scan_type := cli_config.scan_type } else m2 := rfl
  have e4 : m4 = if cli_config.timeout ≠ DEFAULT_TIMEOUT then
      { m3 with timeout := cli_config.timeout } else m3 := rfl
  have e5 : m5 = if cli_config.thread_count ≠ DEFAULT_THREAD_COUNT then
      { m4 with thread_count := cli_config.thread_count } else m4 := rfl
  have e6 : m6 = { m5 with verbose := cli_config.verbose || file_config.verbose } := rfl
  have e7 : m7 = if cli_config.output_file ≠ "" then
      { m6 with output_file := cli_config.output_file } else m6 := rfl
  have e8 : (if cli_config.output_format ≠ "txt" then
      ({ m7 with output_format := cli_config.output_format } : ScanConfig) else m7) =
      if cli_config.output_format ≠ "txt" then
        { m7 with output_format := cli_config.output_format } else m7 := rfl
  clear_value m1 m2 m3 m4 m5 m6 m7
  by_cases c1 : cli_config.target ≠ "" ∧ cli_config.target ≠ "127.0.0.1" <;>
  by_cases c2 : cli_config.ports.isEmpty = true <;>
  by_cases c3 : cli_config.scan_type ≠ ScanType.TCP_CONNECT <;>
  by_cases c4 : cli_config.timeout ≠ DEFAULT_TIMEOUT <;>
  by_cases c5 : cli_config.thread_count ≠ DEFAULT_THREAD_COUNT <;>
  by_cases c7 : cli_config.output_file ≠ "" <;>
  by_cases c8 : cli_config.output_format ≠ "txt" <;>
  (simp only [ne_eq, c1, c2, c3, c4, c5, c7, c8, if_true, if_false, not_true_eq_false,
      not_false_eq_true] at e1 e2 e3 e4 e5 e7
   subst e1 e2 e3 e4 e5 e6 e7
   simp [c1, c2, c3, c4, c5, c7, c8])

theorem parse_options_ports (fuel : Nat) (options : List CliOption) (config_ result : ScanConfig)
    (flag : Bool) (hno : gives_ports options = false)
    (h : parse_options fuel config_ options = Run.returns (result, flag)) :
    result.ports = config_.ports := by
  induction options generalizing config_ with
  | nil =>
    simp only [parse_options, Run.returns.injEq, Prod.mk.injEq] at h
    rw [← h.1]
  | cons opt rest ih =>
    cases opt with
    | ports optarg => simp [gives_ports] at hno
    | help =>
      simp only [parse_options, Run.returns.injEq, Prod.mk.injEq] at h
      rw [← h.1]
    | version =>
      simp only [parse_options, Run.returns.injEq, Prod.mk.injEq] at h
      rw [← h.1]
    | invalid => simp [parse_options] at h
    | timeout optarg =>
      have hrest : gives_ports rest = false := by simpa [gives_ports] using hno
      simp only [parse_options] at h
      split at h
      · have hr := ih _ hrest h
        exact hr
      · cases h
    | threads optarg =>
      have hrest : gives_ports rest = false := by simpa [gives_ports] using hno
      simp only [parse_options] at h
      split at h
      · have hr := ih _ hrest h
        exact hr
      · cases h
    | verbose =>
      have hrest : gives_ports rest = false := by simpa [gives_ports] using hno
      simp only [parse_options] at h
      have hr := ih _ hrest h
      exact hr
    | target optarg =>
      have hrest : gives_ports rest = false := by simpa [gives_ports] using hno
      simp only [parse_options] at h
      have hr := ih _ hrest h
      exact hr
    | scan_type optarg =>
      have hrest : gives_ports rest = false := by simpa [gives_ports] using hno
      simp only [parse_options] at h
      have hr := ih _ hrest h
      exact hr
    | ipv6 =>
      have hrest : gives_ports rest = false := by simpa [gives_ports] using hno
      simp only [parse_options] at h
      have hr := ih _ hrest h
      exact hr
    | config optarg =>
      have hrest : gives_ports rest = false := by simpa [gives_ports] using hno
      simp only [parse_options] at h
      have hr := ih _ hrest h
      exact hr
    | output optarg =>
      have hrest : gives_ports rest = false := by simpa [gives_ports] using hno
      simp only [parse_options] at h
      have hr := ih _ hrest h
      exact hr
    | format optarg =>
      have hrest : gives_ports rest = false := by simpa [gives_ports] using hno
      simp only [parse_options] at h
      have hr := ih _ hrest h
      exact hr
    | no_service_detection =>
      have hrest : gives_ports rest = false := by simpa [gives_ports] using hno
      simp only [parse_options] at h
      have hr := ih _ hrest h
      exact hr
    | no_banner_grab =>
      have hrest : gives_ports rest = false := by simpa [gives_ports] using hno
      simp only [parse_options] at h
      have hr := ih _ hrest h
      exact hr
    | performance =>
      have hrest : gives_ports rest = false := by simpa [gives_ports] using hno
      simp only [parse_options] at h
      have hr := ih _ hrest h
      exact hr

theorem parse_arguments_default_ports (fuel : Nat) (options : List CliOption)
    (positional : List String) (cli_config : ScanConfig) (flag : Bool)
    (hno : gives_ports options = false)
    (h : parse_arguments fuel options positional = Run.returns (cli_config, flag)) :
    cli_config.ports = create_default_config.ports := by
  unfold parse_arguments at h
  split at h
  · rename_i config_ hp
    simp only [Run.returns.injEq, Prod.mk.injEq] at h
    rw [← h.1]
    exact parse_options_ports fuel options _ _ _ hno hp
  · rename_i config_ hp
    have hports := parse_options_ports fuel options _ _ _ hno hp
    split at h
    · split_ifs at h
      · simp only [Run.returns.injEq, Prod.mk.injEq] at h
        rw [← h.1]
        exact hports
      · simp only [Run.returns.injEq, Prod.mk.injEq] at h
        rw [← h.1]
        exact hports
    · simp only [Run.returns.injEq, Prod.mk.injEq] at h
      rw [← h.1]
      exact hports
  · cases h
  · cases h

theorem merge_configs_default_ports (fuel : Nat) (options : List CliOption)
    (positional : List String) (cli_config : ScanConfig) (flag : Bool)
    (hno : gives_ports options = false)
    (h : parse_arguments fuel options positional = Run.returns (cli_config, flag))
    (file_config : ScanConfig) :
    (merge_configs file_config cli_config).ports = create_default_config.ports := by
  have hp := parse_arguments_default_ports fuel options positional cli_config flag hno h
  rw [(merge_configs_fields file_config cli_config).1, hp]
  rfl

/-- Claim C21 fails: `merge_configs` never takes `ip_version`,
`service_detection` or `banner_grabbing` from the command-line config.  With
the command line `-B -S -6 -c scan.json` and a file that sets nothing, the
config handed to the scanner has banner grabbing and service detection
switched on and the IP version `AUTO`. -/
theorem merge_configs_drops_cli_flags (file_config cli_config : ScanConfig) :
    ((merge_configs file_config cli_config).ip_version = file_config.ip_version ∧
      (merge_configs file_config cli_config).service_detection =
        file_config.service_detection ∧
      (merge_configs file_config cli_config).banner_grabbing = file_config.banner_grabbing) ∧
    parse_arguments 0
        [CliOption.no_banner_grab, CliOption.no_service_detection, CliOption.ipv6,
          CliOption.config "scan.json"] [] =
      Run.returns ({ create_default_config with
        banner_grabbing := false, service_detection := false, ip_version := IPVersion.IPv6,
        config_file := "scan.json" }, false) ∧
    (main_config literal_resolver (fun _ => some empty_file)
        { create_default_config with
          banner_grabbing := false, service_detection := false, ip_version := IPVersion.IPv6,
          config_file := "scan.json" }).map
        (fun config => (config.banner_grabbing, config.service_detection, config.ip_version)) =
      some (true, true, IPVersion.AUTO) :=
  ⟨⟨(merge_configs_fields file_config cli_config).2.1,
      (merge_configs_fields file_config cli_config).2.2.1,
      (merge_configs_fields file_config cli_config).2.2.2.1⟩, by decide, by decide⟩

/-- Claim C22 fails: `parse_arguments` starts from `create_default_config`,
whose port list holds twenty ports, so without `-p` the command-line port list
is that list, never empty, and `merge_configs` keeps it: the ports of the file
are never scanned.  With `-c scan.json` and a file that names the ports 8000
and 8001, the scanner gets the twenty default ports. -/
theorem merge_configs_ignores_file_ports (file_config : ScanConfig) :
    (∀ (fuel : Nat) (options : List CliOption) (positional : List String)
        (cli_config : ScanConfig) (flag : Bool), gives_ports options = false →
        parse_arguments fuel options positional = Run.returns (cli_config, flag) →
        (merge_configs file_config cli_config).ports = create_default_config.ports) ∧
    parse_arguments 0 [CliOption.config "scan.json"] [] = Run.returns (cli_with_file, false) ∧
    (load_json_config ports_file).map (fun config => config.ports) = some [8000, 8001] ∧
    (main_config literal_resolver (fun _ => some ports_file) cli_with_file).map
        (fun config => config.ports) =
      some [21, 22, 23, 25, 53, 80, 110, 111, 135, 139, 143, 443, 993, 995, 1723, 3306, 3389,
        5432, 5900, 8080] :=
  ⟨fun fuel options positional cli_config flag hno h =>
      merge_configs_default_ports fuel options positional cli_config flag hno h file_config,
    by decide, by decide, by decide⟩

/-! ### The substr calls of the pattern matcher and the analyzers -/

theorem findAux_at (pat : List Char) (l : List Char) (i j : Nat)
    (h : findAux pat l i = some j) : i ≤ j ∧ pat <+: l.drop (j - i) := by
  induction l generalizing i with
  | nil =>
    simp only [findAux] at h
    split_ifs at h with hp
    cases h
    have : pat = [] := by simpa using hp
    subst this
    simp
  | cons c cs ih =>
    rw [findAux] at h
    split_ifs at h with hp
    · cases h
      simp only [le_refl, Nat.sub_self, List.drop_zero, true_and]
      exact (isPrefixOf_sound _ _).mp hp
    · obtain ⟨h1, h2⟩ := ih (i + 1) h
      refine ⟨by omega, ?_⟩
      have e : j - i = (j - (i + 1)) + 1 := by omega
      rw [e, List.drop_succ_cons]
      exact h2

theorem find_at (s pat : String) (pos j : Nat) (h : find s pat pos = some j) :
    pos ≤ j ∧ pat.data <+: s.data.drop j := by
  unfold find at h
  split_ifs at h with hlt
  obtain ⟨h1, h2⟩ := findAux_at _ _ _ _ h
  refine ⟨h1, ?_⟩
  rw [List.drop_drop] at h2
  have e : pos + (j - pos) = j := by omega
  rw [e] at h2
  exact h2

theorem find_char_at (s : String) (c : Char) (pos j : Nat) (h : find_char s c pos = some j) :
    pos ≤ j ∧ pos ≤ s.length ∧ [c] <+: s.data.drop j := by
  have hle := find_char_le s c pos j h
  unfold find_char at h
  split_ifs at h with hlt
  obtain ⟨h1, h2⟩ := findAux_at _ _ _ _ h
  refine ⟨h1, hle, ?_⟩
  rw [List.drop_drop] at h2
  have e : pos + (j - pos) = j := by omega
  rw [e] at h2
  exact h2

theorem or_find_cases (a b : Option Nat) (e : Nat) (h : or_find a b = some e) :
    a = some e ∨ b = some e := by
  unfold or_find at h
  cases a with
  | some x => exact Or.inl h
  | none => exact Or.inr h

theorem end_after_ssh (banner : String) (pos e : Nat) (c : Char)
    (hc : c ≠ 'S' ∧ c ≠ 'H' ∧ c ≠ '-')
    (hf : find banner "SSH-" 0 = some pos) (he : find_char banner c pos = some e) :
    pos + 4 ≤ e := by
  obtain ⟨_, hpre⟩ := find_at _ _ _ _ hf
  obtain ⟨hge, _, hch⟩ := find_char_at _ _ _ _ he
  obtain ⟨t, ht⟩ := hpre
  obtain ⟨u, hu⟩ := hch
  by_contra hlt
  have hk : e - pos < 4 := by omega
  have hd : banner.data.drop e = (banner.data.drop pos).drop (e - pos) := by
    rw [List.drop_drop]
    congr 1
    omega
  rw [hd, ← ht] at hu
  have e4 : ("SSH-" : String).data = ['S', 'S', 'H', '-'] := rfl
  rw [e4] at hu
  obtain ⟨h1, h2, h3⟩ := hc
  interval_cases hk' : e - pos
  · simp at hu
    exact h1 hu.1
  · simp at hu
    exact h1 hu.1
  · simp at hu
    exact h2 hu.1
  · simp at hu
    exact h3 hu.1

theorem extract_ssh_version_calls_ok (banner : String) :
    ∀ call ∈ extract_ssh_version_calls banner,
      call.pos ≤ banner.length ∧ call.pos ≤ call.last := by
  intro call hcall
  unfold extract_ssh_version_calls at hcall
  split at hcall
  · rename_i pos hf
    split at hcall
    · rename_i end_ he
      simp only [List.mem_singleton] at hcall
      subst hcall
      have hb := find_bound banner "SSH-" 0 pos hf
      have h4 : "SSH-".length = 4 := by decide
      rw [h4] at hb
      refine ⟨hb, ?_⟩
      rcases or_find_cases _ _ _ he with h | h
      · rcases or_find_cases _ _ _ h with h | h
        · exact end_after_ssh banner pos end_ ' ' (by decide) hf h
        · exact end_after_ssh banner pos end_ '\r' (by decide) hf h
      · exact end_after_ssh banner pos end_ '\n' (by decide) hf h
    · cases hcall
  · cases hcall

theorem match_loop_calls_ok (banner : String) (ps : List ServicePattern) :
    ∀ call ∈ match_loop_calls banner ps, call.pos ≤ banner.length ∧ call.pos ≤ call.last := by
  induction ps with
  | nil => intro call h; cases h
  | cons p rest ih =>
    intro call h
    rw [match_loop_calls] at h
    split_ifs at h
    · exact extract_ssh_version_calls_ok banner call h
    · cases h
    · exact ih call h

theorem match_patterns_calls_ok (patterns_ : PatternTable) (port : Port) (banner : String) :
    ∀ call ∈ match_patterns_calls patterns_ port banner,
      call.pos ≤ banner.length ∧ call.pos ≤ call.last := by
  intro call h
  unfold match_patterns_calls at h
  split at h
  · exact match_loop_calls_ok banner _ call h
  · cases h

theorem or_find_char_ok (s : String) (c d : Char) (start e : Nat)
    (h : or_find (find_char s c start) (find_char s d start) = some e) :
    start ≤ s.length ∧ start ≤ e := by
  rcases or_find_cases _ _ _ h with h | h
  · obtain ⟨h1, h2, _⟩ := find_char_at _ _ _ _ h
    exact ⟨h2, h1⟩
  · obtain ⟨h1, h2, _⟩ := find_char_at _ _ _ _ h
    exact ⟨h2, h1⟩

theorem analyze_http_response_calls_ok (response : String) :
    ∀ call ∈ analyze_http_response_calls response,
      call.pos ≤ response.length ∧ call.pos ≤ call.last := by
  intro call h
  unfold analyze_http_response_calls at h
  split at h
  · simp only [] at h
    split at h
    · rename_i end_ he
      simp only [List.mem_singleton] at h
      subst h
      exact or_find_char_ok response _ _ _ _ he
    · cases h
  · cases h

theorem analyze_ftp_banner_calls_ok (banner : String) :
    ∀ call ∈ analyze_ftp_banner_calls banner,
      call.pos ≤ banner.length ∧ call.pos ≤ call.last := by
  intro call h
  unfold analyze_ftp_banner_calls at h
  split_ifs at h
  · simp only [] at h
    split at h
    · rename_i end_ he
      simp only [List.mem_singleton] at h
      subst h
      exact or_find_char_ok banner _ _ _ _ he
    · cases h
  · cases h

theorem analyze_ssh_banner_calls_ok (banner : String) :
    ∀ call ∈ analyze_ssh_banner_calls banner,
      call.pos ≤ banner.length ∧ call.pos ≤ call.last := by
  intro call h
  unfold analyze_ssh_banner_calls at h
  split at h
  · simp only [] at h
    split at h
    · rename_i version_end hv
      obtain ⟨v1, v2, _⟩ := find_char_at _ _ _ _ hv
      rcases List.mem_cons.mp h with h | h
      · subst h
        exact ⟨v2, v1⟩
      · split at h
        · split at h
          · rename_i product_end hp
            simp only [List.mem_singleton] at h
            subst h
            rcases or_find_cases _ _ _ hp with hp | hp
            · exact or_find_char_ok banner _ _ _ _ hp
            · obtain ⟨h1, h2, _⟩ := find_char_at _ _ _ _ hp
              exact ⟨h2, h1⟩
          · cases h
        · cases h
    · cases h
  · cases h

theorem substr_calls_spec (patterns_ : PatternTable) (services : Port → Option String)
    (port : Port) (banner : String) :
    ((∃ info, match_patterns patterns_ services port banner = some info) ∧
      (∃ info, analyze_http_response banner = some info) ∧
      (∃ info, analyze_ssh_banner banner = some info) ∧
      (∃ info, analyze_ftp_banner banner = some info)) ∧
    ∀ call ∈ match_patterns_calls patterns_ port banner ++ analyze_http_response_calls banner ++
        analyze_ssh_banner_calls banner ++ analyze_ftp_banner_calls banner,
      call.pos ≤ banner.length ∧ call.pos ≤ call.last := by
  refine ⟨⟨match_patterns_total _ _ _ _, analyze_http_response_total _,
    analyze_ssh_banner_total _, analyze_ftp_banner_total _⟩, ?_⟩
  intro call h
  simp only [List.mem_append] at h
  rcases h with ((h | h) | h) | h
  · exact match_patterns_calls_ok _ _ _ call h
  · exact analyze_http_response_calls_ok _ call h
  · exact analyze_ssh_banner_calls_ok _ call h
  · exact analyze_ftp_banner_calls_ok _ call h

/-- Claim C29: for every banner (and every pattern table, the built-in one
included), `match_patterns`, `analyze_http_response`, `analyze_ssh_banner` and
`analyze_ftp_banner` return without raising, and every `substr` call they make
starts at an index that is at most the banner length and computes its length
from an end index that is not smaller than the start. -/
theorem analyzers_never_out_of_range (patterns_ : PatternTable)
    (services : Port → Option String) (port : Port) (banner : String) :
    ((∃ info, match_patterns patterns_ services port banner = some info) ∧
      (∃ info, analyze_http_response banner = some info) ∧
      (∃ info, analyze_ssh_banner banner = some info) ∧
      (∃ info, analyze_ftp_banner banner = some info)) ∧
    ∀ call ∈ match_patterns_calls patterns_ port banner ++ analyze_http_response_calls banner ++
        analyze_ssh_banner_calls banner ++ analyze_ftp_banner_calls banner,
      call.pos ≤ banner.length ∧ call.pos ≤ call.last :=
  substr_calls_spec patterns_ services port banner

/-- The calls on an OpenSSH banner, and the analyzers on banners that end right
after `SSH-`, `Server:` and `220`. -/
theorem substr_calls_examples :
    analyze_ssh_banner_calls "SSH-2.0-OpenSSH_8.9p1 Ubuntu\r\n" = [⟨4, 7⟩, ⟨8, 21⟩] ∧
    match_patterns_calls SERVICE_PATTERNS 22 "SSH-2.0-OpenSSH_8.9p1\r\n" = [⟨4, 21⟩] ∧
    analyze_http_response_calls "HTTP/1.1 200 OK\r\nServer: nginx\r\n" = [⟨25, 30⟩] ∧
    analyze_ftp_banner_calls "220 ProFTPD\r\n" = [⟨4, 11⟩] ∧
    analyze_ssh_banner "SSH-" = some { name := "ssh", confidence := 90 } ∧
    analyze_http_response "Server:" = some { name := "http", confidence := 80 } ∧
    analyze_ftp_banner "220" = some { name := "ftp", confidence := 80 } := by
  decide

/-! ### The batches of scan_async -/

theorem load_cancelled_never (env : Env) (s : ScanState) (hnc : never_cancelled env)
    (hs : s.cancelled_ = false) : (load_cancelled env s).cancelled_ = false := by
  unfold load_cancelled
  simp [hs, hnc s.flag_reads]

theorem connect_port_cancelled (env : Env) (s : ScanState) (port : Port) :
    (connect_port env s port).cancelled_ = s.cancelled_ := by
  rcases connect_port_cases env s port with h | h | h <;> rw [h]

theorem create_connections_loop_never (env : Env) (ports : List Port) (s : ScanState)
    (hnc : never_cancelled env) (hs : s.cancelled_ = false) :
    (create_connections_loop env s ports).cancelled_ = false := by
  induction ports generalizing s with
  | nil => exact hs
  | cons port rest ih =>
    simp only [create_connections_loop]
    have hl := load_cancelled_never env s hnc hs
    split_ifs with hc
    · exact hl
    · apply ih
      rw [connect_port_cancelled]
      exact hl

theorem handle_connection_event_cancelled (cfg : ScanConfig) (env : Env) (s : ScanState)
    (event : Readiness) :
    (handle_connection_event cfg env s event).cancelled_ = s.cancelled_ := by
  rcases handle_connection_event_cases cfg env s event with h | ⟨idx, conn, _, _, h⟩ <;> rw [h]

theorem foldl_handle_cancelled (cfg : ScanConfig) (env : Env) (events : List Readiness)
    (s : ScanState) :
    (events.foldl (handle_connection_event cfg env) s).cancelled_ = s.cancelled_ := by
  induction events generalizing s with
  | nil => rfl
  | cons e rest ih =>
    rw [List.foldl_cons, ih, handle_connection_event_cancelled]

theorem process_loop_never (cfg : ScanConfig) (env : Env) (fuel : Nat) (s : ScanState)
    (processed : Nat) (hnc : never_cancelled env) (hs : s.cancelled_ = false) :
    (process_loop cfg env fuel s processed).cancelled_ = false := by
  induction fuel generalizing s processed with
  | zero => exact hs
  | succ fuel ih =>
    simp only [process_loop]
    have hl := load_cancelled_never env s hnc hs
    split_ifs with h1 h2
    · exact hl
    · split
      · exact hl
      · split_ifs
        · exact hl
        · apply ih
          rw [foldl_handle_cancelled]
          exact hl
    · exact hs

theorem run_batch_never (cfg : ScanConfig) (env : Env) (s : ScanState) (ports : List Port)
    (hnc : never_cancelled env) (hs : s.cancelled_ = false) :
    (run_batch cfg env s ports).cancelled_ = false := by
  unfold run_batch create_connections
  simp only []
  rw [(cleanup_frame _).2.1]
  have hc := create_connections_loop_never env ports s hnc hs
  split_ifs
  · exact process_loop_never cfg env _ _ 0 hnc hc
  · exact hc

theorem scan_loop_batches (cfg : ScanConfig) (env : Env) (batch_size fuel : Nat)
    (s : ScanState) (i : Nat) (hnc : never_cancelled env) (hs : s.cancelled_ = false) :
    (scan_loop cfg env batch_size fuel s i).1 =
      (batch_slices cfg.ports batch_size fuel i).foldl
        (fun st batch_ports => run_batch cfg env (load_cancelled env st) batch_ports) s := by
  induction fuel generalizing s i with
  | zero => rfl
  | succ fuel ih =>
    simp only [scan_loop, batch_slices]
    have hl := load_cancelled_never env s hnc hs
    split_ifs with h1 h2
    · rw [hl] at h2
      cases h2
    · rw [List.foldl_cons]
      exact ih _ _ (run_batch_never cfg env _ _ hnc hl)
    · rfl

theorem drop_take_slice (ports : List Nat) (i k : Nat) :
    (ports.take (min (i + k) ports.length)).drop i = (ports.drop i).take (min k (ports.drop i).length) := by
  rw [List.length_drop]
  have e1 : ports.take (min (i + k) ports.length) = ports.take (i + k) := by
    rw [List.take_eq_take]
    simp
  rw [e1]
  have e2 : (ports.drop i).take (min k (ports.length - i)) = (ports.drop i).take k := by
    rw [List.take_eq_take, List.length_drop]
    omega
  rw [e2, List.drop_take]
  congr 1
  omega

theorem batch_slices_eq (ports : List Nat) (batch_size : Nat) (fuel i : Nat) :
    batch_slices ports batch_size fuel i =
      consecutive_batches batch_size fuel (ports.drop i) := by
  induction fuel generalizing i with
  | zero => rfl
  | succ fuel ih =>
    simp only [batch_slices, consecutive_batches]
    by_cases h : i < ports.length
    · have hne : ports.drop i ≠ [] := by
        intro he
        have := congrArg List.length he
        simp only [List.length_drop, List.length_nil] at this
        omega
      rw [if_pos h, if_neg hne, ih, drop_take_slice, List.drop_drop]
      congr 2
      · rw [List.length_drop]
        by_cases hk : batch_size ≤ ports.length - i
        · rw [Nat.min_eq_left hk]
        · have hk2 : ports.length - i ≤ batch_size := by omega
          rw [Nat.min_eq_right hk2]
          rw [List.drop_eq_nil_of_le (by omega), List.drop_eq_nil_of_le (by omega)]
    · have he : ports.drop i = [] := List.drop_eq_nil_of_le (by omega)
      rw [if_neg h, if_pos he]

theorem consecutive_batches_min (c n : Nat) (fuel : Nat) (remaining : List Nat)
    (h : remaining.length ≤ n) :
    consecutive_batches (min c n) fuel remaining = consecutive_batches c fuel remaining := by
  induction fuel generalizing remaining with
  | zero => rfl
  | succ fuel ih =>
    simp only [consecutive_batches]
    have e : min (min c n) remaining.length = min c remaining.length := by omega
    rw [e, ih _ (by rw [List.length_drop]; omega)]

theorem consecutive_batches_flatten (c : Nat) (hc : 1 ≤ c) (fuel : Nat) (remaining : List Nat)
    (h : remaining.length ≤ fuel) :
    (consecutive_batches c fuel remaining).flatten = remaining := by
  induction fuel generalizing remaining with
  | zero =>
    have : remaining = [] := List.eq_nil_of_length_eq_zero (by omega)
    subst this
    rfl
  | succ fuel ih =>
    simp only [consecutive_batches]
    split_ifs with he
    · rw [he]
      rfl
    · have hpos : 0 < remaining.length := List.length_pos.mpr he
      rw [List.flatten_cons, ih _ (by rw [List.length_drop]; omega), List.take_append_drop]

theorem consecutive_batches_length (c : Nat) (hc : 1 ≤ c) (fuel : Nat) (remaining : List Nat)
    (h : remaining.length ≤ fuel) :
    (consecutive_batches c fuel remaining).length = (remaining.length + c - 1) / c := by
  induction fuel generalizing remaining with
  | zero =>
    have : remaining = [] := List.eq_nil_of_length_eq_zero (by omega)
    subst this
    simp only [consecutive_batches, List.length_nil, Nat.zero_add]
    exact (Nat.div_eq_of_lt (by omega)).symm
  | succ fuel ih =>
    simp only [consecutive_batches]
    split_ifs with he
    · rw [he]
      simp only [List.length_nil, Nat.zero_add]
      exact (Nat.div_eq_of_lt (by omega)).symm
    · have hpos : 0 < remaining.length := List.length_pos.mpr he
      rw [List.length_cons, ih _ (by rw [List.length_drop]; omega), List.length_drop]
      by_cases hk : c ≤ remaining.length
      · rw [Nat.min_eq_left hk]
        have e1 : remaining.length - c + c - 1 = remaining.length - 1 := by omega
        have e2 : remaining.length + c - 1 = remaining.length - 1 + c := by omega
        rw [e1, e2, Nat.add_div_right _ (by omega)]
      · have hk2 : remaining.length ≤ c := by omega
        rw [Nat.min_eq_right hk2]
        have e1 : remaining.length - remaining.length + c - 1 = c - 1 := by omega
        have e2 : remaining.length + c - 1 = remaining.length - 1 + c := by omega
        rw [e1, e2, Nat.add_div_right _ (by omega), Nat.div_eq_of_lt (by omega),
          Nat.div_eq_of_lt (by omega)]

theorem consecutive_batches_get (c : Nat) (fuel : Nat) (remaining : List Nat) (k : Nat)
    (batch : List Nat) (h : (consecutive_batches c fuel remaining)[k]? = some batch) :
    batch = (remaining.drop (k * c)).take c ∧
      batch.length = min c (remaining.length - k * c) := by
  induction fuel generalizing remaining k with
  | zero => simp [consecutive_batches] at h
  | succ fuel ih =>
    simp only [consecutive_batches] at h
    split_ifs at h with he
    · simp at h
    · cases k with
      | zero =>
        simp only [List.getElem?_cons_zero, Option.some.injEq] at h
        subst h
        simp only [Nat.zero_mul, List.drop_zero, Nat.sub_zero, List.length_take]
        constructor
        · rw [List.take_eq_take]
          omega
        · omega
      | succ k =>
        simp only [List.getElem?_cons_succ] at h
        obtain ⟨h1, h2⟩ := ih _ k h
        rw [List.drop_drop] at h1
        rw [List.length_drop] at h2
        by_cases hk : c ≤ remaining.length
        · rw [Nat.min_eq_left hk] at h1 h2
          have e : (k + 1) * c = c + k * c := by ring
          rw [e]
          exact ⟨h1, by rw [h2]; omega⟩
        · have hk2 : remaining.length ≤ c := by omega
          rw [Nat.min_eq_right hk2] at h1 h2
          have hz : batch = [] := by
            rw [h1, List.drop_eq_nil_of_le (by omega)]
            exact List.take_nil
          have hle : remaining.length ≤ (k + 1) * c := by
            have : c ≤ (k + 1) * c := Nat.le_mul_of_pos_left c (by omega)
            omega
          subst hz
          constructor
          · rw [List.drop_eq_nil_of_le hle]
            exact List.take_nil.symm
          · simp only [List.length_nil]
            omega

theorem scan_async_batches_spec (cfg : ScanConfig) (env : Env) (s : ScanState)
    (ht : 1 ≤ cfg.thread_count) (hnc : never_cancelled env) :
    (scan_run cfg env s).2 = true ∧
    (scan_run cfg env s).1 =
      (consecutive_batches cfg.thread_count (cfg.ports.length + 1) cfg.ports).foldl
        (fun st batch_ports => run_batch cfg env (load_cancelled env st) batch_ports)
        (scan_start s) ∧
    batch_slices cfg.ports (min cfg.thread_count cfg.ports.length) (cfg.ports.length + 1) 0 =
      consecutive_batches cfg.thread_count (cfg.ports.length + 1) cfg.ports ∧
    (consecutive_batches cfg.thread_count (cfg.ports.length + 1) cfg.ports).flatten =
      cfg.ports ∧
    (consecutive_batches cfg.thread_count (cfg.ports.length + 1) cfg.ports).length =
      (cfg.ports.length + cfg.thread_count - 1) / cfg.thread_count ∧
    ∀ (k : Nat) (batch : List Port),
      (consecutive_batches cfg.thread_count (cfg.ports.length + 1) cfg.ports)[k]? = some batch →
      batch = (cfg.ports.drop (k * cfg.thread_count)).take cfg.thread_count ∧
        batch.length = min cfg.thread_count (cfg.ports.length - k * cfg.thread_count) := by
  have hslices : batch_slices cfg.ports (min cfg.thread_count cfg.ports.length)
      (cfg.ports.length + 1) 0 =
      consecutive_batches cfg.thread_count (cfg.ports.length + 1) cfg.ports := by
    rw [batch_slices_eq, List.drop_zero, consecutive_batches_min _ _ _ _ (le_refl _)]
  have hdone : (scan_run cfg env s).2 = true := by
    unfold scan_run
    by_cases hn : cfg.ports.length = 0
    · simp [scan_loop, hn]
    · exact scan_loop_finishes cfg env _ (by omega) _ _ 0 (by omega) (by omega)
  refine ⟨hdone, ?_, hslices, consecutive_batches_flatten _ ht _ _ (by omega),
    consecutive_batches_length _ ht _ _ (by omega),
    fun k batch h => consecutive_batches_get _ _ _ k batch h⟩
  unfold scan_run
  rw [scan_loop_batches cfg env _ _ _ 0 hnc rfl, hslices]

/-- Claim C25: in a scan with `thread_count ≥ 1` during which `cancel()` is not
called, the batch loop of `scan_async` ends, and the batches it hands to
`create_connections` are the consecutive slices of `config.ports` of size
`min(thread_count, ports remaining)`: their concatenation is `config.ports`,
the `k`-th batch starts at index `k * thread_count`, and there are
`ceil(|ports| / thread_count)` of them. -/
theorem scan_async_batches_partition_ports (cfg : ScanConfig) (env : Env) (s : ScanState)
    (ht : 1 ≤ cfg.thread_count) (hnc : never_cancelled env) :
    (scan_run cfg env s).2 = true ∧
    (scan_run cfg env s).1 =
      (consecutive_batches cfg.thread_count (cfg.ports.length + 1) cfg.ports).foldl
        (fun st batch_ports => run_batch cfg env (load_cancelled env st) batch_ports)
        (scan_start s) ∧
    batch_slices cfg.ports (min cfg.thread_count cfg.ports.length) (cfg.ports.length + 1) 0 =
      consecutive_batches cfg.thread_count (cfg.ports.length + 1) cfg.ports ∧
    (consecutive_batches cfg.thread_count (cfg.ports.length + 1) cfg.ports).flatten =
      cfg.ports ∧
    (consecutive_batches cfg.thread_count (cfg.ports.length + 1) cfg.ports).length =
      (cfg.ports.length + cfg.thread_count - 1) / cfg.thread_count ∧
    ∀ (k : Nat) (batch : List Port),
      (consecutive_batches cfg.thread_count (cfg.ports.length + 1) cfg.ports)[k]? = some batch →
      batch = (cfg.ports.drop (k * cfg.thread_count)).take cfg.thread_count ∧
        batch.length = min cfg.thread_count (cfg.ports.length - k * cfg.thread_count) :=
  scan_async_batches_spec cfg env s ht hnc

/-- Claim C25 on three ports scanned with `thread_count = 2`: the batches are
`[22, 80]` and `[443]`. -/
theorem scan_async_batches_partition_ports_witness :
    (1 ≤ three_ports.thread_count ∧ never_cancelled refused_then_silent) ∧
    consecutive_batches 2 4 [22, 80, 443] = [[22, 80], [443]] ∧
    ((scan_run three_ports refused_then_silent (fresh_scanner std_fds 0)).2 = true ∧
    (scan_run three_ports refused_then_silent (fresh_scanner std_fds 0)).1 =
      (consecutive_batches three_ports.thread_count (three_ports.ports.length + 1)
          three_ports.ports).foldl
        (fun st batch_ports =>
          run_batch three_ports refused_then_silent (load_cancelled refused_then_silent st)
            batch_ports)
        (scan_start (fresh_scanner std_fds 0)) ∧
    batch_slices three_ports.ports (min three_ports.thread_count three_ports.ports.length)
        (three_ports.ports.length + 1) 0 =
      consecutive_batches three_ports.thread_count (three_ports.ports.length + 1)
        three_ports.ports ∧
    (consecutive_batches three_ports.thread_count (three_ports.ports.length + 1)
        three_ports.ports).flatten = three_ports.ports ∧
    (consecutive_batches three_ports.thread_count (three_ports.ports.length + 1)
        three_ports.ports).length =
      (three_ports.ports.length + three_ports.thread_count - 1) / three_ports.thread_count ∧
    ∀ (k : Nat) (batch : List Port),
      (consecutive_batches three_ports.thread_count (three_ports.ports.length + 1)
        three_ports.ports)[k]? = some batch →
      batch = (three_ports.ports.drop (k * three_ports.thread_count)).take
          three_ports.thread_count ∧
        batch.length =
          min three_ports.thread_count
            (three_ports.ports.length - k * three_ports.thread_count)) :=
  ⟨⟨by decide, fun _ => rfl⟩, by decide,
    scan_async_batches_partition_ports three_ports refused_then_silent
      (fresh_scanner std_fds 0) (by decide) (fun _ => rfl)⟩

/-! ### The scan types -/

theorem udp_scan_spec (cfg : ScanConfig) (net : PortNet) (w : Wire) (port : Port) :
    (net.udp.socket_ok = true → net.grab.addr_ok cfg.target = true →
      ∃ result, udp_scan cfg net w port = some result) ∧
    ∀ result, udp_scan cfg net w port = some result →
      result.1.port = port ∧
      result.1.status =
        (if net.udp.sent > 0 then
          if net.udp.poll_result > 0 then PortStatus.OPEN
          else if net.udp.poll_result = 0 then PortStatus.FILTERED
          else PortStatus.CLOSED
        else PortStatus.UNKNOWN) := by
  obtain ⟨info, hinfo⟩ := detect_service_on_total net.grab SERVICE_PATTERNS net.services w
    cfg.target port ""
  constructor
  · intro hs ha
    unfold udp_scan
    simp only [hs, ha, Bool.not_true, Bool.false_eq_true, if_false, hinfo]
    split_ifs <;> exact ⟨_, rfl⟩
  · intro result h
    unfold udp_scan at h
    by_cases h1 : (!net.udp.socket_ok) = true
    · simp only [h1, if_true] at h
      cases h
    by_cases h2 : (!net.grab.addr_ok cfg.target) = true
    · simp only [h1, h2, if_true, if_false] at h
      cases h
    simp only [h1, h2, if_false, hinfo] at h
    generalize (if net.udp.sent > 0 then
        if net.udp.poll_result > 0 then PortStatus.OPEN
        else if net.udp.poll_result = 0 then PortStatus.FILTERED
        else PortStatus.CLOSED
      else PortStatus.UNKNOWN) = status at h ⊢
    split_ifs at h <;> (simp only [Option.some.injEq] at h; subst h; exact ⟨rfl, rfl⟩)

theorem scan_single_port_cases (cfg : ScanConfig) (net : PortNet) (w : Wire) (port : Port) :
    scan_single_port cfg net w port ScanType.TCP_CONNECT =
      scan_single_port_spec cfg net w port ScanType.TCP_CONNECT ∧
    scan_single_port cfg net w port ScanType.TCP_ACK =
      scan_single_port_spec cfg net w port ScanType.TCP_ACK ∧
    scan_single_port cfg net w port ScanType.TCP_FIN =
      scan_single_port_spec cfg net w port ScanType.TCP_FIN ∧
    ((net.raw_socket_ok = false ∨
        (scan_single_port_spec cfg net w port ScanType.TCP_SYN).isSome = true) →
      scan_single_port cfg net w port ScanType.TCP_SYN =
        scan_single_port_spec cfg net w port ScanType.TCP_SYN) ∧
    (net.raw_socket_ok = true →
      scan_single_port_spec cfg net w port ScanType.TCP_SYN = none →
      scan_single_port cfg net w port ScanType.TCP_SYN =
        tcp_connect_scan cfg net.grab net.services net.retry w port) ∧
    scan_single_port cfg net w port ScanType.UDP = udp_scan cfg net w port := by
  refine ⟨rfl, rfl, rfl, ?_, ?_, rfl⟩
  · intro h
    show tcp_syn_scan cfg net w port = tcp_connect_scan cfg net.grab net.services net.probe w port
    unfold tcp_syn_scan
    rcases h with h | h
    · simp [h]
    · have h2 : (tcp_connect_scan cfg net.grab net.services net.probe w port).isSome = true := h
      cases hr : tcp_connect_scan cfg net.grab net.services net.probe w port with
      | none =>
        rw [hr] at h2
        cases h2
      | some result => simp
  · intro hraw hnone
    have h2 : tcp_connect_scan cfg net.grab net.services net.probe w port = none := hnone
    show tcp_syn_scan cfg net w port = _
    unfold tcp_syn_scan
    simp [hraw, h2]

/-- Counterexample to claim C26: on a host that refuses the TCP connection and
sends no datagram back, the UDP scan of port 53 reports `FILTERED` after the
poll timeout while the connect scan reports `CLOSED`; and when the first
socket of the connect scan cannot be created, the SYN scan runs the connect
scan a second time and returns a result where the connect scan raises. -/
theorem udp_scan_is_not_connect_scan :
    scan_single_port plain_scan quiet_host {} 53 ScanType.UDP =
      some ({ port := 53, status := PortStatus.FILTERED, response_time := 3000 }, {}) ∧
    scan_single_port_spec plain_scan quiet_host {} 53 ScanType.UDP =
      some ({ port := 53, status := PortStatus.CLOSED, response_time := 1 }, {}) ∧
    scan_single_port plain_scan socket_shortage {} 53 ScanType.TCP_SYN =
      some ({ port := 53, status := PortStatus.CLOSED, response_time := 0 }, {}) ∧
    scan_single_port_spec plain_scan socket_shortage {} 53 ScanType.TCP_SYN = none := by
  decide

/-- Claim C26, amended: `scan_single_port` is the connect scan for
`TCP_CONNECT`, `TCP_ACK` and `TCP_FIN`, and for `TCP_SYN` whenever the raw
socket cannot be created or the connect scan returns a result (otherwise the
connect scan is run a second time); for `UDP` it runs `udp_scan`, which
returns as soon as its socket is created and the address accepted, with status
`OPEN` when `poll` reports an answer, `FILTERED` when `poll` times out,
`CLOSED` when `poll` fails and `UNKNOWN` when `sendto` sends nothing. -/
theorem scan_single_port_falls_back_except_udp (cfg : ScanConfig) (net : PortNet) (w : Wire)
    (port : Port) :
    (scan_single_port cfg net w port ScanType.TCP_CONNECT =
        scan_single_port_spec cfg net w port ScanType.TCP_CONNECT ∧
      scan_single_port cfg net w port ScanType.TCP_ACK =
        scan_single_port_spec cfg net w port ScanType.TCP_ACK ∧
      scan_single_port cfg net w port ScanType.TCP_FIN =
        scan_single_port_spec cfg net w port ScanType.TCP_FIN ∧
      ((net.raw_socket_ok = false ∨
          (scan_single_port_spec cfg net w port ScanType.TCP_SYN).isSome = true) →
        scan_single_port cfg net w port ScanType.TCP_SYN =
          scan_single_port_spec cfg net w port ScanType.TCP_SYN) ∧
      (net.raw_socket_ok = true →
        scan_single_port_spec cfg net w port ScanType.TCP_SYN = none →
        scan_single_port cfg net w port ScanType.TCP_SYN =
          tcp_connect_scan cfg net.grab net.services net.retry w port) ∧
      scan_single_port cfg net w port ScanType.UDP = udp_scan cfg net w port) ∧
    (net.udp.socket_ok = true → net.grab.addr_ok cfg.target = true →
      ∃ result, udp_scan cfg net w port = some result) ∧
    ∀ result, udp_scan cfg net w port = some result →
      result.1.port = port ∧
      result.1.status =
        (if net.udp.sent > 0 then
          if net.udp.poll_result > 0 then PortStatus.OPEN
          else if net.udp.poll_result = 0 then PortStatus.FILTERED
          else PortStatus.CLOSED
        else PortStatus.UNKNOWN) :=
  ⟨scan_single_port_cases cfg net w port, udp_scan_spec cfg net w port⟩

/-- Claim C26, amended, on the SYN scan of port 53 of a host that refuses the
connection: the result is the result of the connect scan. -/
theorem scan_single_port_falls_back_except_udp_witness :
    (quiet_host.raw_socket_ok = false ∨
      (scan_single_port_spec plain_scan quiet_host {} 53 ScanType.TCP_SYN).isSome = true) ∧
    scan_single_port plain_scan quiet_host {} 53 ScanType.TCP_SYN =
      scan_single_port_spec plain_scan quiet_host {} 53 ScanType.TCP_SYN :=
  ⟨Or.inl rfl,
    (scan_single_port_falls_back_except_udp plain_scan quiet_host {} 53).1.2.2.2.1
      (Or.inl rfl)⟩

/-! ### The threaded scan -/

theorem ports_per_thread_bounds (n t : Nat) (hn : 1 ≤ n) (ht : 1 ≤ t) :
    min t n ≠ 0 ∧ 1 ≤ (n + min t n - 1) / min t n ∧
      n ≤ min t n * ((n + min t n - 1) / min t n) := by
  have hm : 1 ≤ min t n := by omega
  refine ⟨by omega, ?_, ?_⟩
  · rw [Nat.le_div_iff_mul_le (by omega)]
    omega
  · have h := Nat.lt_div_mul_add (a := n + min t n - 1) (b := min t n) (by omega)
    rw [Nat.mul_comm]
    omega

theorem thread_ranges_cover (n thread_count c : Nat) (hc : 1 ≤ c) (hcover : n ≤ thread_count * c)
    (fuel i : Nat) (hf : thread_count ≤ i + fuel) :
    ((thread_ranges n thread_count c fuel i).map
        (fun range => List.range' range.1 (range.2 - range.1))).flatten =
      List.range' (i * c) (n - i * c) := by
  induction fuel generalizing i with
  | zero =>
    have hi : thread_count * c ≤ i * c := Nat.mul_le_mul_right c (by omega)
    have e : n - i * c = 0 := by omega
    rw [e]
    rfl
  | succ fuel ih =>
    simp only [thread_ranges]
    split_ifs with h1 h2
    · have e : n - i * c = 0 := by omega
      rw [e]
      rfl
    · rw [List.map_cons, List.flatten_cons, ih (i + 1) (by omega)]
      have e1 : (i + 1) * c = i * c + c := by ring
      rw [e1]
      by_cases hk : i * c + c ≤ n
      · rw [Nat.min_eq_left hk]
        have e2 : i * c + c - i * c = c := by omega
        rw [e2, List.range'_append_1]
        congr 1
        omega
      · have hk2 : n ≤ i * c + c := by omega
        rw [Nat.min_eq_right hk2]
        have e3 : n - (i * c + c) = 0 := by omega
        rw [e3]
        simp
    · have hi : thread_count * c ≤ i * c := Nat.mul_le_mul_right c (by omega)
      have e : n - i * c = 0 := by omega
      rw [e]
      rfl

theorem interleaving_perm (threads : List (List ScanResult)) (out : List ScanResult)
    (h : Interleaving threads out) : out.Perm threads.flatten := by
  induction h with
  | done threads hall =>
    have : threads.flatten = [] := by
      rw [List.flatten_eq_nil_iff]
      exact hall
    rw [this]
  | step threads i r rest out hi _ ih =>
    have key : ∀ (ts : List (List ScanResult)) (j : Nat), ts[j]? = some (r :: rest) →
        (r :: (ts.set j rest).flatten).Perm ts.flatten := by
      intro ts
      induction ts with
      | nil => intro j hj; simp at hj
      | cons t ts iht =>
        intro j hj
        cases j with
        | zero =>
          simp only [List.getElem?_cons_zero, Option.some.injEq] at hj
          subst hj
          simp
        | succ j =>
          simp only [List.getElem?_cons_succ] at hj
          simp only [List.set_cons_succ, List.flatten_cons]
          exact (List.perm_middle.symm).trans ((iht j hj).append_left t)
    exact (List.Perm.cons r ih).trans (key threads i hi)

theorem interleaving_idle (threads : List (List ScanResult)) (out : List ScanResult)
    (h : Interleaving threads out) : Interleaving ([] :: threads) out := by
  induction h with
  | done threads hall =>
    apply Interleaving.done
    intro t ht
    rcases List.mem_cons.mp ht with ht | ht
    · exact ht
    · exact hall t ht
  | step threads i r rest out hi _ ih =>
    exact Interleaving.step ([] :: threads) (i + 1) r rest out (by simpa using hi) ih

theorem interleaving_first (t : List ScanResult) (threads : List (List ScanResult))
    (out : List ScanResult) (h : Interleaving ([] :: threads) out) :
    Interleaving (t :: threads) (t ++ out) := by
  induction t with
  | nil => exact h
  | cons r rest ih =>
    exact Interleaving.step ((r :: rest) :: threads) 0 r rest (rest ++ out) (by simp) ih

theorem interleaving_sequential (threads : List (List ScanResult)) :
    Interleaving threads threads.flatten := by
  induction threads with
  | nil => exact Interleaving.done [] (by simp)
  | cons t ts ih =>
    rw [List.flatten_cons]
    exact interleaving_first t ts _ (interleaving_idle ts _ ih)

theorem scan_index_quiet (cfg : ScanConfig) (env : Nat → IndexEnv) (idx : Nat)
    (h : (env idx).progress_raises = false) :
    scan_index cfg env idx = [result_at cfg env idx] := by
  unfold scan_index result_at
  simp only [h]
  cases scan_single_port cfg (env idx).net {} (cfg.ports.getD idx 0) cfg.scan_type <;> rfl

theorem workers_flatten (cfg : ScanConfig) (env : Nat → IndexEnv)
    (ranges : List (Nat × Nat)) :
    (ranges.map (fun range => worker cfg env range.1 range.2)).flatten =
      (((ranges.map (fun range => List.range' range.1 (range.2 - range.1))).flatten).map
        (scan_index cfg env)).flatten := by
  induction ranges with
  | nil => rfl
  | cons r rest ih =>
    simp only [List.map_cons, List.flatten_cons, List.map_append, List.flatten_append, ih]
    rfl

theorem scan_ports_threads_flatten (cfg : ScanConfig) (env : Nat → IndexEnv)
    (hn : 1 ≤ cfg.ports.length) (ht : 1 ≤ cfg.thread_count) :
    ∃ threads, scan_ports_threads cfg env = some threads ∧
      threads.flatten = ((List.range cfg.ports.length).map (scan_index cfg env)).flatten := by
  obtain ⟨h0, h1, h2⟩ := ports_per_thread_bounds cfg.ports.length cfg.thread_count hn ht
  unfold scan_ports_threads
  simp only [h0, if_false]
  refine ⟨_, rfl, ?_⟩
  rw [workers_flatten, thread_ranges_cover _ _ _ h1 h2 _ 0 (by omega)]
  simp [List.range_eq_range']

theorem scan_single_port_port (cfg : ScanConfig) (net : PortNet) (w : Wire) (port : Port)
    (scan_type : ScanType) (result : ScanResult × Wire)
    (h : scan_single_port cfg net w port scan_type = some result) : result.1.port = port := by
  cases scan_type with
  | TCP_CONNECT => exact ((tcp_connect_scan_spec cfg _ _ _ w port).2 result h).1
  | TCP_ACK => exact ((tcp_connect_scan_spec cfg _ _ _ w port).2 result h).1
  | TCP_FIN => exact ((tcp_connect_scan_spec cfg _ _ _ w port).2 result h).1
  | UDP => exact ((udp_scan_spec cfg net w port).2 result h).1
  | TCP_SYN =>
    have h2 : tcp_syn_scan cfg net w port = some result := h
    unfold tcp_syn_scan at h2
    split_ifs at h2
    · split at h2
      · rename_i r hr
        cases h2
        exact ((tcp_connect_scan_spec cfg _ _ _ w port).2 _ hr).1
      · exact ((tcp_connect_scan_spec cfg _ _ _ w port).2 result h2).1
    · exact ((tcp_connect_scan_spec cfg _ _ _ w port).2 result h2).1

theorem result_at_spec (cfg : ScanConfig) (env : Nat → IndexEnv) (idx : Nat) :
    (result_at cfg env idx).port = cfg.ports.getD idx 0 ∧
    (scan_single_port cfg (env idx).net {} (cfg.ports.getD idx 0) cfg.scan_type = none →
      (result_at cfg env idx).status = PortStatus.UNKNOWN) ∧
    (∀ scanned, scan_single_port cfg (env idx).net {} (cfg.ports.getD idx 0) cfg.scan_type =
        some scanned → result_at cfg env idx = scanned.1) := by
  unfold result_at
  cases h : scan_single_port cfg (env idx).net {} (cfg.ports.getD idx 0) cfg.scan_type with
  | none => exact ⟨rfl, fun _ => rfl, fun _ hs => by cases hs⟩
  | some scanned =>
    refine ⟨scan_single_port_port cfg _ _ _ _ scanned h, fun hn => (by cases hn), ?_⟩
    intro s hs
    cases hs
    rfl

theorem scan_ports_spec (cfg : ScanConfig) (env : Nat → IndexEnv)
    (hn : 1 ≤ cfg.ports.length) (ht : 1 ≤ cfg.thread_count) :
    min cfg.thread_count cfg.ports.length ≠ 0 ∧
    ((thread_ranges cfg.ports.length (min cfg.thread_count cfg.ports.length)
        ((cfg.ports.length + min cfg.thread_count cfg.ports.length - 1) /
          min cfg.thread_count cfg.ports.length)
        (min cfg.thread_count cfg.ports.length) 0).map
        (fun range => List.range' range.1 (range.2 - range.1))).flatten =
      List.range cfg.ports.length ∧
    (∃ results, ScanPortsReturns cfg env results) ∧
    ((∀ idx, (env idx).progress_raises = false) →
      ∀ results, ScanPortsReturns cfg env results →
        results.Perm ((List.range cfg.ports.length).map (result_at cfg env))) ∧
    ∀ idx, (result_at cfg env idx).port = cfg.ports.getD idx 0 ∧
      (scan_single_port cfg (env idx).net {} (cfg.ports.getD idx 0) cfg.scan_type = none →
        (result_at cfg env idx).status = PortStatus.UNKNOWN) ∧
      (∀ scanned, scan_single_port cfg (env idx).net {} (cfg.ports.getD idx 0) cfg.scan_type =
          some scanned → result_at cfg env idx = scanned.1) := by
  obtain ⟨h0, h1, h2⟩ := ports_per_thread_bounds cfg.ports.length cfg.thread_count hn ht
  obtain ⟨threads, hthreads, hflat⟩ := scan_ports_threads_flatten cfg env hn ht
  refine ⟨h0, ?_, ⟨threads.flatten, threads, hthreads, interleaving_sequential threads⟩, ?_,
    result_at_spec cfg env⟩
  · rw [thread_ranges_cover _ _ _ h1 h2 _ 0 (by omega)]
    simp [List.range_eq_range']
  · intro hquiet results hret
    obtain ⟨ts, hts, hint⟩ := hret
    rw [hthreads] at hts
    cases hts
    have hp := interleaving_perm _ _ hint
    rw [hflat] at hp
    have e : ((List.range cfg.ports.length).map (scan_index cfg env)).flatten =
        (List.range cfg.ports.length).map (result_at cfg env) := by
      have hfun : scan_index cfg env = fun idx => [result_at cfg env idx] :=
        funext (fun idx => scan_index_quiet cfg env idx (hquiet idx))
      rw [hfun]
      generalize List.range cfg.ports.length = l
      induction l with
      | nil => rfl
      | cons a rest ih => simp [ih]
    rw [e] at hp
    exact hp

/-- Claim C27: in the threaded path of `scan_ports`, for `n ≥ 1` ports and
`thread_count ≥ 1`, the divisor `min(thread_count, n)` is not zero, the index
ranges of the worker threads, taken in order, are the indices `0 .. n-1` (so
they are pairwise disjoint and cover every index), the scan returns, and with a
progress callback that does not raise every value it can return is a
permutation of one result per index, whose port is the port at that index and
whose status is `UNKNOWN` when scanning the port raises. -/
theorem scan_ports_one_result_per_port (cfg : ScanConfig) (env : Nat → IndexEnv)
    (hn : 1 ≤ cfg.ports.length) (ht : 1 ≤ cfg.thread_count) :
    min cfg.thread_count cfg.ports.length ≠ 0 ∧
    ((thread_ranges cfg.ports.length (min cfg.thread_count cfg.ports.length)
        ((cfg.ports.length + min cfg.thread_count cfg.ports.length - 1) /
          min cfg.thread_count cfg.ports.length)
        (min cfg.thread_count cfg.ports.length) 0).map
        (fun range => List.range' range.1 (range.2 - range.1))).flatten =
      List.range cfg.ports.length ∧
    (∃ results, ScanPortsReturns cfg env results) ∧
    ((∀ idx, (env idx).progress_raises = false) →
      ∀ results, ScanPortsReturns cfg env results →
        results.Perm ((List.range cfg.ports.length).map (result_at cfg env))) ∧
    ∀ idx, (result_at cfg env idx).port = cfg.ports.getD idx 0 ∧
      (scan_single_port cfg (env idx).net {} (cfg.ports.getD idx 0) cfg.scan_type = none →
        (result_at cfg env idx).status = PortStatus.UNKNOWN) ∧
      (∀ scanned, scan_single_port cfg (env idx).net {} (cfg.ports.getD idx 0) cfg.scan_type =
          some scanned → result_at cfg env idx = scanned.1) :=
  scan_ports_spec cfg env hn ht

/-- Claim C27 on three ports scanned by two threads: the ranges are `[0, 2)` and `[2, 3)`. -/
theorem scan_ports_one_result_per_port_witness :
    (1 ≤ three_ports.ports.length ∧ 1 ≤ three_ports.thread_count) ∧
    thread_ranges 3 2 2 2 0 = [(0, 2), (2, 3)] ∧
    (min three_ports.thread_count three_ports.ports.length ≠ 0 ∧
    ((thread_ranges three_ports.ports.length
        (min three_ports.thread_count three_ports.ports.length)
        ((three_ports.ports.length + min three_ports.thread_count three_ports.ports.length - 1) /
          min three_ports.thread_count three_ports.ports.length)
        (min three_ports.thread_count three_ports.ports.length) 0).map
        (fun range => List.range' range.1 (range.2 - range.1))).flatten =
      List.range three_ports.ports.length ∧
    (∃ results, ScanPortsReturns three_ports all_refused results) ∧
    ((∀ idx, (all_refused idx).progress_raises = false) →
      ∀ results, ScanPortsReturns three_ports all_refused results →
        results.Perm ((List.range three_ports.ports.length).map
          (result_at three_ports all_refused))) ∧
    ∀ idx, (result_at three_ports all_refused idx).port = three_ports.ports.getD idx 0 ∧
      (scan_single_port three_ports (all_refused idx).net {} (three_ports.ports.getD idx 0)
          three_ports.scan_type = none →
        (result_at three_ports all_refused idx).status = PortStatus.UNKNOWN) ∧
      (∀ scanned, scan_single_port three_ports (all_refused idx).net {}
          (three_ports.ports.getD idx 0) three_ports.scan_type = some scanned →
        result_at three_ports all_refused idx = scanned.1)) :=
  ⟨⟨by decide, by decide⟩, by decide,
    scan_ports_one_result_per_port three_ports all_refused (by decide) (by decide)⟩

/-! ### The port list main hands to the scanner -/

theorem validate_config_ports (net : Resolver) (cli_config config : ScanConfig)
    (h : validate_config net cli_config = some config) : config.ports ≠ [] := by
  unfold validate_config at h
  simp only [] at h
  split at h
  · cases h
  · split_ifs at h with h1 h2 h3 h4 h5
    cases h
    rw [List.isEmpty_iff] at h3
    exact h3

/-- The config `main` hands to the scanner never has an empty port list: the
validated command-line list is not empty and `merge_configs` keeps it. -/
theorem main_config_ports (net : Resolver) (read_file : String → Option String)
    (cli_config config : ScanConfig) (h : main_config net read_file cli_config = some config) :
    config.ports ≠ [] := by
  unfold main_config at h
  split at h
  · cases h
  · rename_i validated hv
    have hp := validate_config_ports net cli_config validated hv
    have he : validated.ports.isEmpty = false := by
      cases hl : validated.ports with
      | nil => exact absurd hl hp
      | cons a rest => rfl
    split_ifs at h
    · split at h
      · cases h
        rw [(merge_configs_fields _ _).1, he]
        exact hp
      · cases h
        exact hp
    · cases h
      exact hp

end PortScanner
